import Mathlib

/-!
# urGovernor : ObjectTracker

A shallow embedding of `src/ObjectTracker.cpp` and the properties of the
tracker registry proved about it.

Modelling conventions

* `std::map<ObjectID, V>` is an association list kept in ascending key order
  (`StdMap`).  `m[k]` as an rvalue is `StdMap.get` (the stored value, or the
  value-initialised default) together with `StdMap.touch` (the entry that
  `operator[]` creates when the key is missing); `m[k] = v` is
  `StdMap.insert_or_assign`; `m.erase(k)` is `StdMap.erase`.
* `std::vector<T>` is `List T`; `v[i]` is `List.getD` with the
  value-initialised default.
* Identities and missed-frame counts are unbounded natural numbers.
* The class header is not part of the sources: `ObjectID`, `Object`,
  `Distance`, the member declarations and `Object::operator>` are modelled
  from the specification, `operator>` being a parameter `gt`.
* Three things are not fixed by the source text.  The distances are computed
  in the floating type `Distance`, where casts, products, sums and `sqrt`
  round; `std::sort` leaves the order of equivalent elements open; and the
  loop of `cleanup_dissapeared` erases the map entry under its own iterator
  and then increments it, which is undefined.  The functions `update_branches`,
  `cleanup_dissapeared` and `update` describe one run: distances kept exactly
  (`euclidean_distance` returns the radicand of the square root, the
  tolerance is a fraction), the stable sort `std_sort`, and an eviction loop
  that reaches every entry in key order.  They are used for concrete inputs
  on which no rounding, no tie and no eviction occurs, and for properties
  that do not depend on these choices.  What holds of every run is stated
  with `Computed` (any outcome of the tolerance tests and of the sorts),
  `update_branches_with` and `CleanupOutcome` (any tracker that a returning
  run of the eviction loop can leave).
-/

namespace urGovernor

/-! ## Types declared in the header -/

/-- Modelled from the spec: the `ObjectID` typedef lives in the absent header
`urGovernor/ObjectTracker.h`; the specification describes it as an opaque,
monotonically increasing integer that is never reused. -/
abbrev ObjectID := Nat

/-- Modelled from the spec: the `Object` struct lives in the absent header;
the specification gives it a 3D position and a scalar size, and the source
prints `x`, `y`, `z` as integers. -/
structure Object where
  x : Int
  y : Int
  z : Int
  size : Int
deriving DecidableEq, Repr

/-- Value-initialised `Object`, as created by `std::map::operator[]`. -/
instance : Inhabited Object := ⟨⟨0, 0, 0, 0⟩⟩

/-- Modelled from the spec: `Distance` is a typedef of the absent header (a
floating type).  A distance `sqrt r` is represented exactly by its radicand
`r`; `sqrt` is strictly increasing, so `<` on distances is `<` on radicands. -/
abbrev Distance := Nat

/-- The configured tolerance `m_dist_tol`, an exact fraction `num / den`.  A tolerance with
`den = 0` stands for a value that is not a number: every comparison with it is false. -/
structure Tolerance where
  num : Int
  den : Nat
deriving DecidableEq, Repr

/-- The test `d < m_dist_tol` on exact values: `sqrt r < num / den` holds iff `0 < num`,
`0 < den` and `r * den * den < num * num`. -/
def lt_tol (d : Distance) (t : Tolerance) : Bool :=
  decide (0 < t.num ∧ 0 < t.den ∧ (d : Int) * (t.den : Int) * (t.den : Int) < t.num * t.num)

/-! ## std::map -/

/-- An ordered map from `ObjectID`, as the list of its entries in ascending key order. -/
abbrev StdMap (V : Type) := List (ObjectID × V)

namespace StdMap

variable {V : Type}

/-- The keys in iteration order. -/
def keys (m : StdMap V) : List ObjectID := m.map Prod.fst

/-- Number of entries: `m.size()`. -/
def size (m : StdMap V) : Nat := m.length

/-- Lookup: `m.find(k)`. -/
def find? : StdMap V → ObjectID → Option V
  | [], _ => none
  | (k', v) :: r, k => if k' = k then some v else find? r k

/-- The effect of `m[k] = v`: overwrite the entry of `k`, or insert it at its place. -/
def insert_or_assign : StdMap V → ObjectID → V → StdMap V
  | [], k, v => [(k, v)]
  | (k', v') :: r, k, v =>
    if k < k' then (k, v) :: (k', v') :: r
    else if k = k' then (k, v) :: r
    else (k', v') :: insert_or_assign r k v

/-- The effect of `m.erase(k)`. -/
def erase (m : StdMap V) (k : ObjectID) : StdMap V := m.filter (fun e => e.1 != k)

/-- The value of `m[k]`: the stored value, or the value-initialised default. -/
def get [Inhabited V] (m : StdMap V) (k : ObjectID) : V := (m.find? k).getD default

/-- The side effect of evaluating `m[k]`: a missing key is inserted with the default value. -/
def touch [Inhabited V] (m : StdMap V) (k : ObjectID) : StdMap V :=
  match m.find? k with
  | some _ => m
  | none => m.insert_or_assign k default

end StdMap

/-! ## std::sort -/

/-- Insert `a` into the ascending list `l`, after the elements that `comp` puts before `a`. -/
def sort_insert {α : Type} (comp : α → α → Bool) (a : α) : List α → List α
  | [] => [a]
  | b :: l => if comp b a then b :: sort_insert comp a l else a :: b :: l

/-- The list `l` sorted by the strict comparison `comp`, equivalent elements keeping their
order: one of the results that `std::sort` can give (it leaves the order of equivalent elements
open). -/
def std_sort {α : Type} (comp : α → α → Bool) (l : List α) : List α :=
  l.foldr (sort_insert comp) []

/-! ## ObjectTracker -/

/-- The data members of `ObjectTracker`. -/
structure ObjectTracker where
  m_dist_tol : Tolerance
  m_max_dissapeared_frms : Nat
  m_next_id : ObjectID
  m_active_objects : StdMap Object
  m_uprooted : StdMap Bool
  m_dissapeared : StdMap Nat
  m_id_list : List ObjectID
deriving DecidableEq, Repr

/-- The radicand of `sqrt(delt_x*delt_x + delt_y*delt_y + delt_z*delt_z)`, computed exactly
(the source computes it in the floating type `Distance`, where it is rounded). -/
def euclidean_distance (a b : Object) : Distance :=
  let delt_x := a.x - b.x
  let delt_y := a.y - b.y
  let delt_z := a.z - b.z
  (delt_x * delt_x + delt_y * delt_y + delt_z * delt_z).toNat

/-- The constructor: empty containers; `first_id` is the initial `m_next_id`. -/
def ObjectTracker.init (distTol : Tolerance) (max_dissapeared_frms : Nat) (first_id : ObjectID) :
    ObjectTracker :=
  { m_dist_tol := distTol
    m_max_dissapeared_frms := max_dissapeared_frms
    m_next_id := first_id
    m_active_objects := []
    m_uprooted := []
    m_dissapeared := []
    m_id_list := [] }

/-- The call `active_objects()`: the values `m_active_objects[id]` for `id` along `m_id_list`,
with the tracker as left by the `operator[]` lookups. -/
def active_objects (s : ObjectTracker) : List Object × ObjectTracker :=
  s.m_id_list.foldl
    (fun acc id =>
      (acc.1 ++ [acc.2.m_active_objects.get id],
       { acc.2 with m_active_objects := acc.2.m_active_objects.touch id }))
    ([], s)

/-- The call `object_count()`: the number of entries of `m_active_objects`. -/
def object_count (s : ObjectTracker) : Nat := s.m_active_objects.size

/-- The loop of `top()` over `m_uprooted`: the first entry whose flag is `0`
is set to `1`; returns its key and the map after the write. -/
def top_scan : StdMap Bool → Option (ObjectID × StdMap Bool)
  | [] => none
  | (k, b) :: r =>
    if b = false then some (k, (k, true) :: r)
    else (top_scan r).map (fun p => (p.1, (k, b) :: p.2))

/-- The call `top(to_ret)`: the returned flag, the value of `to_ret` after the call, and the tracker
after the call. -/
def top (s : ObjectTracker) (to_ret : Object) : Bool × Object × ObjectTracker :=
  if object_count s = 0 then (false, to_ret, s)
  else
    match top_scan s.m_uprooted with
    | some (k, u) =>
      (true, s.m_active_objects.get k,
        { s with m_uprooted := u, m_active_objects := s.m_active_objects.touch k })
    | none => (false, to_ret, s)

/-- The identity whose flag a call of `top()` sets, if any. -/
def top_id (s : ObjectTracker) : Option ObjectID :=
  if object_count s = 0 then none else (top_scan s.m_uprooted).map Prod.fst

/-- The insertion-sort scan of `register_object`: walk `m_id_list` while
`m_active_objects[*id_itr] > obj`, insert `nid` where the walk stops.  Returns the new id list
and `m_active_objects` as left by the `operator[]` lookups. -/
def insert_sorted (gt : Object → Object → Bool) (obj : Object) (nid : ObjectID) :
    List ObjectID → StdMap Object → List ObjectID × StdMap Object
  | [], m => ([nid], m)
  | i :: r, m =>
    if gt (m.get i) obj then
      let p := insert_sorted gt obj nid r (m.touch i)
      (i :: p.1, p.2)
    else (nid :: i :: r, m.touch i)

/-- The call `register_object(obj)`: the returned id and the tracker after the call. -/
def register_object (gt : Object → Object → Bool) (s : ObjectTracker) (obj : Object) :
    ObjectID × ObjectTracker :=
  let p := insert_sorted gt obj s.m_next_id s.m_id_list s.m_active_objects
  (s.m_next_id,
    { s with
      m_id_list := p.1
      m_active_objects := p.2.insert_or_assign s.m_next_id obj
      m_uprooted := s.m_uprooted.insert_or_assign s.m_next_id false
      m_dissapeared := s.m_dissapeared.insert_or_assign s.m_next_id 0
      m_next_id := s.m_next_id + 1 })

/-- The call `deregister_object(id)`: erase `id` from the three maps and its first occurrence
from `m_id_list`. -/
def deregister_object (s : ObjectTracker) (id : ObjectID) : ObjectTracker :=
  { s with
    m_active_objects := s.m_active_objects.erase id
    m_uprooted := s.m_uprooted.erase id
    m_dissapeared := s.m_dissapeared.erase id
    m_id_list := s.m_id_list.erase id }

/-- The call `cleanup_dissapeared()`, in the run that reaches every entry: visit the entries of
`m_dissapeared` in key order and deregister those whose count exceeds `m_max_dissapeared_frms`.
The source erases the entry under the loop iterator and then increments it, so after the first
erase the source does not fix which entries a run reaches: see `CleanupOutcome`. -/
def cleanup_dissapeared (s : ObjectTracker) : ObjectTracker :=
  s.m_dissapeared.foldl
    (fun t e => if e.2 > t.m_max_dissapeared_frms then deregister_object t e.1 else t) s

/-- Entry `[i][j]` of a matrix. -/
def at2 (M : List (List Nat)) (i j : Nat) : Nat := (M.getD i []).getD j 0

/-- Step 1 of `update`: `dist_matrix[i][j]` for `i < m`, `j < n`. -/
def dist_matrix (s : ObjectTracker) (new_objs : List Object) : List (List Distance) :=
  (List.range s.m_active_objects.size).map fun i =>
    (List.range new_objs.length).map fun j =>
      euclidean_distance (s.m_active_objects.get (s.m_id_list.getD i 0)) (new_objs.getD j default)

/-- Step 1 of `update`, effect on `m_active_objects` of the lookups `m_active_objects[m_id_list[i]]`. -/
def dist_matrix_touch (s : ObjectTracker) : StdMap Object :=
  (List.range s.m_active_objects.size).foldl
    (fun a i => a.touch (s.m_id_list.getD i 0)) s.m_active_objects

/-- Step 2 of `update`: every row of column indices `0 .. n-1` sorted by the distances of the row. -/
def sorted_ids (D : List (List Distance)) (m n : Nat) : List (List Nat) :=
  (List.range m).map fun i =>
    std_sort (fun a b => decide (at2 D i a < at2 D i b)) (List.range n)

/-- Step 2 of `update`: the row indices `0 .. m-1` sorted by the least distance of each row. -/
def active_obj_ids (D : List (List Distance)) (S : List (List Nat)) (m : Nat) : List Nat :=
  std_sort (fun a b => decide (at2 D a (at2 S a 0) < at2 D b (at2 S b 0))) (List.range m)

/-- The state of the matching loop of `update`.  `assigned` is a trace that the source does not
keep: the pairs (identity, column) for which `found_update` was set, in order. -/
structure MatchState where
  used_cols : List Nat
  m_active_objects : StdMap Object
  m_dissapeared : StdMap Nat
  assigned : List (ObjectID × Nat)
deriving DecidableEq, Repr

/-- The inner loop of step 3: the first column of the row that is not used and is nearer than
the tolerance. -/
def find_update (tol : Tolerance) (used_cols : List Nat) (drow : List Distance)
    (row : List Nat) : Option Nat :=
  row.find? (fun c => decide (c ∉ used_cols) && lt_tol (drow.getD c 0) tol)

/-- One iteration of the outer loop of step 3, for the row index `i`. -/
def match_row (s : ObjectTracker) (new_objs : List Object) (D : List (List Distance))
    (S : List (List Nat)) (st : MatchState) (i : Nat) : MatchState :=
  match find_update s.m_dist_tol st.used_cols (D.getD i []) (S.getD i []) with
  | some c =>
    { st with
      used_cols := c :: st.used_cols
      m_active_objects :=
        st.m_active_objects.insert_or_assign (s.m_id_list.getD i 0) (new_objs.getD c default)
      assigned := st.assigned ++ [(s.m_id_list.getD i 0, c)] }
  | none =>
    { st with
      m_dissapeared :=
        st.m_dissapeared.insert_or_assign (s.m_id_list.getD i 0)
          (st.m_dissapeared.get (s.m_id_list.getD i 0) + 1) }

/-- Step 3 of `update`: the matching loop over the sorted row indices. -/
def match_loop (s : ObjectTracker) (new_objs : List Object) : MatchState :=
  let D := dist_matrix s new_objs
  let S := sorted_ids D s.m_active_objects.size new_objs.length
  (active_obj_ids D S s.m_active_objects.size).foldl (match_row s new_objs D S)
    { used_cols := []
      m_active_objects := dist_matrix_touch s
      m_dissapeared := s.m_dissapeared
      assigned := [] }

/-- The general case of `update` (the `else` branch), before `cleanup_dissapeared`. -/
def update_general (gt : Object → Object → Bool) (s : ObjectTracker) (new_objs : List Object) :
    ObjectTracker :=
  let D := dist_matrix s new_objs
  let S := sorted_ids D s.m_active_objects.size new_objs.length
  let st := match_loop s new_objs
  (S.getD 0 []).foldl
    (fun t x =>
      if x ∉ st.used_cols then (register_object gt t (new_objs.getD x default)).2 else t)
    { s with m_active_objects := st.m_active_objects, m_dissapeared := st.m_dissapeared }

/-- The three branches of `update`, before `cleanup_dissapeared`. -/
def update_branches (gt : Object → Object → Bool) (s : ObjectTracker) (new_objs : List Object) :
    ObjectTracker :=
  if new_objs.length = 0 then
    { s with m_dissapeared := s.m_dissapeared.map (fun e => (e.1, e.2 + 1)) }
  else if s.m_active_objects.size = 0 then
    new_objs.foldl (fun t o => (register_object gt t o).2) s
  else update_general gt s new_objs

/-- The call `update(new_objs)`: one of the three branches, then `cleanup_dissapeared()`. -/
def update (gt : Object → Object → Bool) (s : ObjectTracker) (new_objs : List Object) :
    ObjectTracker :=
  cleanup_dissapeared (update_branches gt s new_objs)

/-- The pairs (identity, detection index) matched by `update(new_objs)` in state `s`. -/
def matched_pairs (s : ObjectTracker) (new_objs : List Object) : List (ObjectID × Nat) :=
  if new_objs.length = 0 then []
  else if s.m_active_objects.size = 0 then []
  else (match_loop s new_objs).assigned

/-! ## Reachable states and the registry invariant -/

/-- The states reachable from a freshly constructed tracker by calls of the member functions. -/
inductive Reachable (gt : Object → Object → Bool) : ObjectTracker → Prop
  | init (distTol : Tolerance) (max_frms : Nat) (first_id : ObjectID) :
      Reachable gt (ObjectTracker.init distTol max_frms first_id)
  | update {s : ObjectTracker} (new_objs : List Object) :
      Reachable gt s → Reachable gt (update gt s new_objs)
  | register_object {s : ObjectTracker} (obj : Object) :
      Reachable gt s → Reachable gt (register_object gt s obj).2
  | deregister_object {s : ObjectTracker} (id : ObjectID) :
      Reachable gt s → Reachable gt (deregister_object s id)
  | top {s : ObjectTracker} (to_ret : Object) :
      Reachable gt s → Reachable gt (top s to_ret).2.2
  | active_objects {s : ObjectTracker} :
      Reachable gt s → Reachable gt (active_objects s).2

/-- Consistency of the four containers: the three maps have the same keys, in strictly
ascending order, `m_id_list` is a rearrangement of these keys, and every key is below
`m_next_id`. -/
structure Consistent (s : ObjectTracker) : Prop where
  sorted : s.m_active_objects.keys.Pairwise (fun a b => a < b)
  keys_u : s.m_uprooted.keys = s.m_active_objects.keys
  keys_d : s.m_dissapeared.keys = s.m_active_objects.keys
  perm : s.m_id_list.Perm s.m_active_objects.keys
  fresh : ∀ k ∈ s.m_active_objects.keys, k < s.m_next_id

/-- The registry invariant: the containers are consistent and no count exceeds the threshold. -/
structure Inv (s : ObjectTracker) : Prop where
  cons : Consistent s
  bound : ∀ e ∈ s.m_dissapeared, e.2 ≤ s.m_max_dissapeared_frms

/-- The identities that `cleanup_dissapeared` removes, in key order. -/
def evicted (s : ObjectTracker) : List ObjectID :=
  (s.m_dissapeared.filter (fun e => decide (e.2 > s.m_max_dissapeared_frms))).map Prod.fst

/-- The tracker `t` extends `s` by registrations only: what `s` holds is kept as it is, and
the identities `t` adds are at or above `s.m_next_id`, with count `0` and flag `false`. -/
structure Ext (s t : ObjectTracker) : Prop where
  cons : Consistent t
  next_le : s.m_next_id ≤ t.m_next_id
  tol_eq : t.m_dist_tol = s.m_dist_tol
  max_eq : t.m_max_dissapeared_frms = s.m_max_dissapeared_frms
  act : ∀ id, id < s.m_next_id → t.m_active_objects.find? id = s.m_active_objects.find? id
  upr : ∀ id, id < s.m_next_id → t.m_uprooted.find? id = s.m_uprooted.find? id
  dis : ∀ id, id < s.m_next_id → t.m_dissapeared.find? id = s.m_dissapeared.find? id
  order : s.m_id_list.Sublist t.m_id_list
  new_dis : ∀ id, s.m_next_id ≤ id → ∀ c, t.m_dissapeared.find? id = some c → c = 0
  new_upr : ∀ id, s.m_next_id ≤ id → ∀ b, t.m_uprooted.find? id = some b → b = false

/-- The tracker between the matching loop and the registration loop of the general case. -/
def after_match (s : ObjectTracker) (new_objs : List Object) : ObjectTracker :=
  { s with
    m_active_objects := (match_loop s new_objs).m_active_objects
    m_dissapeared := (match_loop s new_objs).m_dissapeared }

/-- A sample `operator>` for concrete evaluations: compare by `size`. -/
def gt_by_size (a b : Object) : Bool := decide (a.size > b.size)

/-- The identity `id` is not matched by `update(new_objs)` in state `s`. -/
def Unmatched (id : ObjectID) (s : ObjectTracker) (new_objs : List Object) : Prop :=
  id ∉ (matched_pairs s new_objs).map Prod.fst

/-- A sample tracker (tolerance 5, threshold 2): the state after `update([a, b])` with
`a = (0,0,0)` of size 1 and `b = (100,0,0)` of size 2. -/
def sample_two : ObjectTracker :=
  update gt_by_size (ObjectTracker.init ⟨5, 1⟩ 2 0) [⟨0, 0, 0, 1⟩, ⟨100, 0, 0, 2⟩]

/-- A sample tracker: `sample_two` after `top`, `deregister_object(0)` and `update([])`. -/
def sample_one : ObjectTracker :=
  update gt_by_size (deregister_object (top sample_two default).2.2 0) []

instance decUnmatched (id : ObjectID) (s : ObjectTracker) (new_objs : List Object) :
    Decidable (Unmatched id s new_objs) :=
  inferInstanceAs (Decidable (id ∉ (matched_pairs s new_objs).map Prod.fst))

/-- A sample tracker (tolerance 5, threshold 1) for any `operator>`: the state after
`update([(0,0,0)])` and `update([])`, where identity `0` has missed one frame. -/
def sample_missed (gt : Object → Object → Bool) : ObjectTracker :=
  update gt (update gt (ObjectTracker.init ⟨5, 1⟩ 1 0) [⟨0, 0, 0, 1⟩]) []

/-- The row index that the matching loop of `update` processes first: `active_obj_ids[0]`. -/
def first_row (s : ObjectTracker) (new_objs : List Object) : Nat :=
  (active_obj_ids (dist_matrix s new_objs)
    (sorted_ids (dist_matrix s new_objs) s.m_active_objects.size new_objs.length)
    s.m_active_objects.size).getD 0 0

/-- The first column of the sorted row `i`: `sorted_ids[i][0]`. -/
def nearest_col (s : ObjectTracker) (new_objs : List Object) (i : Nat) : Nat :=
  at2 (sorted_ids (dist_matrix s new_objs) s.m_active_objects.size new_objs.length) i 0

/-- One call of a member function of the tracker. -/
inductive Op where
  | update (new_objs : List Object)
  | register_object (obj : Object)
  | deregister_object (id : ObjectID)
  | top (to_ret : Object)
  | active_objects

/-- The tracker after the call `op`. -/
def Op.apply (gt : Object → Object → Bool) (s : ObjectTracker) : Op → ObjectTracker
  | Op.update new_objs => urGovernor.update gt s new_objs
  | Op.register_object obj => (urGovernor.register_object gt s obj).2
  | Op.deregister_object id => urGovernor.deregister_object s id
  | Op.top to_ret => (urGovernor.top s to_ret).2.2
  | Op.active_objects => (urGovernor.active_objects s).2

/-- The tracker after the calls `ops`, in order. -/
def run_ops (gt : Object → Object → Bool) (s : ObjectTracker) (ops : List Op) : ObjectTracker :=
  ops.foldl (Op.apply gt) s

/-- The identity `id` is allocated by the call `op` in state `s`: `m_next_id` passes `id`
during the call (`m_next_id` is written by `register_object` only, which returns its value and
increments it). -/
def Allocates (gt : Object → Object → Bool) (s : ObjectTracker) (op : Op) (id : ObjectID) : Prop :=
  s.m_next_id ≤ id ∧ id < (Op.apply gt s op).m_next_id

/-- The entries `(first, v₀), (first + 1, v₁), …` for the values `v₀, v₁, …` of the list. -/
def StdMap.consecutive {V : Type} : ObjectID → List V → StdMap V
  | _, [] => []
  | k, v :: vs => (k, v) :: StdMap.consecutive (k + 1) vs

/-- The detection indices that the matching loop of `update` leaves unconsumed, in the order in
which the registration loop visits them (`sorted_ids[0]`). -/
def unmatched_cols (s : ObjectTracker) (new_objs : List Object) : List Nat :=
  ((sorted_ids (dist_matrix s new_objs) s.m_active_objects.size new_objs.length).getD 0 []).filter
    (fun x => decide (x ∉ (match_loop s new_objs).used_cols))

instance decAllocates (gt : Object → Object → Bool) (s : ObjectTracker) (op : Op)
    (id : ObjectID) : Decidable (Allocates gt s op id) :=
  inferInstanceAs (Decidable (s.m_next_id ≤ id ∧ id < (Op.apply gt s op).m_next_id))

/-- The tracker of the greedy-matching example (tolerance 6, threshold 2): identity `0` at
(0,0,0) and identity `1` at (6,0,0), both fresh, with `m_id_list = l`. -/
def greedy_state (l : List ObjectID) : ObjectTracker :=
  { m_dist_tol := ⟨6, 1⟩
    m_max_dissapeared_frms := 2
    m_next_id := 2
    m_active_objects := [(0, ⟨0, 0, 0, 1⟩), (1, ⟨6, 0, 0, 1⟩)]
    m_uprooted := [(0, false), (1, false)]
    m_dissapeared := [(0, 0), (1, 0)]
    m_id_list := l }

/-- The frame of the greedy-matching example: detections at (4,0,0) and (9,0,0). -/
def greedy_frame : List Object := [⟨4, 0, 0, 1⟩, ⟨9, 0, 0, 1⟩]

/-- Following the spec's words: the unconsumed detection indices in the ascending-distance order
of the row processed first (`sorted_ids[active_obj_ids[0]]`). -/
def unmatched_cols_first_row (s : ObjectTracker) (new_objs : List Object) : List Nat :=
  ((sorted_ids (dist_matrix s new_objs) s.m_active_objects.size new_objs.length).getD
      (first_row s new_objs) []).filter
    (fun x => decide (x ∉ (match_loop s new_objs).used_cols))

/-- A sample tracker (tolerance 5, threshold 2): identity `0` at (0,0,0) of size 2 and identity
`1` at (100,0,0) of size 1, so that `m_id_list = [0, 1]`. -/
def sample_order : ObjectTracker :=
  update gt_by_size (ObjectTracker.init ⟨5, 1⟩ 2 0) [⟨0, 0, 0, 2⟩, ⟨100, 0, 0, 1⟩]

/-- A sample frame: detections at (101,0,0), (30,0,0) and (60,0,0). -/
def sample_order_frame : List Object := [⟨101, 0, 0, 1⟩, ⟨30, 0, 0, 1⟩, ⟨60, 0, 0, 1⟩]

/-- Successive calls `register_object(o)` for the objects `o` of the list, in order. -/
def register_all (gt : Object → Object → Bool) (s : ObjectTracker) (objs : List Object) :
    ObjectTracker :=
  objs.foldl (fun t o => (register_object gt t o).2) s

/-- The order that `register_object` maintains between an identity `a` and an identity `b`
further down `m_id_list`: the value of `b` is not greater than the value of `a`, and if the
value of `a` is not greater either, `b` has the smaller id (it was registered earlier). -/
def RankOrder (gt : Object → Object → Bool) (m : StdMap Object) (a b : ObjectID) : Prop :=
  gt (m.get b) (m.get a) = false ∧ (gt (m.get a) (m.get b) = false → b < a)

/-- A sample `operator>` that is asymmetric and transitive but no weak order: `a > b` when `a`
is greater in both `x` and `y`. -/
def gt_dominates (a b : Object) : Bool := decide (a.x > b.x ∧ a.y > b.y)

/-! ## What the source leaves open

Two parts of `update` are not fixed by the source text alone.  The distances are computed in
the floating type `Distance` (casts, products, sums and `sqrt` round), and `std::sort` leaves
the order of equivalent elements open: `Computed` takes what these deliver as given.  The loop
of `cleanup_dissapeared` erases the entry under its own iterator and then increments it, which
is undefined: `CleanupOutcome` describes what a run that returns can leave. -/

/-- What the floating-point computations and the two sorts of the general case of `update`
deliver in one call: `near i j` is the outcome of the test `dist_matrix[i][j] < m_dist_tol`,
`sorted_ids` and `active_obj_ids` are the two index vectors after `std::sort`. -/
structure Computed where
  near : Nat → Nat → Bool
  sorted_ids : List (List Nat)
  active_obj_ids : List Nat

/-- What `std::sort` guarantees of the index vectors for `m` rows and `n` columns: each is a
rearrangement of the `iota` range it was filled with. -/
def Computed.Valid (C : Computed) (m n : Nat) : Prop :=
  C.active_obj_ids.Perm (List.range m) ∧
    ∀ i, i < m → (C.sorted_ids.getD i []).Perm (List.range n)

/-- The outcome in exact arithmetic with the stable sort `std_sort`. -/
def exact_computed (s : ObjectTracker) (new_objs : List Object) : Computed :=
  { near := fun i j => lt_tol (at2 (dist_matrix s new_objs) i j) s.m_dist_tol
    sorted_ids := sorted_ids (dist_matrix s new_objs) s.m_active_objects.size new_objs.length
    active_obj_ids :=
      active_obj_ids (dist_matrix s new_objs)
        (sorted_ids (dist_matrix s new_objs) s.m_active_objects.size new_objs.length)
        s.m_active_objects.size }

/-- The inner loop of step 3, given the outcomes `near` of the tolerance tests of the row: the
first column of the row that is not used and passes the test. -/
def find_update_with (near : Nat → Bool) (used_cols : List Nat) (row : List Nat) : Option Nat :=
  row.find? (fun c => decide (c ∉ used_cols) && near c)

/-- One iteration of the outer loop of step 3, for the row index `i`, given `C`. -/
def match_row_with (s : ObjectTracker) (new_objs : List Object) (C : Computed)
    (st : MatchState) (i : Nat) : MatchState :=
  match find_update_with (C.near i) st.used_cols (C.sorted_ids.getD i []) with
  | some c =>
    { st with
      used_cols := c :: st.used_cols
      m_active_objects :=
        st.m_active_objects.insert_or_assign (s.m_id_list.getD i 0) (new_objs.getD c default)
      assigned := st.assigned ++ [(s.m_id_list.getD i 0, c)] }
  | none =>
    { st with
      m_dissapeared :=
        st.m_dissapeared.insert_or_assign (s.m_id_list.getD i 0)
          (st.m_dissapeared.get (s.m_id_list.getD i 0) + 1) }

/-- Step 3 of `update`, given `C`: the matching loop over `active_obj_ids`. -/
def match_loop_with (s : ObjectTracker) (new_objs : List Object) (C : Computed) : MatchState :=
  C.active_obj_ids.foldl (match_row_with s new_objs C)
    { used_cols := []
      m_active_objects := dist_matrix_touch s
      m_dissapeared := s.m_dissapeared
      assigned := [] }

/-- The general case of `update` (the `else` branch), given `C`, before
`cleanup_dissapeared`. -/
def update_general_with (gt : Object → Object → Bool) (s : ObjectTracker)
    (new_objs : List Object) (C : Computed) : ObjectTracker :=
  (C.sorted_ids.getD 0 []).foldl
    (fun t x =>
      if x ∉ (match_loop_with s new_objs C).used_cols then
        (register_object gt t (new_objs.getD x default)).2
      else t)
    { s with
      m_active_objects := (match_loop_with s new_objs C).m_active_objects
      m_dissapeared := (match_loop_with s new_objs C).m_dissapeared }

/-- The three branches of `update`, given `C`, before `cleanup_dissapeared`: the tracker on
which the eviction loop starts. -/
def update_branches_with (gt : Object → Object → Bool) (s : ObjectTracker)
    (new_objs : List Object) (C : Computed) : ObjectTracker :=
  if new_objs.length = 0 then
    { s with m_dissapeared := s.m_dissapeared.map (fun e => (e.1, e.2 + 1)) }
  else if s.m_active_objects.size = 0 then
    new_objs.foldl (fun t o => (register_object gt t o).2) s
  else update_general_with gt s new_objs C

/-- The pairs (identity, detection index) matched by `update(new_objs)` in state `s`, given
`C`. -/
def matched_pairs_with (s : ObjectTracker) (new_objs : List Object) (C : Computed) :
    List (ObjectID × Nat) :=
  if new_objs.length = 0 then []
  else if s.m_active_objects.size = 0 then []
  else (match_loop_with s new_objs C).assigned

/-- The detection indices that the matching loop leaves unconsumed, given `C`, in the order in
which the registration loop visits them (`sorted_ids[0]`). -/
def unmatched_cols_with (s : ObjectTracker) (new_objs : List Object) (C : Computed) :
    List Nat :=
  (C.sorted_ids.getD 0 []).filter
    (fun x => decide (x ∉ (match_loop_with s new_objs C).used_cols))

/-- What a run of `cleanup_dissapeared()` that returns can leave.  The loop walks
`m_dissapeared` in key order and changes the tracker only by `deregister_object(itr->first)`
at an entry whose count exceeds `m_max_dissapeared_frms`.  Up to the first such entry the walk
is well defined, and that entry is deregistered.  The erase invalidates `itr`, and the `itr++`
that follows is undefined: the source does not fix which of the later entries the loop still
reaches (nor that the call returns).  `ids` are the identities that were deregistered. -/
def CleanupOutcome (s u : ObjectTracker) : Prop :=
  ∃ ids : List ObjectID, ids.Sublist (evicted s) ∧ ids.head? = (evicted s).head? ∧
    u = ids.foldl deregister_object s

/-- What a call `update(new_objs)` that returns can leave, given `C`: one of the three
branches, then `cleanup_dissapeared()`. -/
def UpdateOutcome (gt : Object → Object → Bool) (s : ObjectTracker) (new_objs : List Object)
    (C : Computed) (u : ObjectTracker) : Prop :=
  CleanupOutcome (update_branches_with gt s new_objs C) u

/-- A run of `k` successive calls of `update` from `s` to `v`, in none of which the identity
`id` is matched. -/
inductive MissedRun (gt : Object → Object → Bool) (id : ObjectID) :
    ObjectTracker → Nat → ObjectTracker → Prop
  | done (s : ObjectTracker) : MissedRun gt id s 0 s
  | call {s u v : ObjectTracker} {k : Nat} (new_objs : List Object) (C : Computed) :
      C.Valid s.m_active_objects.size new_objs.length →
      id ∉ (matched_pairs_with s new_objs C).map Prod.fst →
      UpdateOutcome gt s new_objs C u → MissedRun gt id u k v → MissedRun gt id s (k + 1) v

instance decValid (C : Computed) (m n : Nat) : Decidable (C.Valid m n) :=
  inferInstanceAs (Decidable (C.active_obj_ids.Perm (List.range m) ∧
    ∀ i, i < m → (C.sorted_ids.getD i []).Perm (List.range n)))

/-- A sample tracker (tolerance 5, threshold 1) when `update([(0,0,0)])` on the empty tracker
has gone through its branch: identity `0`, with count `0`. -/
def fresh_one : ObjectTracker :=
  update_branches gt_by_size (ObjectTracker.init ⟨5, 1⟩ 1 0) [⟨0, 0, 0, 1⟩]

/-- The sample tracker `fresh_one` when `update([])` has gone through its branch: identity `0`
has missed one frame. -/
def missed_once : ObjectTracker := update_branches gt_by_size fresh_one []

/-- The sample tracker `missed_once` when `update([(1,0,0)])` has gone through its branch:
identity `0` is matched and its count is still `1`. -/
def missed_then_matched : ObjectTracker :=
  update_branches gt_by_size missed_once [⟨1, 0, 0, 1⟩]

/-- A sample frame of five detections, 100 apart on the x axis. -/
def five_frame : List Object :=
  [⟨0, 0, 0, 1⟩, ⟨100, 0, 0, 1⟩, ⟨200, 0, 0, 1⟩, ⟨300, 0, 0, 1⟩, ⟨400, 0, 0, 1⟩]

/-- A sample tracker (tolerance 5, threshold 0) when `update(five_frame)` on the empty
tracker has gone through its branch: identities `0 .. 4`, all with count `0`. -/
def five_state : ObjectTracker :=
  update_branches gt_by_size (ObjectTracker.init ⟨5, 1⟩ 0 0) five_frame

/-- A sample frame with detections near the identities `0`, `3` and `4` of `five_state`. -/
def five_second_frame : List Object := [⟨1, 0, 0, 1⟩, ⟨302, 0, 0, 1⟩, ⟨403, 0, 0, 1⟩]

/-- The tracker on which the eviction loop of `update(five_second_frame)` starts: the
identities `1` and `2` are unmatched and have count `1`. -/
def five_missed : ObjectTracker := update_branches gt_by_size five_state five_second_frame

/-- The tracker `five_missed` after a run of the eviction loop that deregisters identity `1`
and does not reach the entry of identity `2`. -/
def five_skipped : ObjectTracker := deregister_object five_missed 1

/-- A sample frame with detections near the identities `0`, `2`, `3` and `4` of
`five_skipped`, and one far from all of them. -/
def five_third_frame : List Object :=
  [⟨3, 0, 0, 1⟩, ⟨201, 0, 0, 1⟩, ⟨305, 0, 0, 1⟩, ⟨407, 0, 0, 1⟩, ⟨600, 0, 0, 1⟩]

/-- The tracker on which the eviction loop of `update(five_third_frame)` starts. -/
def five_rematched : ObjectTracker := update_branches gt_by_size five_skipped five_third_frame

/-! ## Lemmas on `StdMap` -/

namespace StdMap

variable {V : Type}

theorem keys_cons (e : ObjectID × V) (m : StdMap V) : keys (e :: m) = e.1 :: keys m := rfl

theorem find?_eq_none_iff (m : StdMap V) (k : ObjectID) : m.find? k = none ↔ k ∉ m.keys := by
  induction m with
  | nil => simp [find?, keys]
  | cons e r ih =>
    obtain ⟨k', v⟩ := e
    by_cases h : k' = k
    · simp [find?, keys, h]
    · simp only [find?, if_neg h, ih, keys, List.map_cons, List.mem_cons, not_or]
      constructor
      · intro h2; exact ⟨fun h3 => h h3.symm, h2⟩
      · intro h2; exact h2.2

theorem find?_isSome_iff (m : StdMap V) (k : ObjectID) : (m.find? k).isSome ↔ k ∈ m.keys := by
  rw [← not_iff_not, ← find?_eq_none_iff]
  cases m.find? k <;> simp

theorem mem_keys_of_find? {m : StdMap V} {k : ObjectID} {v : V} (h : m.find? k = some v) :
    k ∈ m.keys := by
  rw [← find?_isSome_iff, h]; rfl

theorem find?_mem {m : StdMap V} {k : ObjectID} {v : V} (h : m.find? k = some v) :
    (k, v) ∈ m := by
  induction m with
  | nil => simp [find?] at h
  | cons e r ih =>
    obtain ⟨k', v'⟩ := e
    by_cases hk : k' = k
    · simp [find?, hk] at h; simp [hk, h]
    · simp only [find?, if_neg hk] at h
      exact List.mem_cons_of_mem _ (ih h)

theorem find?_of_mem {m : StdMap V} (hs : m.keys.Pairwise (fun a b => a < b)) {k : ObjectID}
    {v : V} (h : (k, v) ∈ m) : m.find? k = some v := by
  induction m with
  | nil => simp at h
  | cons e r ih =>
    obtain ⟨k', v'⟩ := e
    rw [keys_cons, List.pairwise_cons] at hs
    rcases List.mem_cons.1 h with h1 | h1
    · injection h1 with h2 h3
      simp [find?, h2, h3]
    · have hk : k ∈ keys r := List.mem_map_of_mem Prod.fst h1
      have : k' < k := hs.1 k hk
      simp only [find?, if_neg (Nat.ne_of_lt this)]
      exact ih hs.2 h1

theorem touch_of_mem [Inhabited V] {m : StdMap V} {k : ObjectID} (h : k ∈ m.keys) :
    m.touch k = m := by
  rw [← find?_isSome_iff] at h
  unfold touch
  cases hf : m.find? k with
  | none => rw [hf] at h; cases h
  | some v => rfl

theorem insert_fresh (m : StdMap V) (k : ObjectID) (v : V) (h : ∀ k' ∈ m.keys, k' < k) :
    m.insert_or_assign k v = m ++ [(k, v)] := by
  induction m with
  | nil => rfl
  | cons e r ih =>
    obtain ⟨k', v'⟩ := e
    have h1 : k' < k := h k' (by simp [keys])
    have h2 : ¬ k < k' := Nat.not_lt.2 (Nat.le_of_lt h1)
    have h3 : ¬ k = k' := fun h => Nat.lt_irrefl _ (h ▸ h1)
    simp only [insert_or_assign, if_neg h2, if_neg h3, List.cons_append]
    rw [ih (fun k'' hk => h k'' (by simp [keys] at hk ⊢; exact Or.inr hk))]

theorem keys_insert_of_mem {m : StdMap V} (hs : m.keys.Pairwise (fun a b => a < b))
    {k : ObjectID} (v : V) (h : k ∈ m.keys) : (m.insert_or_assign k v).keys = m.keys := by
  induction m with
  | nil => simp [keys] at h
  | cons e r ih =>
    obtain ⟨k', v'⟩ := e
    rw [keys_cons, List.pairwise_cons] at hs
    rw [keys_cons, List.mem_cons] at h
    by_cases h1 : k = k'
    · simp [insert_or_assign, h1, keys]
    · have hk : k ∈ keys r := h.resolve_left h1
      have h2 : ¬ k < k' := Nat.not_lt.2 (Nat.le_of_lt (hs.1 k hk))
      simp only [insert_or_assign, if_neg h2, if_neg h1, keys_cons]
      rw [ih hs.2 hk]

theorem find?_insert_self (m : StdMap V) (k : ObjectID) (v : V) :
    (m.insert_or_assign k v).find? k = some v := by
  induction m with
  | nil => simp [insert_or_assign, find?]
  | cons e r ih =>
    obtain ⟨k', v'⟩ := e
    by_cases h2 : k < k'
    · simp [insert_or_assign, h2, find?]
    · by_cases h1 : k = k'
      · simp [insert_or_assign, h1, find?]
      · simp only [insert_or_assign, if_neg h2, if_neg h1, find?, if_neg (Ne.symm h1)]
        exact ih

theorem find?_insert_ne (m : StdMap V) {k j : ObjectID} (v : V) (h : j ≠ k) :
    (m.insert_or_assign k v).find? j = m.find? j := by
  induction m with
  | nil => simp [insert_or_assign, find?, Ne.symm h]
  | cons e r ih =>
    obtain ⟨k', v'⟩ := e
    by_cases h2 : k < k'
    · simp [insert_or_assign, h2, find?, Ne.symm h]
    · by_cases h1 : k = k'
      · subst h1
        simp [insert_or_assign, find?, Ne.symm h]
      · simp only [insert_or_assign, if_neg h2, if_neg h1, find?]
        rw [ih]

theorem keys_erase (m : StdMap V) (k : ObjectID) :
    (m.erase k).keys = m.keys.filter (fun j => j != k) := by
  induction m with
  | nil => rfl
  | cons e r ih =>
    obtain ⟨k', v'⟩ := e
    unfold erase keys at *
    by_cases h : k' = k
    · simp [List.filter_cons, h, ih]
    · simp [List.filter_cons, h, ih]

theorem find?_filter (m : StdMap V) (p : ObjectID → Bool) (j : ObjectID) :
    find? (m.filter (fun e => p e.1)) j = if p j then find? m j else none := by
  induction m with
  | nil => simp [find?]
  | cons e r ih =>
    obtain ⟨k', v'⟩ := e
    by_cases hp : p k' = true
    · rw [List.filter_cons_of_pos (by simpa using hp)]
      by_cases hk : k' = j
      · subst hk; simp [find?, hp]
      · simp only [find?, if_neg hk, ih]
    · have hp2 : p k' = false := by simpa using hp
      rw [List.filter_cons_of_neg (by simpa using hp)]
      by_cases hk : k' = j
      · subst hk; simp [find?, hp2, ih]
      · simp only [find?, if_neg hk, ih]

theorem find?_erase_ne (m : StdMap V) {k j : ObjectID} (h : j ≠ k) :
    (m.erase k).find? j = m.find? j := by
  unfold erase
  rw [find?_filter m (fun i => i != k) j]
  simp [h]

theorem find?_erase_self (m : StdMap V) (k : ObjectID) : (m.erase k).find? k = none := by
  unfold erase
  rw [find?_filter m (fun i => i != k) k]
  simp

end StdMap

/-! ## Lemmas on `std_sort` -/

theorem sort_insert_perm {α : Type} (comp : α → α → Bool) (a : α) (l : List α) :
    (sort_insert comp a l).Perm (a :: l) := by
  induction l with
  | nil => exact List.Perm.refl _
  | cons b l ih =>
    unfold sort_insert
    split
    · exact (List.Perm.cons b ih).trans (List.Perm.swap a b l)
    · exact List.Perm.refl _

theorem std_sort_perm {α : Type} (comp : α → α → Bool) (l : List α) :
    (std_sort comp l).Perm l := by
  induction l with
  | nil => exact List.Perm.refl _
  | cons a l ih =>
    unfold std_sort at *
    rw [List.foldr_cons]
    exact (sort_insert_perm comp a _).trans (List.Perm.cons a ih)

theorem mem_std_sort {α : Type} (comp : α → α → Bool) (l : List α) (x : α) :
    x ∈ std_sort comp l ↔ x ∈ l :=
  (std_sort_perm comp l).mem_iff

theorem std_sort_nodup {α : Type} (comp : α → α → Bool) {l : List α} (h : l.Nodup) :
    (std_sort comp l).Nodup :=
  (std_sort_perm comp l).nodup_iff.2 h

/-! ## Consistency of the containers -/

namespace Consistent

variable {s : ObjectTracker}

theorem nodup_keys (h : Consistent s) : s.m_active_objects.keys.Nodup :=
  h.sorted.imp (fun hab => Nat.ne_of_lt hab)

theorem nodup_id_list (h : Consistent s) : s.m_id_list.Nodup :=
  h.perm.nodup_iff.2 h.nodup_keys

theorem mem_id_list (h : Consistent s) (k : ObjectID) :
    k ∈ s.m_id_list ↔ k ∈ s.m_active_objects.keys :=
  h.perm.mem_iff

theorem length_id_list (h : Consistent s) : s.m_id_list.length = s.m_active_objects.size := by
  rw [h.perm.length_eq]; simp [StdMap.keys, StdMap.size]

theorem getD_mem (h : Consistent s) {i : Nat} (hi : i < s.m_active_objects.size) :
    s.m_id_list.getD i 0 ∈ s.m_active_objects.keys := by
  rw [← h.mem_id_list]
  rw [← h.length_id_list] at hi
  rw [List.getD_eq_getElem _ _ hi]
  exact List.getElem_mem hi

end Consistent

theorem consistent_init (distTol : Tolerance) (max_frms : Nat) (first_id : ObjectID) :
    Consistent (ObjectTracker.init distTol max_frms first_id) where
  sorted := List.Pairwise.nil
  keys_u := rfl
  keys_d := rfl
  perm := List.Perm.refl _
  fresh := by intro k hk; cases hk

/-! ### register_object -/

theorem insert_sorted_eq (gt : Object → Object → Bool) (obj : Object) (nid : ObjectID)
    (l : List ObjectID) (m : StdMap Object) (h : ∀ i ∈ l, i ∈ m.keys) :
    insert_sorted gt obj nid l m =
      (l.takeWhile (fun i => gt (m.get i) obj) ++ nid :: l.dropWhile (fun i => gt (m.get i) obj),
        m) := by
  induction l with
  | nil => rfl
  | cons i r ih =>
    have hi : m.touch i = m := StdMap.touch_of_mem (h i (List.mem_cons_self _ _))
    have hr : ∀ j ∈ r, j ∈ m.keys := fun j hj => h j (List.mem_cons_of_mem _ hj)
    unfold insert_sorted
    by_cases hg : gt (m.get i) obj = true
    · simp only [hg, if_true, hi, ih hr, List.takeWhile_cons, List.dropWhile_cons,
        List.cons_append]
    · simp only [hg, if_false, hi, List.takeWhile_cons, List.dropWhile_cons]
      rfl

theorem insert_sorted_perm (gt : Object → Object → Bool) (obj : Object) (nid : ObjectID)
    (l : List ObjectID) (m : StdMap Object) (h : ∀ i ∈ l, i ∈ m.keys) :
    (insert_sorted gt obj nid l m).1.Perm (l ++ [nid]) := by
  rw [insert_sorted_eq gt obj nid l m h]
  have h1 := List.takeWhile_append_dropWhile (fun i => gt (m.get i) obj) l
  have h2 : (l.takeWhile (fun i => gt (m.get i) obj) ++
      nid :: l.dropWhile (fun i => gt (m.get i) obj)).Perm
      (nid :: (l.takeWhile (fun i => gt (m.get i) obj) ++
        l.dropWhile (fun i => gt (m.get i) obj))) := List.perm_middle
  rw [h1] at h2
  exact h2.trans (List.perm_append_singleton nid l).symm

theorem register_object_fields (gt : Object → Object → Bool) {s : ObjectTracker}
    (h : Consistent s) (obj : Object) :
    (register_object gt s obj).2 =
      { s with
        m_id_list :=
          s.m_id_list.takeWhile (fun i => gt (s.m_active_objects.get i) obj) ++
            s.m_next_id :: s.m_id_list.dropWhile (fun i => gt (s.m_active_objects.get i) obj)
        m_active_objects := s.m_active_objects ++ [(s.m_next_id, obj)]
        m_uprooted := s.m_uprooted ++ [(s.m_next_id, false)]
        m_dissapeared := s.m_dissapeared ++ [(s.m_next_id, 0)]
        m_next_id := s.m_next_id + 1 } := by
  have hl : ∀ i ∈ s.m_id_list, i ∈ s.m_active_objects.keys := fun i hi => (h.mem_id_list i).1 hi
  unfold register_object
  simp only [insert_sorted_eq gt obj s.m_next_id s.m_id_list s.m_active_objects hl]
  rw [StdMap.insert_fresh _ _ _ h.fresh,
    StdMap.insert_fresh s.m_uprooted _ _ (by rw [h.keys_u]; exact h.fresh),
    StdMap.insert_fresh s.m_dissapeared _ _ (by rw [h.keys_d]; exact h.fresh)]

theorem consistent_register_object (gt : Object → Object → Bool) {s : ObjectTracker}
    (h : Consistent s) (obj : Object) : Consistent (register_object gt s obj).2 := by
  have hl : ∀ i ∈ s.m_id_list, i ∈ s.m_active_objects.keys := fun i hi => (h.mem_id_list i).1 hi
  have hp := insert_sorted_perm gt obj s.m_next_id s.m_id_list s.m_active_objects hl
  rw [insert_sorted_eq gt obj s.m_next_id s.m_id_list s.m_active_objects hl] at hp
  rw [register_object_fields gt h obj]
  constructor
  · show (StdMap.keys (s.m_active_objects ++ [(s.m_next_id, obj)])).Pairwise _
    simp only [StdMap.keys, List.map_append, List.map_cons, List.map_nil]
    rw [List.pairwise_append]
    refine ⟨h.sorted, List.pairwise_singleton _ _, ?_⟩
    intro a ha b hb
    rw [List.mem_singleton] at hb
    subst hb
    exact h.fresh a ha
  · show StdMap.keys (s.m_uprooted ++ [(s.m_next_id, false)]) =
      StdMap.keys (s.m_active_objects ++ [(s.m_next_id, obj)])
    have := h.keys_u
    simp only [StdMap.keys, List.map_append, List.map_cons, List.map_nil] at this ⊢
    rw [this]
  · show StdMap.keys (s.m_dissapeared ++ [(s.m_next_id, 0)]) =
      StdMap.keys (s.m_active_objects ++ [(s.m_next_id, obj)])
    have := h.keys_d
    simp only [StdMap.keys, List.map_append, List.map_cons, List.map_nil] at this ⊢
    rw [this]
  · show List.Perm _ (StdMap.keys (s.m_active_objects ++ [(s.m_next_id, obj)]))
    simp only [StdMap.keys, List.map_append, List.map_cons, List.map_nil]
    exact hp.trans (List.Perm.append_right _ h.perm)
  · intro k hk
    change k ∈ StdMap.keys (s.m_active_objects ++ [(s.m_next_id, obj)]) at hk
    show k < s.m_next_id + 1
    simp only [StdMap.keys, List.map_append, List.map_cons, List.map_nil, List.mem_append,
      List.mem_singleton] at hk
    rcases hk with hk | hk
    · exact Nat.lt_succ_of_lt (h.fresh k hk)
    · rw [hk]; exact Nat.lt_succ_self _

theorem inv_register_object (gt : Object → Object → Bool) {s : ObjectTracker}
    (h : Inv s) (obj : Object) : Inv (register_object gt s obj).2 := by
  refine ⟨consistent_register_object gt h.cons obj, ?_⟩
  rw [register_object_fields gt h.cons obj]
  intro e he
  change e ∈ s.m_dissapeared ++ [(s.m_next_id, 0)] at he
  show e.2 ≤ s.m_max_dissapeared_frms
  rcases List.mem_append.1 he with he | he
  · exact h.bound e he
  · rw [List.mem_singleton] at he
    rw [he]; exact Nat.zero_le _

/-! ### deregister_object and cleanup_dissapeared -/

theorem consistent_deregister_object {s : ObjectTracker} (h : Consistent s) (id : ObjectID) :
    Consistent (deregister_object s id) := by
  unfold deregister_object
  constructor
  · show (StdMap.keys (s.m_active_objects.erase id)).Pairwise _
    rw [StdMap.keys_erase]
    exact h.sorted.filter _
  · show StdMap.keys (s.m_uprooted.erase id) = StdMap.keys (s.m_active_objects.erase id)
    rw [StdMap.keys_erase, StdMap.keys_erase, h.keys_u]
  · show StdMap.keys (s.m_dissapeared.erase id) = StdMap.keys (s.m_active_objects.erase id)
    rw [StdMap.keys_erase, StdMap.keys_erase, h.keys_d]
  · show (s.m_id_list.erase id).Perm (StdMap.keys (s.m_active_objects.erase id))
    rw [StdMap.keys_erase, h.nodup_id_list.erase_eq_filter]
    exact h.perm.filter _
  · intro k hk
    change k ∈ StdMap.keys (s.m_active_objects.erase id) at hk
    rw [StdMap.keys_erase] at hk
    exact h.fresh k (List.mem_filter.1 hk).1

theorem inv_deregister_object {s : ObjectTracker} (h : Inv s) (id : ObjectID) :
    Inv (deregister_object s id) := by
  refine ⟨consistent_deregister_object h.cons id, ?_⟩
  intro e he
  change e ∈ s.m_dissapeared.erase id at he
  exact h.bound e (List.mem_filter.1 he).1

theorem deregister_object_max (s : ObjectTracker) (id : ObjectID) :
    (deregister_object s id).m_max_dissapeared_frms = s.m_max_dissapeared_frms := rfl

theorem cleanup_foldl_eq (es : StdMap Nat) (t : ObjectTracker) :
    es.foldl (fun t e => if e.2 > t.m_max_dissapeared_frms then deregister_object t e.1 else t) t
      = ((es.filter (fun e => decide (e.2 > t.m_max_dissapeared_frms))).map Prod.fst).foldl
          deregister_object t := by
  induction es generalizing t with
  | nil => rfl
  | cons e r ih =>
    rw [List.foldl_cons]
    by_cases he : e.2 > t.m_max_dissapeared_frms
    · rw [if_pos he, ih, deregister_object_max,
        List.filter_cons_of_pos (by simpa using he), List.map_cons, List.foldl_cons]
    · rw [if_neg he, ih, List.filter_cons_of_neg (by simpa using he)]

theorem cleanup_eq_foldl (s : ObjectTracker) :
    cleanup_dissapeared s = (evicted s).foldl deregister_object s := by
  unfold cleanup_dissapeared evicted
  exact cleanup_foldl_eq s.m_dissapeared s

theorem consistent_foldl_deregister (L : List ObjectID) {s : ObjectTracker} (h : Consistent s) :
    Consistent (L.foldl deregister_object s) := by
  induction L generalizing s with
  | nil => exact h
  | cons a L ih => exact ih (consistent_deregister_object h a)

theorem filter_erase_eq {V : Type} (m : StdMap V) (a : ObjectID) (L : List ObjectID) :
    (m.erase a).filter (fun e => decide (e.1 ∉ L)) = m.filter (fun e => decide (e.1 ∉ a :: L)) := by
  unfold StdMap.erase
  rw [List.filter_filter]
  apply List.filter_congr
  intro e _
  by_cases h1 : e.1 = a <;> by_cases h2 : e.1 ∈ L <;> simp [h1, h2]

/-- The containers after deregistering the identities of `L` one after the other. -/
theorem foldl_deregister_fields (L : List ObjectID) (s : ObjectTracker) :
    L.foldl deregister_object s =
      { s with
        m_active_objects := s.m_active_objects.filter (fun e => decide (e.1 ∉ L))
        m_uprooted := s.m_uprooted.filter (fun e => decide (e.1 ∉ L))
        m_dissapeared := s.m_dissapeared.filter (fun e => decide (e.1 ∉ L))
        m_id_list := s.m_id_list.diff L } := by
  induction L generalizing s with
  | nil => simp
  | cons a L ih =>
    rw [List.foldl_cons, ih]
    simp only [deregister_object, filter_erase_eq, List.diff_cons]

theorem cleanup_fields (s : ObjectTracker) :
    cleanup_dissapeared s =
      { s with
        m_active_objects := s.m_active_objects.filter (fun e => decide (e.1 ∉ evicted s))
        m_uprooted := s.m_uprooted.filter (fun e => decide (e.1 ∉ evicted s))
        m_dissapeared := s.m_dissapeared.filter (fun e => decide (e.1 ∉ evicted s))
        m_id_list := s.m_id_list.diff (evicted s) } := by
  rw [cleanup_eq_foldl, foldl_deregister_fields]

theorem mem_evicted_iff {s : ObjectTracker} (h : Consistent s) (k : ObjectID) :
    k ∈ evicted s ↔ ∃ c, s.m_dissapeared.find? k = some c ∧ c > s.m_max_dissapeared_frms := by
  have hs : s.m_dissapeared.keys.Pairwise (fun a b => a < b) := by rw [h.keys_d]; exact h.sorted
  unfold evicted
  constructor
  · intro hk
    obtain ⟨e, he, rfl⟩ := List.mem_map.1 hk
    obtain ⟨he1, he2⟩ := List.mem_filter.1 he
    exact ⟨e.2, StdMap.find?_of_mem hs he1, by simpa using he2⟩
  · rintro ⟨c, hc1, hc2⟩
    exact List.mem_map.2 ⟨(k, c), List.mem_filter.2 ⟨StdMap.find?_mem hc1, by simpa using hc2⟩, rfl⟩

theorem inv_cleanup {s : ObjectTracker} (h : Consistent s) : Inv (cleanup_dissapeared s) := by
  constructor
  · rw [cleanup_eq_foldl]; exact consistent_foldl_deregister _ h
  · rw [cleanup_fields]
    intro e he
    change e ∈ s.m_dissapeared.filter (fun e => decide (e.1 ∉ evicted s)) at he
    show e.2 ≤ s.m_max_dissapeared_frms
    obtain ⟨he1, he2⟩ := List.mem_filter.1 he
    by_contra hgt
    have hs : s.m_dissapeared.keys.Pairwise (fun a b => a < b) := by
      rw [h.keys_d]; exact h.sorted
    have : e.1 ∈ evicted s :=
      (mem_evicted_iff h e.1).2 ⟨e.2, StdMap.find?_of_mem hs he1, Nat.lt_of_not_le hgt⟩
    simp [this] at he2

/-! ### top and active_objects -/

theorem top_scan_some {m : StdMap Bool} {k : ObjectID} {u : StdMap Bool}
    (h : top_scan m = some (k, u)) : u.keys = m.keys ∧ k ∈ m.keys := by
  induction m generalizing u with
  | nil => simp [top_scan] at h
  | cons e r ih =>
    obtain ⟨k', b⟩ := e
    unfold top_scan at h
    by_cases hb : b = false
    · rw [if_pos hb] at h
      injection h with h; injection h with h1 h2
      subst h1 h2
      simp [StdMap.keys]
    · rw [if_neg hb] at h
      cases hr : top_scan r with
      | none => rw [hr] at h; simp at h
      | some p =>
        obtain ⟨k1, u1⟩ := p
        rw [hr] at h
        simp only [Option.map_some', Option.some.injEq, Prod.mk.injEq] at h
        obtain ⟨h1, h2⟩ := h
        subst h1 h2
        obtain ⟨ih1, ih2⟩ := ih hr
        simp [StdMap.keys] at ih1 ih2 ⊢
        exact ⟨ih1, Or.inr ih2⟩

theorem top_fields {s : ObjectTracker} (h : Consistent s) (to_ret : Object) :
    (top s to_ret).2.2 = s ∨
      ∃ k u, top_scan s.m_uprooted = some (k, u) ∧ (top s to_ret).2.2 = { s with m_uprooted := u } := by
  unfold top
  by_cases h0 : object_count s = 0
  · left; rw [if_pos h0]
  · rw [if_neg h0]
    cases hs : top_scan s.m_uprooted with
    | none => left; rfl
    | some p =>
      obtain ⟨k, u⟩ := p
      right
      refine ⟨k, u, rfl, ?_⟩
      have hk : k ∈ s.m_active_objects.keys := by rw [← h.keys_u]; exact (top_scan_some hs).2
      simp only [StdMap.touch_of_mem hk]

theorem inv_top {s : ObjectTracker} (h : Inv s) (to_ret : Object) : Inv (top s to_ret).2.2 := by
  rcases top_fields h.cons to_ret with h1 | ⟨k, u, hs, h1⟩
  · rw [h1]; exact h
  · rw [h1]
    have hu := (top_scan_some hs).1
    exact ⟨⟨h.cons.sorted, by show u.keys = _; rw [hu]; exact h.cons.keys_u, h.cons.keys_d,
      h.cons.perm, h.cons.fresh⟩, h.bound⟩

theorem active_objects_foldl (l : List ObjectID) (s : ObjectTracker) (acc : List Object)
    (h : ∀ i ∈ l, i ∈ s.m_active_objects.keys) :
    l.foldl
      (fun acc id =>
        (acc.1 ++ [acc.2.m_active_objects.get id],
         { acc.2 with m_active_objects := acc.2.m_active_objects.touch id }))
      (acc, s) = (acc ++ l.map (fun id => s.m_active_objects.get id), s) := by
  induction l generalizing acc with
  | nil => simp
  | cons i r ih =>
    rw [List.foldl_cons]
    simp only [StdMap.touch_of_mem (h i (List.mem_cons_self _ _))]
    rw [ih _ (fun j hj => h j (List.mem_cons_of_mem _ hj))]
    simp

theorem active_objects_eq {s : ObjectTracker} (h : Consistent s) :
    active_objects s = (s.m_id_list.map (fun id => s.m_active_objects.get id), s) := by
  unfold active_objects
  rw [active_objects_foldl _ _ _ (fun i hi => (h.mem_id_list i).1 hi)]
  simp

/-! ### The matching loop of update -/

section MatchLoop

variable (s : ObjectTracker) (new_objs : List Object) (D : List (List Distance))
  (S : List (List Nat))

/-- The two outcomes of one iteration of the matching loop. -/
theorem match_row_cases (st : MatchState) (i : Nat) :
    (∃ c, find_update s.m_dist_tol st.used_cols (D.getD i []) (S.getD i []) = some c ∧
      match_row s new_objs D S st i =
        { st with
          used_cols := c :: st.used_cols
          m_active_objects :=
            st.m_active_objects.insert_or_assign (s.m_id_list.getD i 0) (new_objs.getD c default)
          assigned := st.assigned ++ [(s.m_id_list.getD i 0, c)] }) ∨
    (find_update s.m_dist_tol st.used_cols (D.getD i []) (S.getD i []) = none ∧
      match_row s new_objs D S st i =
        { st with
          m_dissapeared :=
            st.m_dissapeared.insert_or_assign (s.m_id_list.getD i 0)
              (st.m_dissapeared.get (s.m_id_list.getD i 0) + 1) }) := by
  unfold match_row
  cases h : find_update s.m_dist_tol st.used_cols (D.getD i []) (S.getD i []) with
  | none => right; exact ⟨rfl, rfl⟩
  | some c => left; exact ⟨c, rfl, rfl⟩

theorem find_update_some {tol : Tolerance} {used : List Nat} {drow : List Distance}
    {row : List Nat} {c : Nat} (h : find_update tol used drow row = some c) :
    c ∈ row ∧ c ∉ used ∧ lt_tol (drow.getD c 0) tol = true := by
  unfold find_update at h
  have h1 := List.find?_some h
  have h2 := List.mem_of_find?_eq_some h
  simp only [Bool.and_eq_true, decide_eq_true_eq] at h1
  exact ⟨h2, h1.1, h1.2⟩

/-- Rows other than the row of `id` leave the entries of `id` alone. -/
theorem match_fold_of_not_mem (rows : List Nat) (st : MatchState) (id : ObjectID)
    (h : ∀ i ∈ rows, s.m_id_list.getD i 0 ≠ id) :
    (rows.foldl (match_row s new_objs D S) st).m_active_objects.find? id =
        st.m_active_objects.find? id ∧
      (rows.foldl (match_row s new_objs D S) st).m_dissapeared.find? id =
        st.m_dissapeared.find? id ∧
      ∀ c, (id, c) ∈ (rows.foldl (match_row s new_objs D S) st).assigned ↔
        (id, c) ∈ st.assigned := by
  induction rows generalizing st with
  | nil => simp
  | cons i r ih =>
    rw [List.foldl_cons]
    have hi : s.m_id_list.getD i 0 ≠ id := h i (List.mem_cons_self _ _)
    obtain ⟨ih1, ih2, ih3⟩ := ih (match_row s new_objs D S st i)
      (fun j hj => h j (List.mem_cons_of_mem _ hj))
    rcases match_row_cases s new_objs D S st i with ⟨c, _, hm⟩ | ⟨_, hm⟩
    · refine ⟨?_, ?_, ?_⟩
      · rw [ih1, hm]; exact StdMap.find?_insert_ne _ _ (Ne.symm hi)
      · rw [ih2, hm]
      · intro c'
        refine (ih3 c').trans ?_
        rw [hm]
        simp only [List.mem_append, List.mem_singleton, Prod.mk.injEq]
        constructor
        · rintro (h1 | ⟨h1, _⟩)
          · exact h1
          · exact absurd h1.symm hi
        · intro h1; exact Or.inl h1
    · refine ⟨?_, ?_, ?_⟩
      · rw [ih1, hm]
      · rw [ih2, hm]; exact StdMap.find?_insert_ne _ _ (Ne.symm hi)
      · intro c'
        refine (ih3 c').trans ?_
        rw [hm]

/-- The matching loop neither adds nor removes a key. -/
theorem match_fold_keys (hs : Consistent s) (rows : List Nat)
    (hrows : ∀ i ∈ rows, i < s.m_active_objects.size) (st : MatchState)
    (hk : st.m_active_objects.keys = s.m_active_objects.keys)
    (hd : st.m_dissapeared.keys = s.m_active_objects.keys) :
    (rows.foldl (match_row s new_objs D S) st).m_active_objects.keys = s.m_active_objects.keys ∧
      (rows.foldl (match_row s new_objs D S) st).m_dissapeared.keys = s.m_active_objects.keys := by
  induction rows generalizing st with
  | nil => exact ⟨hk, hd⟩
  | cons i r ih =>
    rw [List.foldl_cons]
    have hi : s.m_id_list.getD i 0 ∈ s.m_active_objects.keys :=
      hs.getD_mem (hrows i (List.mem_cons_self _ _))
    apply ih (fun j hj => hrows j (List.mem_cons_of_mem _ hj))
    · rcases match_row_cases s new_objs D S st i with ⟨c, _, hm⟩ | ⟨_, hm⟩
      · rw [hm]
        show (st.m_active_objects.insert_or_assign _ _).keys = _
        rw [StdMap.keys_insert_of_mem (by rw [hk]; exact hs.sorted) _ (by rw [hk]; exact hi), hk]
      · rw [hm]; exact hk
    · rcases match_row_cases s new_objs D S st i with ⟨c, _, hm⟩ | ⟨_, hm⟩
      · rw [hm]; exact hd
      · rw [hm]
        show (st.m_dissapeared.insert_or_assign _ _).keys = _
        rw [StdMap.keys_insert_of_mem (by rw [hd]; exact hs.sorted) _ (by rw [hd]; exact hi), hd]

/-- Every pair the loop records comes from a row, a column of that row nearer than the
tolerance. -/
theorem match_fold_assigned (rows : List Nat) (st : MatchState) :
    ∀ p ∈ (rows.foldl (match_row s new_objs D S) st).assigned,
      p ∈ st.assigned ∨
        ∃ i ∈ rows, p.1 = s.m_id_list.getD i 0 ∧ p.2 ∈ S.getD i [] ∧
          lt_tol ((D.getD i []).getD p.2 0) s.m_dist_tol = true := by
  induction rows generalizing st with
  | nil => intro p hp; exact Or.inl hp
  | cons i r ih =>
    intro p hp
    rw [List.foldl_cons] at hp
    rcases ih _ p hp with h1 | ⟨j, hj, h2⟩
    · rcases match_row_cases s new_objs D S st i with ⟨c, hf, hm⟩ | ⟨_, hm⟩
      · rw [hm] at h1
        rcases List.mem_append.1 h1 with h1 | h1
        · exact Or.inl h1
        · rw [List.mem_singleton] at h1
          obtain ⟨hc1, _, hc3⟩ := find_update_some hf
          right
          refine ⟨i, List.mem_cons_self _ _, ?_⟩
          rw [h1]; exact ⟨rfl, hc1, hc3⟩
      · rw [hm] at h1; exact Or.inl h1
    · exact Or.inr ⟨j, List.mem_cons_of_mem _ hj, h2⟩

/-- The effect of the loop on the identity of row `i`, a row visited exactly once. -/
theorem match_fold_row (rows : List Nat) (hnd : rows.Nodup) (st : MatchState) (i : Nat)
    (hi : i ∈ rows) (hinj : ∀ j ∈ rows, j ≠ i → s.m_id_list.getD j 0 ≠ s.m_id_list.getD i 0) :
    (∃ c, (s.m_id_list.getD i 0, c) ∈ (rows.foldl (match_row s new_objs D S) st).assigned ∧
        (∀ c', (s.m_id_list.getD i 0, c') ∈ (rows.foldl (match_row s new_objs D S) st).assigned →
          (s.m_id_list.getD i 0, c') ∈ st.assigned ∨ c' = c) ∧
        (rows.foldl (match_row s new_objs D S) st).m_active_objects.find? (s.m_id_list.getD i 0) =
          some (new_objs.getD c default) ∧
        (rows.foldl (match_row s new_objs D S) st).m_dissapeared.find? (s.m_id_list.getD i 0) =
          st.m_dissapeared.find? (s.m_id_list.getD i 0)) ∨
    ((∀ c', (s.m_id_list.getD i 0, c') ∈ (rows.foldl (match_row s new_objs D S) st).assigned →
          (s.m_id_list.getD i 0, c') ∈ st.assigned) ∧
        (rows.foldl (match_row s new_objs D S) st).m_active_objects.find? (s.m_id_list.getD i 0) =
          st.m_active_objects.find? (s.m_id_list.getD i 0) ∧
        (rows.foldl (match_row s new_objs D S) st).m_dissapeared.find? (s.m_id_list.getD i 0) =
          some (st.m_dissapeared.get (s.m_id_list.getD i 0) + 1)) := by
  obtain ⟨pre, post, rfl⟩ := List.append_of_mem hi
  have hnd2 := List.nodup_append.1 hnd
  have hpre : ∀ j ∈ pre, s.m_id_list.getD j 0 ≠ s.m_id_list.getD i 0 := by
    intro j hj
    apply hinj j (List.mem_append_left _ hj)
    rintro rfl
    exact hnd2.2.2 hj (List.mem_cons_self _ _)
  have hpost : ∀ j ∈ post, s.m_id_list.getD j 0 ≠ s.m_id_list.getD i 0 := by
    intro j hj
    apply hinj j (List.mem_append_right _ (List.mem_cons_of_mem _ hj))
    rintro rfl
    exact (List.nodup_cons.1 hnd2.2.1).1 hj
  rw [List.foldl_append, List.foldl_cons]
  obtain ⟨a1, a2, a3⟩ := match_fold_of_not_mem s new_objs D S pre st _ hpre
  obtain ⟨b1, b2, b3⟩ := match_fold_of_not_mem s new_objs D S post
    (match_row s new_objs D S (pre.foldl (match_row s new_objs D S) st) i) _ hpost
  rcases match_row_cases s new_objs D S (pre.foldl (match_row s new_objs D S) st) i with
    ⟨c, _, hm⟩ | ⟨_, hm⟩
  · left
    refine ⟨c, ?_, ?_, ?_, ?_⟩
    · rw [b3, hm]; simp
    · intro c' hc'
      rw [b3, hm] at hc'
      rcases List.mem_append.1 hc' with h1 | h1
      · exact Or.inl ((a3 c').1 h1)
      · rw [List.mem_singleton] at h1
        injection h1 with _ h2
        exact Or.inr h2
    · rw [b1, hm]; exact StdMap.find?_insert_self _ _ _
    · rw [b2, hm]; exact a2
  · right
    refine ⟨?_, ?_, ?_⟩
    · intro c' hc'
      rw [b3, hm] at hc'
      exact (a3 c').1 hc'
    · rw [b1, hm]; exact a1
    · rw [b2, hm]
      show StdMap.find? (StdMap.insert_or_assign _ _ _) _ = _
      rw [StdMap.find?_insert_self]
      simp only [StdMap.get, a2]

end MatchLoop

/-! ### Registration of new identities -/

theorem register_object_fields_insert (gt : Object → Object → Bool) {s : ObjectTracker}
    (h : Consistent s) (obj : Object) :
    (register_object gt s obj).2 =
      { s with
        m_id_list :=
          s.m_id_list.takeWhile (fun i => gt (s.m_active_objects.get i) obj) ++
            s.m_next_id :: s.m_id_list.dropWhile (fun i => gt (s.m_active_objects.get i) obj)
        m_active_objects := s.m_active_objects.insert_or_assign s.m_next_id obj
        m_uprooted := s.m_uprooted.insert_or_assign s.m_next_id false
        m_dissapeared := s.m_dissapeared.insert_or_assign s.m_next_id 0
        m_next_id := s.m_next_id + 1 } := by
  have hl : ∀ i ∈ s.m_id_list, i ∈ s.m_active_objects.keys := fun i hi => (h.mem_id_list i).1 hi
  unfold register_object
  simp only [insert_sorted_eq gt obj s.m_next_id s.m_id_list s.m_active_objects hl]

theorem Ext.refl {s : ObjectTracker} (h : Consistent s) : Ext s s where
  cons := h
  next_le := Nat.le_refl _
  tol_eq := rfl
  max_eq := rfl
  act := fun _ _ => rfl
  upr := fun _ _ => rfl
  dis := fun _ _ => rfl
  order := List.Sublist.refl _
  new_dis := by
    intro id hid c hc
    have h1 : id ∈ s.m_active_objects.keys := by
      rw [← h.keys_d]; exact StdMap.mem_keys_of_find? hc
    exact absurd (h.fresh id h1) (Nat.not_lt.2 hid)
  new_upr := by
    intro id hid c hc
    have h1 : id ∈ s.m_active_objects.keys := by
      rw [← h.keys_u]; exact StdMap.mem_keys_of_find? hc
    exact absurd (h.fresh id h1) (Nat.not_lt.2 hid)

theorem Ext.register (gt : Object → Object → Bool) {s t : ObjectTracker} (h : Ext s t)
    (obj : Object) : Ext s (register_object gt t obj).2 := by
  have hc := consistent_register_object gt h.cons obj
  rw [register_object_fields_insert gt h.cons obj] at hc ⊢
  refine ⟨hc, Nat.le_succ_of_le h.next_le, h.tol_eq, h.max_eq, ?_, ?_, ?_, ?_, ?_, ?_⟩
  · intro id hid
    show StdMap.find? (StdMap.insert_or_assign _ _ _) id = _
    rw [StdMap.find?_insert_ne _ _ (Nat.ne_of_lt (Nat.lt_of_lt_of_le hid h.next_le)), h.act id hid]
  · intro id hid
    show StdMap.find? (StdMap.insert_or_assign _ _ _) id = _
    rw [StdMap.find?_insert_ne _ _ (Nat.ne_of_lt (Nat.lt_of_lt_of_le hid h.next_le)), h.upr id hid]
  · intro id hid
    show StdMap.find? (StdMap.insert_or_assign _ _ _) id = _
    rw [StdMap.find?_insert_ne _ _ (Nat.ne_of_lt (Nat.lt_of_lt_of_le hid h.next_le)), h.dis id hid]
  · refine h.order.trans ?_
    show List.Sublist t.m_id_list (_ ++ _ :: _)
    have h1 := List.takeWhile_append_dropWhile (fun i => gt (t.m_active_objects.get i) obj)
      t.m_id_list
    conv_lhs => rw [← h1]
    exact List.Sublist.append (List.Sublist.refl _) (List.sublist_cons_self _ _)
  · intro id hid c hcf
    change StdMap.find? (StdMap.insert_or_assign t.m_dissapeared t.m_next_id 0) id = some c at hcf
    by_cases hk : id = t.m_next_id
    · rw [hk, StdMap.find?_insert_self] at hcf
      injection hcf with hcf; exact hcf.symm
    · rw [StdMap.find?_insert_ne _ _ hk] at hcf
      exact h.new_dis id hid c hcf
  · intro id hid c hcf
    change StdMap.find? (StdMap.insert_or_assign t.m_uprooted t.m_next_id false) id = some c at hcf
    by_cases hk : id = t.m_next_id
    · rw [hk, StdMap.find?_insert_self] at hcf
      injection hcf with hcf; exact hcf.symm
    · rw [StdMap.find?_insert_ne _ _ hk] at hcf
      exact h.new_upr id hid c hcf

theorem Ext.foldl_register (gt : Object → Object → Bool) {s : ObjectTracker}
    (objs : List Object) {t : ObjectTracker} (h : Ext s t) :
    Ext s (objs.foldl (fun t o => (register_object gt t o).2) t) := by
  induction objs generalizing t with
  | nil => exact h
  | cons o r ih => exact ih (h.register gt o)

theorem Ext.foldl_register_if (gt : Object → Object → Bool) {s : ObjectTracker}
    (new_objs : List Object) (used : List Nat) (cols : List Nat) {t : ObjectTracker}
    (h : Ext s t) :
    Ext s (cols.foldl
      (fun t x => if x ∉ used then (register_object gt t (new_objs.getD x default)).2 else t)
      t) := by
  induction cols generalizing t with
  | nil => exact h
  | cons x r ih =>
    rw [List.foldl_cons]
    by_cases hx : x ∉ used
    · rw [if_pos hx]; exact ih (h.register gt _)
    · rw [if_neg hx]; exact ih h

/-! ### update -/

theorem dist_matrix_touch_eq {s : ObjectTracker} (h : Consistent s) :
    dist_matrix_touch s = s.m_active_objects := by
  unfold dist_matrix_touch
  have : ∀ (l : List Nat), (∀ i ∈ l, i < s.m_active_objects.size) →
      l.foldl (fun a i => StdMap.touch a (s.m_id_list.getD i 0)) s.m_active_objects
        = s.m_active_objects := by
    intro l
    induction l with
    | nil => intro _; rfl
    | cons i r ih =>
      intro hl
      rw [List.foldl_cons, StdMap.touch_of_mem (h.getD_mem (hl i (List.mem_cons_self _ _)))]
      exact ih (fun j hj => hl j (List.mem_cons_of_mem _ hj))
  exact this _ (fun i hi => List.mem_range.1 hi)

theorem mem_active_obj_ids (D : List (List Distance)) (S : List (List Nat)) (m i : Nat) :
    i ∈ active_obj_ids D S m ↔ i < m := by
  unfold active_obj_ids
  rw [mem_std_sort, List.mem_range]

theorem active_obj_ids_nodup (D : List (List Distance)) (S : List (List Nat)) (m : Nat) :
    (active_obj_ids D S m).Nodup :=
  std_sort_nodup _ (List.nodup_range m)

theorem match_loop_keys {s : ObjectTracker} (h : Consistent s) (new_objs : List Object) :
    (match_loop s new_objs).m_active_objects.keys = s.m_active_objects.keys ∧
      (match_loop s new_objs).m_dissapeared.keys = s.m_active_objects.keys := by
  unfold match_loop
  exact match_fold_keys s new_objs _ _ h _
    (fun i hi => (mem_active_obj_ids _ _ _ i).1 hi) _
    (by rw [dist_matrix_touch_eq h]) h.keys_d

theorem consistent_after_match {s : ObjectTracker} (h : Consistent s) (new_objs : List Object) :
    Consistent (after_match s new_objs) := by
  obtain ⟨h1, h2⟩ := match_loop_keys h new_objs
  unfold after_match
  constructor
  · show (match_loop s new_objs).m_active_objects.keys.Pairwise _
    rw [h1]; exact h.sorted
  · show s.m_uprooted.keys = (match_loop s new_objs).m_active_objects.keys
    rw [h1]; exact h.keys_u
  · show (match_loop s new_objs).m_dissapeared.keys = (match_loop s new_objs).m_active_objects.keys
    rw [h1, h2]
  · show s.m_id_list.Perm (match_loop s new_objs).m_active_objects.keys
    rw [h1]; exact h.perm
  · intro k hk
    change k ∈ (match_loop s new_objs).m_active_objects.keys at hk
    rw [h1] at hk
    exact h.fresh k hk

theorem update_general_eq (gt : Object → Object → Bool) (s : ObjectTracker)
    (new_objs : List Object) :
    update_general gt s new_objs =
      ((sorted_ids (dist_matrix s new_objs) s.m_active_objects.size new_objs.length).getD 0
          []).foldl
        (fun t x =>
          if x ∉ (match_loop s new_objs).used_cols then
            (register_object gt t (new_objs.getD x default)).2
          else t)
        (after_match s new_objs) := rfl

theorem ext_update_general (gt : Object → Object → Bool) {s : ObjectTracker} (h : Consistent s)
    (new_objs : List Object) : Ext (after_match s new_objs) (update_general gt s new_objs) := by
  rw [update_general_eq]
  exact Ext.foldl_register_if gt _ _ _ (Ext.refl (consistent_after_match h new_objs))

/-- The tracker after the empty-frame branch. -/
theorem update_branches_nil (gt : Object → Object → Bool) (s : ObjectTracker) :
    update_branches gt s [] =
      { s with m_dissapeared := s.m_dissapeared.map (fun e => (e.1, e.2 + 1)) } := rfl

theorem consistent_update_branches (gt : Object → Object → Bool) {s : ObjectTracker}
    (h : Consistent s) (new_objs : List Object) : Consistent (update_branches gt s new_objs) := by
  unfold update_branches
  by_cases h1 : new_objs.length = 0
  · rw [if_pos h1]
    refine ⟨h.sorted, h.keys_u, ?_, h.perm, h.fresh⟩
    show StdMap.keys (s.m_dissapeared.map (fun e => (e.1, e.2 + 1))) = _
    rw [← h.keys_d]
    simp [StdMap.keys, List.map_map, Function.comp_def]
  · rw [if_neg h1]
    by_cases h2 : s.m_active_objects.size = 0
    · rw [if_pos h2]
      exact (Ext.foldl_register gt new_objs (Ext.refl h)).cons
    · rw [if_neg h2]
      exact (ext_update_general gt h new_objs).cons

theorem inv_update (gt : Object → Object → Bool) {s : ObjectTracker} (h : Consistent s)
    (new_objs : List Object) : Inv (update gt s new_objs) :=
  inv_cleanup (consistent_update_branches gt h new_objs)

theorem inv_init (distTol : Tolerance) (max_frms : Nat) (first_id : ObjectID) :
    Inv (ObjectTracker.init distTol max_frms first_id) :=
  ⟨consistent_init _ _ _, by intro e he; cases he⟩

/-- Every reachable state satisfies the registry invariant. -/
theorem Reachable.inv {gt : Object → Object → Bool} {s : ObjectTracker} (h : Reachable gt s) :
    Inv s := by
  induction h with
  | init distTol max_frms first_id => exact inv_init _ _ _
  | update new_objs _ ih => exact inv_update gt ih.cons new_objs
  | register_object obj _ ih => exact inv_register_object gt ih obj
  | deregister_object id _ ih => exact inv_deregister_object ih id
  | top to_ret _ ih => exact inv_top ih to_ret
  | active_objects _ ih => rw [active_objects_eq ih.cons]; exact ih

/-! ### The scan of top -/

theorem top_scan_eq_none_iff (m : StdMap Bool) : top_scan m = none ↔ ∀ e ∈ m, e.2 = true := by
  induction m with
  | nil => simp [top_scan]
  | cons e r ih =>
    obtain ⟨k, b⟩ := e
    unfold top_scan
    cases b with
    | false => simp
    | true => simp [ih]

/-- What the scan finds: the least key whose flag is `false`; only that flag is changed. -/
theorem top_scan_spec {m : StdMap Bool} (hs : m.keys.Pairwise (fun a b => a < b))
    {k : ObjectID} {u : StdMap Bool} (h : top_scan m = some (k, u)) :
    m.find? k = some false ∧ (∀ j, j < k → m.find? j ≠ some false) ∧
      u.find? k = some true ∧ (∀ j, j ≠ k → u.find? j = m.find? j) := by
  induction m generalizing u with
  | nil => simp [top_scan] at h
  | cons e r ih =>
    obtain ⟨k', b⟩ := e
    rw [StdMap.keys_cons, List.pairwise_cons] at hs
    unfold top_scan at h
    by_cases hb : b = false
    · rw [if_pos hb] at h
      injection h with h; injection h with h1 h2
      subst h1 h2 hb
      refine ⟨by simp [StdMap.find?], ?_, by simp [StdMap.find?], ?_⟩
      · intro j hj hf
        have hj1 : j ∈ StdMap.keys ((k', false) :: r) := StdMap.mem_keys_of_find? hf
        rw [StdMap.keys_cons, List.mem_cons] at hj1
        rcases hj1 with hj1 | hj1
        · exact absurd hj1 (Nat.ne_of_lt hj)
        · exact absurd (hs.1 j hj1) (Nat.lt_asymm hj)
      · intro j hj
        simp [StdMap.find?, Ne.symm hj]
    · rw [if_neg hb] at h
      have hbt : b = true := by simpa using hb
      subst hbt
      cases hr : top_scan r with
      | none => rw [hr] at h; simp at h
      | some p =>
        obtain ⟨k1, u1⟩ := p
        rw [hr] at h
        simp only [Option.map_some', Option.some.injEq, Prod.mk.injEq] at h
        obtain ⟨h1, h2⟩ := h
        subst h1 h2
        obtain ⟨i1, i2, i3, i4⟩ := ih hs.2 hr
        have hk1 : k1 ∈ StdMap.keys r := StdMap.mem_keys_of_find? i1
        have hlt : k' < k1 := hs.1 k1 hk1
        have hne : k' ≠ k1 := Nat.ne_of_lt hlt
        refine ⟨by simp [StdMap.find?, hne, i1], ?_, by simp [StdMap.find?, hne, i3], ?_⟩
        · intro j hj hf
          by_cases hjk : k' = j
          · subst hjk; simp [StdMap.find?] at hf
          · simp only [StdMap.find?, if_neg hjk] at hf
            exact i2 j hj hf
        · intro j hj
          by_cases hjk : k' = j
          · simp [StdMap.find?, hjk]
          · simp only [StdMap.find?, if_neg hjk]
            exact i4 j hj

theorem top_id_eq_some_iff {s : ObjectTracker} (h : Consistent s) (k : ObjectID) :
    top_id s = some k ↔ ∃ u, top_scan s.m_uprooted = some (k, u) := by
  unfold top_id
  by_cases h0 : object_count s = 0
  · have h1 : s.m_uprooted = [] := by
      have : s.m_uprooted.keys = [] := by
        rw [h.keys_u]
        simp only [object_count, StdMap.size, List.length_eq_zero] at h0
        rw [h0]; rfl
      simpa [StdMap.keys] using this
    simp [h0, h1, top_scan]
  · rw [if_neg h0]
    cases top_scan s.m_uprooted with
    | none => simp
    | some p => obtain ⟨k1, u1⟩ := p; simp

/-- The result of `top` when the scan finds an unclaimed identity. -/
theorem top_of_scan {s : ObjectTracker} (h : Consistent s) (to_ret : Object) {k : ObjectID}
    {u : StdMap Bool} (hs : top_scan s.m_uprooted = some (k, u)) :
    top s to_ret = (true, s.m_active_objects.get k, { s with m_uprooted := u }) := by
  have hk : k ∈ s.m_active_objects.keys := by rw [← h.keys_u]; exact (top_scan_some hs).2
  have h0 : ¬ object_count s = 0 := by
    intro h0
    simp only [object_count, StdMap.size, List.length_eq_zero] at h0
    rw [h0] at hk; cases hk
  unfold top
  rw [if_neg h0]
  simp only [hs, StdMap.touch_of_mem hk]

/-- The result of `top` when there is nothing to claim. -/
theorem top_of_scan_none {s : ObjectTracker} (to_ret : Object)
    (hs : object_count s = 0 ∨ top_scan s.m_uprooted = none) :
    top s to_ret = (false, to_ret, s) := by
  unfold top
  by_cases h0 : object_count s = 0
  · rw [if_pos h0]
  · rw [if_neg h0]
    have := hs.resolve_left h0
    simp only [this]

/-! ### The effect of update on one identity -/

theorem StdMap.find?_map_val {V W : Type} (m : StdMap V) (f : V → W) (k : ObjectID) :
    StdMap.find? (m.map (fun e => (e.1, f e.2))) k = (StdMap.find? m k).map f := by
  induction m with
  | nil => rfl
  | cons e r ih =>
    obtain ⟨k', v⟩ := e
    by_cases h : k' = k
    · simp [StdMap.find?, h]
    · simp only [List.map_cons, StdMap.find?, if_neg h]
      exact ih

theorem StdMap.find?_get {V : Type} [Inhabited V] {m : StdMap V} {k : ObjectID}
    (h : k ∈ m.keys) : StdMap.find? m k = some (StdMap.get m k) := by
  have := (StdMap.find?_isSome_iff m k).2 h
  unfold StdMap.get
  cases hf : StdMap.find? m k with
  | none => rw [hf] at this; cases this
  | some v => rfl

theorem Consistent.exists_row {s : ObjectTracker} (h : Consistent s) {id : ObjectID}
    (hid : id ∈ s.m_active_objects.keys) :
    ∃ i, i < s.m_active_objects.size ∧ s.m_id_list.getD i 0 = id := by
  rw [← h.mem_id_list] at hid
  obtain ⟨i, hi, he⟩ := List.getElem_of_mem hid
  refine ⟨i, by rw [← h.length_id_list]; exact hi, ?_⟩
  rw [List.getD_eq_getElem _ _ hi, he]

theorem Consistent.row_inj {s : ObjectTracker} (h : Consistent s) {i j : Nat}
    (hi : i < s.m_active_objects.size) (hj : j < s.m_active_objects.size)
    (e : s.m_id_list.getD i 0 = s.m_id_list.getD j 0) : i = j := by
  rw [← h.length_id_list] at hi hj
  rw [List.getD_eq_getElem _ _ hi, List.getD_eq_getElem _ _ hj] at e
  exact (List.Nodup.getElem_inj_iff h.nodup_id_list).1 e

theorem match_loop_eq {s : ObjectTracker} (h : Consistent s) (new_objs : List Object) :
    match_loop s new_objs =
      (active_obj_ids (dist_matrix s new_objs)
        (sorted_ids (dist_matrix s new_objs) s.m_active_objects.size new_objs.length)
        s.m_active_objects.size).foldl
        (match_row s new_objs (dist_matrix s new_objs)
          (sorted_ids (dist_matrix s new_objs) s.m_active_objects.size new_objs.length))
        { used_cols := []
          m_active_objects := s.m_active_objects
          m_dissapeared := s.m_dissapeared
          assigned := [] } := by
  unfold match_loop
  rw [dist_matrix_touch_eq h]

/-- The matching loop on the identity of row `i`: either it is assigned exactly one column `c`,
takes the value of that detection and keeps its count, or it is assigned nothing, keeps its
value and has its count incremented. -/
theorem match_loop_row {s : ObjectTracker} (h : Consistent s) (new_objs : List Object) {i : Nat}
    (hi : i < s.m_active_objects.size) :
    (∃ c, (s.m_id_list.getD i 0, c) ∈ (match_loop s new_objs).assigned ∧
        (∀ c', (s.m_id_list.getD i 0, c') ∈ (match_loop s new_objs).assigned → c' = c) ∧
        (match_loop s new_objs).m_active_objects.find? (s.m_id_list.getD i 0) =
          some (new_objs.getD c default) ∧
        (match_loop s new_objs).m_dissapeared.find? (s.m_id_list.getD i 0) =
          s.m_dissapeared.find? (s.m_id_list.getD i 0)) ∨
    ((∀ c', (s.m_id_list.getD i 0, c') ∉ (match_loop s new_objs).assigned) ∧
        (match_loop s new_objs).m_active_objects.find? (s.m_id_list.getD i 0) =
          s.m_active_objects.find? (s.m_id_list.getD i 0) ∧
        (match_loop s new_objs).m_dissapeared.find? (s.m_id_list.getD i 0) =
          some (s.m_dissapeared.get (s.m_id_list.getD i 0) + 1)) := by
  have key := match_fold_row s new_objs (dist_matrix s new_objs)
    (sorted_ids (dist_matrix s new_objs) s.m_active_objects.size new_objs.length)
    (active_obj_ids (dist_matrix s new_objs)
      (sorted_ids (dist_matrix s new_objs) s.m_active_objects.size new_objs.length)
      s.m_active_objects.size)
    (active_obj_ids_nodup _ _ _)
    { used_cols := []
      m_active_objects := s.m_active_objects
      m_dissapeared := s.m_dissapeared
      assigned := [] }
    i ((mem_active_obj_ids _ _ _ i).2 hi)
    (fun j hj hne e => hne (h.row_inj ((mem_active_obj_ids _ _ _ j).1 hj) hi e))
  rw [match_loop_eq h new_objs]
  rcases key with ⟨c, k1, k2, k3, k4⟩ | ⟨k1, k2, k3⟩
  · left
    refine ⟨c, k1, ?_, k3, k4⟩
    intro c' hc'
    rcases k2 c' hc' with h1 | h1
    · cases h1
    · exact h1
  · right
    refine ⟨?_, k2, k3⟩
    intro c' hc'
    cases k1 c' hc'

theorem getD_map_range {α : Type} (f : Nat → α) (n : Nat) (d : α) {i : Nat} (hi : i < n) :
    ((List.range n).map f).getD i d = f i := by
  rw [List.getD_eq_getElem _ _ (by simpa using hi)]
  simp

/-- Entry of the distance matrix. -/
theorem dist_matrix_getD (s : ObjectTracker) (new_objs : List Object) {i c : Nat}
    (hi : i < s.m_active_objects.size) (hc : c < new_objs.length) :
    ((dist_matrix s new_objs).getD i []).getD c 0 =
      euclidean_distance (s.m_active_objects.get (s.m_id_list.getD i 0))
        (new_objs.getD c default) := by
  unfold dist_matrix
  rw [getD_map_range _ _ _ hi, getD_map_range _ _ _ hc]

theorem sorted_ids_getD (D : List (List Distance)) (m n : Nat) {i : Nat} (hi : i < m) :
    (sorted_ids D m n).getD i [] =
      std_sort (fun a b => decide (at2 D i a < at2 D i b)) (List.range n) := by
  unfold sorted_ids
  rw [getD_map_range _ _ _ hi]

/-- Every pair recorded by the matching loop: a live identity, a detection index, and a
distance below the tolerance between the identity's value before the call and the detection. -/
theorem match_loop_assigned {s : ObjectTracker} (new_objs : List Object)
    {id : ObjectID} {c : Nat} (hm : (id, c) ∈ (match_loop s new_objs).assigned) :
    (∃ i, i < s.m_active_objects.size ∧ s.m_id_list.getD i 0 = id) ∧ c < new_objs.length ∧
      lt_tol (euclidean_distance (s.m_active_objects.get id) (new_objs.getD c default))
        s.m_dist_tol = true := by
  have key := match_fold_assigned s new_objs (dist_matrix s new_objs)
    (sorted_ids (dist_matrix s new_objs) s.m_active_objects.size new_objs.length)
    (active_obj_ids (dist_matrix s new_objs)
      (sorted_ids (dist_matrix s new_objs) s.m_active_objects.size new_objs.length)
      s.m_active_objects.size)
    { used_cols := []
      m_active_objects := dist_matrix_touch s
      m_dissapeared := s.m_dissapeared
      assigned := [] } (id, c) hm
  rcases key with h1 | ⟨i, hi, h1, h2, h3⟩
  · cases h1
  · have hi' := (mem_active_obj_ids _ _ _ i).1 hi
    rw [sorted_ids_getD _ _ _ hi', mem_std_sort, List.mem_range] at h2
    simp only at h1 h2 h3
    rw [dist_matrix_getD s new_objs hi' h2, ← h1] at h3
    exact ⟨⟨i, hi', h1.symm⟩, h2, h3⟩

/-! ### update, seen from one identity -/

theorem matched_pairs_general {s : ObjectTracker} {new_objs : List Object} {p : ObjectID × Nat}
    (hm : p ∈ matched_pairs s new_objs) :
    new_objs.length ≠ 0 ∧ s.m_active_objects.size ≠ 0 ∧ p ∈ (match_loop s new_objs).assigned := by
  unfold matched_pairs at hm
  by_cases h1 : new_objs.length = 0
  · rw [if_pos h1] at hm; cases hm
  · rw [if_neg h1] at hm
    by_cases h2 : s.m_active_objects.size = 0
    · rw [if_pos h2] at hm; cases hm
    · rw [if_neg h2] at hm; exact ⟨h1, h2, hm⟩

theorem update_branches_general (gt : Object → Object → Bool) {s : ObjectTracker}
    {new_objs : List Object} (h1 : new_objs.length ≠ 0) (h2 : s.m_active_objects.size ≠ 0) :
    update_branches gt s new_objs = update_general gt s new_objs := by
  unfold update_branches
  rw [if_neg h1, if_neg h2]

/-- What `update` keeps, before `cleanup_dissapeared`: the configuration, and for the ids
below `m_next_id` whether they are live. -/
theorem update_branches_old (gt : Object → Object → Bool) {s : ObjectTracker} (h : Consistent s)
    (new_objs : List Object) :
    s.m_next_id ≤ (update_branches gt s new_objs).m_next_id ∧
      (update_branches gt s new_objs).m_max_dissapeared_frms = s.m_max_dissapeared_frms ∧
      (update_branches gt s new_objs).m_dist_tol = s.m_dist_tol ∧
      (∀ id, id < s.m_next_id → (update_branches gt s new_objs).m_uprooted.find? id =
        s.m_uprooted.find? id) ∧
      (∀ id, id < s.m_next_id → (id ∈ (update_branches gt s new_objs).m_active_objects.keys ↔
        id ∈ s.m_active_objects.keys)) := by
  unfold update_branches
  by_cases h1 : new_objs.length = 0
  · rw [if_pos h1]
    exact ⟨Nat.le_refl _, rfl, rfl, fun _ _ => rfl, fun _ _ => Iff.rfl⟩
  · rw [if_neg h1]
    by_cases h2 : s.m_active_objects.size = 0
    · rw [if_pos h2]
      have e := Ext.foldl_register gt new_objs (Ext.refl h)
      refine ⟨e.next_le, e.max_eq, e.tol_eq, e.upr, ?_⟩
      intro id hid
      rw [← StdMap.find?_isSome_iff, ← StdMap.find?_isSome_iff, e.act id hid]
    · rw [if_neg h2]
      have e := ext_update_general gt h new_objs
      have hk := (match_loop_keys h new_objs).1
      refine ⟨e.next_le, e.max_eq, e.tol_eq, e.upr, ?_⟩
      intro id hid
      rw [← StdMap.find?_isSome_iff, e.act id hid, StdMap.find?_isSome_iff]
      show id ∈ (match_loop s new_objs).m_active_objects.keys ↔ _
      rw [hk]

/-- A matched identity, before `cleanup_dissapeared`: it takes the value of the detection and
keeps its count and its flag. -/
theorem update_branches_matched (gt : Object → Object → Bool) {s : ObjectTracker}
    (h : Consistent s) (new_objs : List Object) {id : ObjectID} {c : Nat}
    (hm : (id, c) ∈ matched_pairs s new_objs) :
    id ∈ s.m_active_objects.keys ∧
      (update_branches gt s new_objs).m_active_objects.find? id =
        some (new_objs.getD c default) ∧
      (update_branches gt s new_objs).m_dissapeared.find? id = s.m_dissapeared.find? id ∧
      (update_branches gt s new_objs).m_uprooted.find? id = s.m_uprooted.find? id := by
  obtain ⟨h1, h2, h3⟩ := matched_pairs_general hm
  obtain ⟨⟨i, hi, hid⟩, _, _⟩ := match_loop_assigned new_objs h3
  have hk : id ∈ s.m_active_objects.keys := by rw [← hid]; exact h.getD_mem hi
  have hlt : id < s.m_next_id := h.fresh id hk
  have e := ext_update_general gt h new_objs
  rw [update_branches_general gt h1 h2]
  refine ⟨hk, ?_, ?_, e.upr id hlt⟩
  · rw [e.act id hlt]
    show (match_loop s new_objs).m_active_objects.find? id = _
    rcases match_loop_row h new_objs hi with ⟨c0, _, k2, k3, _⟩ | ⟨k1, _, _⟩
    · rw [hid] at k2 k3
      rw [k2 c h3]; exact k3
    · rw [hid] at k1
      exact absurd h3 (k1 c)
  · rw [e.dis id hlt]
    show (match_loop s new_objs).m_dissapeared.find? id = _
    rcases match_loop_row h new_objs hi with ⟨c0, _, _, _, k4⟩ | ⟨k1, _, _⟩
    · rw [hid] at k4; exact k4
    · rw [hid] at k1
      exact absurd h3 (k1 c)

/-- An unmatched live identity, before `cleanup_dissapeared`: it keeps its value and its flag,
and its count is incremented. -/
theorem update_branches_unmatched (gt : Object → Object → Bool) {s : ObjectTracker}
    (h : Consistent s) (new_objs : List Object) {id : ObjectID}
    (hk : id ∈ s.m_active_objects.keys) (hu : Unmatched id s new_objs) :
    (update_branches gt s new_objs).m_active_objects.find? id = s.m_active_objects.find? id ∧
      (update_branches gt s new_objs).m_dissapeared.find? id =
        some (s.m_dissapeared.get id + 1) ∧
      (update_branches gt s new_objs).m_uprooted.find? id = s.m_uprooted.find? id := by
  have hlt : id < s.m_next_id := h.fresh id hk
  have hkd : id ∈ s.m_dissapeared.keys := by rw [h.keys_d]; exact hk
  by_cases h1 : new_objs.length = 0
  · unfold update_branches
    rw [if_pos h1]
    refine ⟨rfl, ?_, rfl⟩
    show StdMap.find? (s.m_dissapeared.map (fun e => (e.1, e.2 + 1))) id = _
    rw [StdMap.find?_map_val s.m_dissapeared (fun c => c + 1) id, StdMap.find?_get hkd]
    rfl
  · by_cases h2 : s.m_active_objects.size = 0
    · simp only [StdMap.size, List.length_eq_zero] at h2
      rw [h2] at hk; cases hk
    · have e := ext_update_general gt h new_objs
      obtain ⟨i, hi, hid⟩ := h.exists_row hk
      have hun : ∀ c, (id, c) ∉ (match_loop s new_objs).assigned := by
        intro c hc
        apply hu
        unfold matched_pairs
        rw [if_neg h1, if_neg h2]
        exact List.mem_map.2 ⟨(id, c), hc, rfl⟩
      rw [update_branches_general gt h1 h2]
      rcases match_loop_row h new_objs hi with ⟨c0, k1, _, _, _⟩ | ⟨_, k2, k3⟩
      · rw [hid] at k1
        exact absurd k1 (hun c0)
      · rw [hid] at k2 k3
        exact ⟨(e.act id hlt).trans k2, (e.dis id hlt).trans k3, e.upr id hlt⟩

/-! ### cleanup_dissapeared, seen from one identity -/

theorem cleanup_of_not_evicted (s : ObjectTracker) {id : ObjectID} (h : id ∉ evicted s) :
    (cleanup_dissapeared s).m_active_objects.find? id = s.m_active_objects.find? id ∧
      (cleanup_dissapeared s).m_dissapeared.find? id = s.m_dissapeared.find? id ∧
      (cleanup_dissapeared s).m_uprooted.find? id = s.m_uprooted.find? id := by
  rw [cleanup_fields]
  refine ⟨?_, ?_, ?_⟩
  · show StdMap.find? (s.m_active_objects.filter (fun e => decide (e.1 ∉ evicted s))) id = _
    rw [StdMap.find?_filter s.m_active_objects (fun k => decide (k ∉ evicted s)) id]
    simp [h]
  · show StdMap.find? (s.m_dissapeared.filter (fun e => decide (e.1 ∉ evicted s))) id = _
    rw [StdMap.find?_filter s.m_dissapeared (fun k => decide (k ∉ evicted s)) id]
    simp [h]
  · show StdMap.find? (s.m_uprooted.filter (fun e => decide (e.1 ∉ evicted s))) id = _
    rw [StdMap.find?_filter s.m_uprooted (fun k => decide (k ∉ evicted s)) id]
    simp [h]

theorem keys_filter {V : Type} (m : StdMap V) (p : ObjectID → Bool) :
    StdMap.keys (m.filter (fun e => p e.1)) = (StdMap.keys m).filter p := by
  unfold StdMap.keys
  rw [List.filter_map]
  rfl

theorem cleanup_keys (s : ObjectTracker) :
    (cleanup_dissapeared s).m_active_objects.keys =
      s.m_active_objects.keys.filter (fun k => decide (k ∉ evicted s)) := by
  rw [cleanup_fields]
  exact keys_filter s.m_active_objects (fun k => decide (k ∉ evicted s))

theorem cleanup_same (s : ObjectTracker) :
    (cleanup_dissapeared s).m_next_id = s.m_next_id ∧
      (cleanup_dissapeared s).m_max_dissapeared_frms = s.m_max_dissapeared_frms ∧
      (cleanup_dissapeared s).m_dist_tol = s.m_dist_tol := by
  rw [cleanup_fields]
  exact ⟨rfl, rfl, rfl⟩

theorem cleanup_of_evicted {s : ObjectTracker} (hc : Consistent s) {id : ObjectID}
    (h : id ∈ evicted s) :
    id ∉ (cleanup_dissapeared s).m_active_objects.keys ∧
      id ∉ (cleanup_dissapeared s).m_dissapeared.keys ∧
      id ∉ (cleanup_dissapeared s).m_uprooted.keys ∧
      id ∉ (cleanup_dissapeared s).m_id_list := by
  have hi := (inv_cleanup hc).cons
  have h1 : id ∉ (cleanup_dissapeared s).m_active_objects.keys := by
    rw [cleanup_keys]
    intro hm
    have := (List.mem_filter.1 hm).2
    simp [h] at this
  refine ⟨h1, ?_, ?_, ?_⟩
  · rw [hi.keys_d]; exact h1
  · rw [hi.keys_u]; exact h1
  · rw [hi.mem_id_list]; exact h1

/-! ### One call of update, seen from one identity -/

theorem update_same (gt : Object → Object → Bool) {s : ObjectTracker} (h : Consistent s)
    (new_objs : List Object) :
    s.m_next_id ≤ (update gt s new_objs).m_next_id ∧
      (update gt s new_objs).m_max_dissapeared_frms = s.m_max_dissapeared_frms ∧
      (update gt s new_objs).m_dist_tol = s.m_dist_tol := by
  obtain ⟨a1, a2, a3, _, _⟩ := update_branches_old gt h new_objs
  obtain ⟨b1, b2, b3⟩ := cleanup_same (update_branches gt s new_objs)
  unfold update
  rw [b1, b2, b3]
  exact ⟨a1, a2, a3⟩

/-- An identity that is not live and below `m_next_id` is not live after `update`. -/
theorem update_not_live (gt : Object → Object → Bool) {s : ObjectTracker} (h : Consistent s)
    (new_objs : List Object) {id : ObjectID} (hlt : id < s.m_next_id)
    (hn : id ∉ s.m_active_objects.keys) : id ∉ (update gt s new_objs).m_active_objects.keys := by
  obtain ⟨_, _, _, _, a5⟩ := update_branches_old gt h new_objs
  unfold update
  rw [cleanup_keys]
  intro hm
  exact hn ((a5 id hlt).1 (List.mem_filter.1 hm).1)

/-! ### The tracker with one identity under empty frames -/

theorem update_init_single (gt : Object → Object → Bool) (distTol : Tolerance) (max_frms : Nat)
    (first_id : ObjectID) (d : Object) :
    update gt (ObjectTracker.init distTol max_frms first_id) [d] =
      { m_dist_tol := distTol
        m_max_dissapeared_frms := max_frms
        m_next_id := first_id + 1
        m_active_objects := [(first_id, d)]
        m_uprooted := [(first_id, false)]
        m_dissapeared := [(first_id, 0)]
        m_id_list := [first_id] } := by
  simp [update, update_branches, ObjectTracker.init, StdMap.size, register_object, insert_sorted,
    StdMap.insert_or_assign, cleanup_dissapeared]

theorem update_nil_single (gt : Object → Object → Bool) (distTol : Tolerance) (max_frms : Nat)
    (next_id id : ObjectID) (d : Object) (u : Bool) (c : Nat) :
    update gt
        { m_dist_tol := distTol
          m_max_dissapeared_frms := max_frms
          m_next_id := next_id
          m_active_objects := [(id, d)]
          m_uprooted := [(id, u)]
          m_dissapeared := [(id, c)]
          m_id_list := [id] } [] =
      if max_frms < c + 1 then
        { m_dist_tol := distTol
          m_max_dissapeared_frms := max_frms
          m_next_id := next_id
          m_active_objects := []
          m_uprooted := []
          m_dissapeared := []
          m_id_list := [] }
      else
        { m_dist_tol := distTol
          m_max_dissapeared_frms := max_frms
          m_next_id := next_id
          m_active_objects := [(id, d)]
          m_uprooted := [(id, u)]
          m_dissapeared := [(id, c + 1)]
          m_id_list := [id] } := by
  by_cases h : max_frms < c + 1
  · simp [update, update_branches, cleanup_dissapeared, deregister_object, StdMap.erase, h]
  · simp [update, update_branches, cleanup_dissapeared, deregister_object, StdMap.erase, h]

/-! ### The sample tracker with one missed frame -/

theorem sample_missed_eq (gt : Object → Object → Bool) :
    sample_missed gt =
      { m_dist_tol := ⟨5, 1⟩
        m_max_dissapeared_frms := 1
        m_next_id := 1
        m_active_objects := [(0, ⟨0, 0, 0, 1⟩)]
        m_uprooted := [(0, false)]
        m_dissapeared := [(0, 1)]
        m_id_list := [0] } := by
  unfold sample_missed
  rw [update_init_single, update_nil_single]
  rfl

theorem reachable_sample_missed (gt : Object → Object → Bool) :
    Reachable gt (sample_missed gt) :=
  Reachable.update _ (Reachable.update _ (Reachable.init _ _ _))

theorem sample_missed_matched (gt : Object → Object → Bool) :
    matched_pairs (sample_missed gt) [⟨1, 0, 0, 1⟩] = [(0, 0)] := by
  rw [sample_missed_eq]; decide

theorem sample_missed_update (gt : Object → Object → Bool) :
    update gt (sample_missed gt) [⟨1, 0, 0, 1⟩] =
      { m_dist_tol := ⟨5, 1⟩
        m_max_dissapeared_frms := 1
        m_next_id := 1
        m_active_objects := [(0, ⟨1, 0, 0, 1⟩)]
        m_uprooted := [(0, false)]
        m_dissapeared := [(0, 1)]
        m_id_list := [0] } := by
  rw [sample_missed_eq]; rfl

/-! ### Sortedness of `std_sort` -/

theorem sort_insert_sorted {α : Type} (key : α → Nat) (a : α) (l : List α)
    (h : l.Pairwise (fun x y => key x ≤ key y)) :
    (sort_insert (fun x y => decide (key x < key y)) a l).Pairwise
      (fun x y => key x ≤ key y) := by
  induction l with
  | nil => exact List.pairwise_singleton _ _
  | cons b l ih =>
    rw [List.pairwise_cons] at h
    unfold sort_insert
    by_cases hb : key b < key a
    · rw [if_pos (by simpa using hb)]
      rw [List.pairwise_cons]
      refine ⟨?_, ih h.2⟩
      intro y hy
      rcases (List.mem_cons.1 ((sort_insert_perm _ a l).mem_iff.1 hy)) with h1 | h1
      · rw [h1]; exact Nat.le_of_lt hb
      · exact h.1 y h1
    · rw [if_neg (by simpa using hb)]
      have hab : key a ≤ key b := Nat.le_of_not_lt hb
      rw [List.pairwise_cons]
      refine ⟨?_, List.pairwise_cons.2 h⟩
      intro y hy
      rcases List.mem_cons.1 hy with h1 | h1
      · rw [h1]; exact hab
      · exact Nat.le_trans hab (h.1 y h1)

theorem std_sort_sorted {α : Type} (key : α → Nat) (l : List α) :
    (std_sort (fun x y => decide (key x < key y)) l).Pairwise (fun x y => key x ≤ key y) := by
  induction l with
  | nil => exact List.Pairwise.nil
  | cons a l ih =>
    unfold std_sort at *
    rw [List.foldr_cons]
    exact sort_insert_sorted key a _ ih

/-- The first element of the sorted list has the least key. -/
theorem std_sort_head_le {α : Type} (key : α → Nat) (l : List α) (d : α) {x : α} (hx : x ∈ l) :
    key ((std_sort (fun x y => decide (key x < key y)) l).getD 0 d) ≤ key x := by
  have hs := std_sort_sorted key l
  have hm := (mem_std_sort (fun x y => decide (key x < key y)) l x).2 hx
  cases hl : std_sort (fun x y => decide (key x < key y)) l with
  | nil => rw [hl] at hm; cases hm
  | cons h t =>
    rw [hl] at hs hm
    rw [List.pairwise_cons] at hs
    show key h ≤ key x
    rcases List.mem_cons.1 hm with h1 | h1
    · rw [h1]
    · exact hs.1 x h1

theorem std_sort_head_mem {α : Type} (comp : α → α → Bool) (l : List α) (d : α) (hl : l ≠ []) :
    (std_sort comp l).getD 0 d ∈ l := by
  cases hs : std_sort comp l with
  | nil =>
    have := (std_sort_perm comp l).length_eq
    rw [hs] at this
    exact absurd (List.length_eq_zero.1 this.symm) hl
  | cons h t =>
    rw [← mem_std_sort comp l, hs]
    exact List.mem_cons_self _ _

theorem std_sort_eq_head_cons {α : Type} (comp : α → α → Bool) (l : List α) (d : α)
    (hl : l ≠ []) : ∃ t, std_sort comp l = (std_sort comp l).getD 0 d :: t := by
  cases hs : std_sort comp l with
  | nil =>
    have := (std_sort_perm comp l).length_eq
    rw [hs] at this
    exact absurd (List.length_eq_zero.1 this.symm) hl
  | cons h t => exact ⟨t, rfl⟩

/-! ### The row processed first -/

section FirstRow

variable {s : ObjectTracker} {new_objs : List Object}

theorem first_row_lt (h2 : s.m_active_objects.size ≠ 0) :
    first_row s new_objs < s.m_active_objects.size := by
  unfold first_row active_obj_ids
  have := std_sort_head_mem
    (fun a b => decide (at2 (dist_matrix s new_objs)
      a (at2 (sorted_ids (dist_matrix s new_objs) s.m_active_objects.size new_objs.length) a 0) <
      at2 (dist_matrix s new_objs) b
        (at2 (sorted_ids (dist_matrix s new_objs) s.m_active_objects.size new_objs.length) b 0)))
    (List.range s.m_active_objects.size) 0
    (by intro h; apply h2; simpa using congrArg List.length h)
  exact List.mem_range.1 this

theorem nearest_col_eq {i : Nat} (hi : i < s.m_active_objects.size) :
    nearest_col s new_objs i =
      (std_sort (fun a b => decide (at2 (dist_matrix s new_objs) i a <
        at2 (dist_matrix s new_objs) i b)) (List.range new_objs.length)).getD 0 0 := by
  unfold nearest_col
  show ((sorted_ids _ _ _).getD i []).getD 0 0 = _
  rw [sorted_ids_getD _ _ _ hi]

theorem nearest_col_lt (h1 : new_objs.length ≠ 0) {i : Nat} (hi : i < s.m_active_objects.size) :
    nearest_col s new_objs i < new_objs.length := by
  rw [nearest_col_eq hi]
  have := std_sort_head_mem
    (fun a b => decide (at2 (dist_matrix s new_objs) i a < at2 (dist_matrix s new_objs) i b))
    (List.range new_objs.length) 0
    (by intro h; apply h1; simpa using congrArg List.length h)
  exact List.mem_range.1 this

/-- The first column of a sorted row is a nearest detection of the row. -/
theorem nearest_col_le {i j : Nat} (hi : i < s.m_active_objects.size)
    (hj : j < new_objs.length) :
    at2 (dist_matrix s new_objs) i (nearest_col s new_objs i) ≤
      at2 (dist_matrix s new_objs) i j := by
  rw [nearest_col_eq hi]
  exact std_sort_head_le (fun c => at2 (dist_matrix s new_objs) i c) _ 0 (List.mem_range.2 hj)

/-- The row processed first has the least nearest distance. -/
theorem first_row_le {i : Nat} (hi : i < s.m_active_objects.size) :
    at2 (dist_matrix s new_objs) (first_row s new_objs)
        (nearest_col s new_objs (first_row s new_objs)) ≤
      at2 (dist_matrix s new_objs) i (nearest_col s new_objs i) := by
  unfold first_row active_obj_ids nearest_col
  exact std_sort_head_le
    (fun a => at2 (dist_matrix s new_objs) a
      (at2 (sorted_ids (dist_matrix s new_objs) s.m_active_objects.size new_objs.length) a 0))
    _ 0 (List.mem_range.2 hi)

theorem at2_dist_matrix {i c : Nat} (hi : i < s.m_active_objects.size)
    (hc : c < new_objs.length) :
    at2 (dist_matrix s new_objs) i c =
      euclidean_distance (s.m_active_objects.get (s.m_id_list.getD i 0))
        (new_objs.getD c default) :=
  dist_matrix_getD s new_objs hi hc

end FirstRow

/-- The row processed first is assigned its nearest detection when that one is nearer than the
tolerance. -/
theorem first_row_matched {s : ObjectTracker} (h : Consistent s) {new_objs : List Object}
    (h1 : new_objs.length ≠ 0) (h2 : s.m_active_objects.size ≠ 0)
    (ht : lt_tol (at2 (dist_matrix s new_objs) (first_row s new_objs)
      (nearest_col s new_objs (first_row s new_objs))) s.m_dist_tol = true) :
    (s.m_id_list.getD (first_row s new_objs) 0, nearest_col s new_objs (first_row s new_objs)) ∈
      (match_loop s new_objs).assigned := by
  have hi0 : first_row s new_objs < s.m_active_objects.size := first_row_lt h2
  have hnd := active_obj_ids_nodup (dist_matrix s new_objs)
    (sorted_ids (dist_matrix s new_objs) s.m_active_objects.size new_objs.length)
    s.m_active_objects.size
  have hmem := mem_active_obj_ids (dist_matrix s new_objs)
    (sorted_ids (dist_matrix s new_objs) s.m_active_objects.size new_objs.length)
    s.m_active_objects.size
  obtain ⟨rest, hrows⟩ := std_sort_eq_head_cons
    (fun a b => decide (at2 (dist_matrix s new_objs)
      a (at2 (sorted_ids (dist_matrix s new_objs) s.m_active_objects.size new_objs.length) a 0) <
      at2 (dist_matrix s new_objs) b
        (at2 (sorted_ids (dist_matrix s new_objs) s.m_active_objects.size new_objs.length) b 0)))
    (List.range s.m_active_objects.size) 0
    (by intro h; apply h2; simpa using congrArg List.length h)
  have hrows' : active_obj_ids (dist_matrix s new_objs)
      (sorted_ids (dist_matrix s new_objs) s.m_active_objects.size new_objs.length)
      s.m_active_objects.size = first_row s new_objs :: rest := hrows
  obtain ⟨t, hrow⟩ := std_sort_eq_head_cons
    (fun a b => decide (at2 (dist_matrix s new_objs) (first_row s new_objs) a <
      at2 (dist_matrix s new_objs) (first_row s new_objs) b))
    (List.range new_objs.length) 0
    (by intro h; apply h1; simpa using congrArg List.length h)
  rw [← nearest_col_eq hi0, ← sorted_ids_getD _ s.m_active_objects.size _ hi0] at hrow
  rw [hrows'] at hnd hmem
  rw [match_loop_eq h new_objs, hrows', List.foldl_cons]
  have hrest : ∀ j ∈ rest, s.m_id_list.getD j 0 ≠ s.m_id_list.getD (first_row s new_objs) 0 := by
    intro j hj e
    have hjlt : j < s.m_active_objects.size := (hmem j).1 (List.mem_cons_of_mem _ hj)
    have := h.row_inj hjlt hi0 e
    rw [this] at hj
    exact (List.nodup_cons.1 hnd).1 hj
  rw [(match_fold_of_not_mem s new_objs _ _ rest _ _ hrest).2.2]
  have hfind : find_update s.m_dist_tol []
      ((dist_matrix s new_objs).getD (first_row s new_objs) [])
      ((sorted_ids (dist_matrix s new_objs) s.m_active_objects.size new_objs.length).getD
        (first_row s new_objs) []) = some (nearest_col s new_objs (first_row s new_objs)) := by
    unfold find_update
    rw [hrow]
    apply List.find?_cons_of_pos
    simp only [List.not_mem_nil, not_false_eq_true, decide_True, Bool.true_and]
    exact ht
  unfold match_row
  simp only [hfind, List.nil_append, List.mem_singleton]

/-! ### deregister_object, seen from the containers -/

theorem erase_of_not_mem {V : Type} (m : StdMap V) {k : ObjectID} (h : k ∉ m.keys) :
    m.erase k = m := by
  unfold StdMap.erase
  apply List.filter_eq_self.2
  intro e he
  have : e.1 ∈ m.keys := List.mem_map_of_mem Prod.fst he
  simp only [bne_iff_ne, ne_eq]
  intro h1
  exact h (h1 ▸ this)

/-- The call `deregister_object(id)` on an id that is not live changes nothing. -/
theorem deregister_object_of_not_live {s : ObjectTracker} (h : Consistent s) {id : ObjectID}
    (hn : id ∉ s.m_active_objects.keys) : deregister_object s id = s := by
  unfold deregister_object
  rw [erase_of_not_mem _ hn, erase_of_not_mem s.m_uprooted (by rw [h.keys_u]; exact hn),
    erase_of_not_mem s.m_dissapeared (by rw [h.keys_d]; exact hn),
    List.erase_of_not_mem (by rw [h.mem_id_list]; exact hn)]

theorem length_filter_ne_of_nodup {l : List ObjectID} (h : l.Nodup) {k : ObjectID} (hk : k ∈ l) :
    (l.filter (fun j => j != k)).length + 1 = l.length := by
  rw [← h.erase_eq_filter, List.length_erase_of_mem hk]
  have : 0 < l.length := List.length_pos_of_mem hk
  omega

theorem size_erase {V : Type} {m : StdMap V} (h : m.keys.Nodup) {k : ObjectID}
    (hk : k ∈ m.keys) : (m.erase k).size + 1 = m.size := by
  have h1 : (m.erase k).size = (m.erase k).keys.length := by simp [StdMap.size, StdMap.keys]
  have h2 : m.size = m.keys.length := by simp [StdMap.size, StdMap.keys]
  rw [h1, h2, StdMap.keys_erase]
  exact length_filter_ne_of_nodup h hk

/-! ### Three registrations into the empty tracker -/

theorem register_three (gt : Object → Object → Bool) (distTol : Tolerance) (max_frms : Nat)
    (first_id : Nat) (A B C : Object) (hCA : gt C A = true) (hCB : gt C B = true)
    (hAB : gt A B = false) :
    (register_object gt (register_object gt
        (register_object gt (ObjectTracker.init distTol max_frms first_id) C).2 A).2 B).2 =
      { m_dist_tol := distTol
        m_max_dissapeared_frms := max_frms
        m_next_id := first_id + 3
        m_active_objects := [(first_id, C), (first_id + 1, A), (first_id + 2, B)]
        m_uprooted := [(first_id, false), (first_id + 1, false), (first_id + 2, false)]
        m_dissapeared := [(first_id, 0), (first_id + 1, 0), (first_id + 2, 0)]
        m_id_list := [first_id, first_id + 2, first_id + 1] } := by
  have e1 : (register_object gt (ObjectTracker.init distTol max_frms first_id) C).2 =
      { m_dist_tol := distTol
        m_max_dissapeared_frms := max_frms
        m_next_id := first_id + 1
        m_active_objects := [(first_id, C)]
        m_uprooted := [(first_id, false)]
        m_dissapeared := [(first_id, 0)]
        m_id_list := [first_id] } := rfl
  have a1 : ¬ first_id + 1 + 1 < first_id := by omega
  have a2 : ¬ first_id + 1 + 1 = first_id := by omega
  rw [e1]
  simp [register_object, insert_sorted, StdMap.touch, StdMap.insert_or_assign, StdMap.get,
    StdMap.find?, hCA, hCB, hAB, a1, a2]

theorem update_three (gt : Object → Object → Bool) (distTol : Tolerance) (max_frms : Nat)
    (first_id : ObjectID) (A B C : Object) :
    update gt (ObjectTracker.init distTol max_frms first_id) [C, A, B] =
      cleanup_dissapeared (register_object gt (register_object gt
        (register_object gt (ObjectTracker.init distTol max_frms first_id) C).2 A).2 B).2 := rfl

theorem active_objects_three (distTol : Tolerance) (max_frms : Nat) (first_id : Nat)
    (A B C : Object) :
    (active_objects
      { m_dist_tol := distTol
        m_max_dissapeared_frms := max_frms
        m_next_id := first_id + 3
        m_active_objects := [(first_id, C), (first_id + 1, A), (first_id + 2, B)]
        m_uprooted := [(first_id, false), (first_id + 1, false), (first_id + 2, false)]
        m_dissapeared := [(first_id, 0), (first_id + 1, 0), (first_id + 2, 0)]
        m_id_list := [first_id, first_id + 2, first_id + 1] }).1 = [C, B, A] := by
  have a1 : ¬ first_id = first_id + 2 := by omega
  have a2 : ¬ first_id + 1 = first_id + 2 := by omega
  have a3 : ¬ first_id = first_id + 1 := by omega
  simp [active_objects, StdMap.get, StdMap.find?, StdMap.touch, a1, a2, a3]

/-! ### Consecutive entries and repeated registration -/

theorem keys_consecutive {V : Type} (k : Nat) (vs : List V) :
    (StdMap.consecutive k vs).keys = List.range' k vs.length := by
  induction vs generalizing k with
  | nil => rfl
  | cons v vs ih =>
    show k :: (StdMap.consecutive (k + 1) vs).keys = _
    rw [ih, List.length_cons, List.range'_succ]

theorem length_consecutive {V : Type} (k : Nat) (vs : List V) :
    (StdMap.consecutive k vs).length = vs.length := by
  induction vs generalizing k with
  | nil => rfl
  | cons v vs ih =>
    show (StdMap.consecutive (k + 1) vs).length + 1 = _
    rw [ih, List.length_cons]

theorem find?_consecutive {V : Type} (k : Nat) (vs : List V) (j : Nat) (hj : j < vs.length) :
    StdMap.find? (StdMap.consecutive k vs) (k + j) = vs[j]? := by
  induction vs generalizing k j with
  | nil => cases hj
  | cons v vs ih =>
    cases j with
    | zero => simp [StdMap.consecutive, StdMap.find?]
    | succ j =>
      have h1 : ¬ k = k + (j + 1) := by omega
      have h2 : k + (j + 1) = k + 1 + j := by omega
      simp only [StdMap.consecutive, StdMap.find?, if_neg h1, List.getElem?_cons_succ]
      rw [h2]
      exact ih (k + 1) j (by simpa using hj)

theorem find?_append {V : Type} (m1 m2 : StdMap V) (k : ObjectID) :
    StdMap.find? (m1 ++ m2) k =
      match StdMap.find? m1 k with
      | some v => some v
      | none => StdMap.find? m2 k := by
  induction m1 with
  | nil => rfl
  | cons e r ih =>
    obtain ⟨k', v⟩ := e
    by_cases h : k' = k
    · simp [StdMap.find?, h]
    · simp only [List.cons_append, StdMap.find?, if_neg h]
      exact ih

/-- The maps after registering the objects of a list one after the other: the new entries are
appended with consecutive ids from `m_next_id` on, flag `false` and count `0`. -/
theorem foldl_register_maps (gt : Object → Object → Bool) (os : List Object)
    {t : ObjectTracker} (h : Consistent t) :
    (os.foldl (fun t o => (register_object gt t o).2) t).m_active_objects =
        t.m_active_objects ++ StdMap.consecutive t.m_next_id os ∧
      (os.foldl (fun t o => (register_object gt t o).2) t).m_uprooted =
        t.m_uprooted ++ StdMap.consecutive t.m_next_id (os.map (fun _ => false)) ∧
      (os.foldl (fun t o => (register_object gt t o).2) t).m_dissapeared =
        t.m_dissapeared ++ StdMap.consecutive t.m_next_id (os.map (fun _ => 0)) ∧
      (os.foldl (fun t o => (register_object gt t o).2) t).m_next_id =
        t.m_next_id + os.length := by
  induction os generalizing t with
  | nil => simp [StdMap.consecutive]
  | cons o os ih =>
    rw [List.foldl_cons]
    obtain ⟨a1, a2, a3, a4⟩ := ih (consistent_register_object gt h o)
    rw [a1, a2, a3, a4, register_object_fields gt h o]
    simp only [List.append_assoc, List.singleton_append, List.map_cons, StdMap.consecutive,
      List.length_cons]
    refine ⟨trivial, trivial, trivial, ?_⟩
    rw [Nat.add_assoc, Nat.add_comm 1]

/-- The registration loop of the general case registers the unconsumed detections. -/
theorem foldl_register_if_eq (gt : Object → Object → Bool) (new_objs : List Object)
    (used : List Nat) (cols : List Nat) (t : ObjectTracker) :
    cols.foldl
        (fun t x => if x ∉ used then (register_object gt t (new_objs.getD x default)).2 else t) t =
      ((cols.filter (fun x => decide (x ∉ used))).map (fun x => new_objs.getD x default)).foldl
        (fun t o => (register_object gt t o).2) t := by
  induction cols generalizing t with
  | nil => rfl
  | cons x r ih =>
    rw [List.foldl_cons]
    by_cases hx : x ∉ used
    · rw [if_pos hx, List.filter_cons_of_pos (by simpa using hx), List.map_cons, List.foldl_cons]
      exact ih _
    · rw [if_neg hx, List.filter_cons_of_neg (by simpa using hx)]
      exact ih _

theorem update_general_eq_foldl (gt : Object → Object → Bool) (s : ObjectTracker)
    (new_objs : List Object) :
    update_general gt s new_objs =
      ((unmatched_cols s new_objs).map (fun x => new_objs.getD x default)).foldl
        (fun t o => (register_object gt t o).2) (after_match s new_objs) := by
  rw [update_general_eq, foldl_register_if_eq]
  rfl

theorem cleanup_of_evicted_nil {s : ObjectTracker} (h : evicted s = []) :
    cleanup_dissapeared s = s := by
  rw [cleanup_eq_foldl, h]
  rfl

theorem mem_consecutive_snd {V : Type} (k : Nat) (vs : List V) {e : ObjectID × V}
    (h : e ∈ StdMap.consecutive k vs) : e.2 ∈ vs := by
  induction vs generalizing k with
  | nil => cases h
  | cons v vs ih =>
    rcases List.mem_cons.1 h with h1 | h1
    · rw [h1]; exact List.mem_cons_self _ _
    · exact List.mem_cons_of_mem _ (ih (k + 1) h1)

theorem getElem?_eq_some_getD {α : Type} (l : List α) (d : α) {j : Nat} (hj : j < l.length) :
    l[j]? = some (l.getD j d) := by
  rw [List.getD_eq_getElem _ _ hj, List.getElem?_eq_getElem hj]

/-- The empty-registry branch in closed form. -/
theorem update_empty_registry_eq (gt : Object → Object → Bool) {s : ObjectTracker}
    (h : Consistent s) (new_objs : List Object) (h0 : s.m_active_objects = [])
    (hn : new_objs ≠ []) :
    update gt s new_objs =
      { s with
        m_active_objects := StdMap.consecutive s.m_next_id new_objs
        m_uprooted := StdMap.consecutive s.m_next_id (new_objs.map (fun _ => false))
        m_dissapeared := StdMap.consecutive s.m_next_id (new_objs.map (fun _ => 0))
        m_next_id := s.m_next_id + new_objs.length
        m_id_list := (update gt s new_objs).m_id_list } := by
  have hu : s.m_uprooted = [] := by
    have := h.keys_u
    rw [h0] at this
    exact List.map_eq_nil_iff.1 this
  have hd : s.m_dissapeared = [] := by
    have := h.keys_d
    rw [h0] at this
    exact List.map_eq_nil_iff.1 this
  have hb : update_branches gt s new_objs =
      new_objs.foldl (fun t o => (register_object gt t o).2) s := by
    unfold update_branches
    rw [if_neg (fun hl => hn (List.length_eq_zero.1 hl)), if_pos (by rw [h0]; rfl)]
  obtain ⟨a1, a2, a3, a4⟩ := foldl_register_maps gt new_objs h
  have e := Ext.foldl_register gt new_objs (Ext.refl h)
  rw [← hb] at a1 a2 a3 a4 e
  rw [h0, List.nil_append] at a1
  rw [hu, List.nil_append] at a2
  rw [hd, List.nil_append] at a3
  have hev : evicted (update_branches gt s new_objs) = [] := by
    unfold evicted
    rw [a3, List.map_eq_nil_iff, List.filter_eq_nil_iff]
    intro e he
    have := mem_consecutive_snd _ _ he
    simp only [List.mem_map] at this
    obtain ⟨_, _, h2⟩ := this
    simp [← h2]
  have hup : update gt s new_objs = update_branches gt s new_objs := cleanup_of_evicted_nil hev
  rw [hup]
  cases hx : update_branches gt s new_objs with
  | mk tol mx nx act upr dis idl =>
    rw [hx] at a1 a2 a3 a4 e
    simp only at a1 a2 a3 a4
    have h5 := e.tol_eq
    have h6 := e.max_eq
    simp only at h5 h6
    rw [a1, a2, a3, a4, h5, h6]

/-! ### The columns consumed by the matching loop -/

section UsedCols

variable (s : ObjectTracker) (new_objs : List Object) (D : List (List Distance))
  (S : List (List Nat))

/-- The consumed columns are the columns of the recorded pairs, none twice. -/
theorem match_fold_used (rows : List Nat) (st : MatchState)
    (h1 : st.used_cols = (st.assigned.map Prod.snd).reverse) (h2 : st.used_cols.Nodup) :
    (rows.foldl (match_row s new_objs D S) st).used_cols =
        ((rows.foldl (match_row s new_objs D S) st).assigned.map Prod.snd).reverse ∧
      (rows.foldl (match_row s new_objs D S) st).used_cols.Nodup := by
  induction rows generalizing st with
  | nil => exact ⟨h1, h2⟩
  | cons i r ih =>
    rw [List.foldl_cons]
    rcases match_row_cases s new_objs D S st i with ⟨c, hf, hm⟩ | ⟨_, hm⟩
    · rw [hm]
      apply ih
      · simp only [List.map_append, List.map_cons, List.map_nil, List.reverse_append,
          List.reverse_cons, List.reverse_nil, List.nil_append, List.singleton_append]
        rw [h1]
      · exact List.nodup_cons.2 ⟨(find_update_some hf).2.1, h2⟩
    · rw [hm]
      exact ih _ h1 h2

/-- No identity is recorded twice. -/
theorem match_fold_nodup_fst (rows : List Nat) (hnd : rows.Nodup)
    (hinj : ∀ i, i ∈ rows → ∀ j, j ∈ rows →
      s.m_id_list.getD i 0 = s.m_id_list.getD j 0 → i = j)
    (st : MatchState) (h1 : (st.assigned.map Prod.fst).Nodup)
    (h2 : ∀ p, p ∈ st.assigned → ∀ i, i ∈ rows → p.1 ≠ s.m_id_list.getD i 0) :
    ((rows.foldl (match_row s new_objs D S) st).assigned.map Prod.fst).Nodup := by
  induction rows generalizing st with
  | nil => exact h1
  | cons i r ih =>
    rw [List.foldl_cons]
    rw [List.nodup_cons] at hnd
    have hinj' : ∀ a, a ∈ r → ∀ b, b ∈ r →
        s.m_id_list.getD a 0 = s.m_id_list.getD b 0 → a = b :=
      fun a ha b hb => hinj a (List.mem_cons_of_mem _ ha) b (List.mem_cons_of_mem _ hb)
    rcases match_row_cases s new_objs D S st i with ⟨c, _, hm⟩ | ⟨_, hm⟩
    · rw [hm]
      apply ih hnd.2 hinj'
      · simp only [List.map_append, List.map_cons, List.map_nil]
        rw [List.nodup_append]
        refine ⟨h1, List.nodup_singleton _, ?_⟩
        intro a ha hb
        rw [List.mem_singleton] at hb
        obtain ⟨p, hp, rfl⟩ := List.mem_map.1 ha
        exact h2 p hp i (List.mem_cons_self _ _) hb
      · intro p hp j hj
        rcases List.mem_append.1 hp with hp | hp
        · exact h2 p hp j (List.mem_cons_of_mem _ hj)
        · rw [List.mem_singleton] at hp
          rw [hp]
          intro e
          have := hinj i (List.mem_cons_self _ _) j (List.mem_cons_of_mem _ hj) e
          rw [this] at hnd
          exact hnd.1 hj
    · rw [hm]
      exact ih hnd.2 hinj' _ h1 (fun p hp j hj => h2 p hp j (List.mem_cons_of_mem _ hj))

end UsedCols

theorem match_loop_used (s : ObjectTracker) (new_objs : List Object) :
    (match_loop s new_objs).used_cols =
        ((match_loop s new_objs).assigned.map Prod.snd).reverse ∧
      (match_loop s new_objs).used_cols.Nodup := by
  unfold match_loop
  exact match_fold_used s new_objs _ _ _ _ rfl List.nodup_nil

theorem match_loop_nodup_fst {s : ObjectTracker} (h : Consistent s) (new_objs : List Object) :
    ((match_loop s new_objs).assigned.map Prod.fst).Nodup := by
  unfold match_loop
  apply match_fold_nodup_fst s new_objs _ _ _ (active_obj_ids_nodup _ _ _)
  · intro i hi j hj e
    exact h.row_inj ((mem_active_obj_ids _ _ _ i).1 hi) ((mem_active_obj_ids _ _ _ j).1 hj) e
  · exact List.nodup_nil
  · intro p hp
    cases hp

theorem match_loop_nodup_snd (s : ObjectTracker) (new_objs : List Object) :
    ((match_loop s new_objs).assigned.map Prod.snd).Nodup := by
  obtain ⟨h1, h2⟩ := match_loop_used s new_objs
  rw [h1] at h2
  exact List.nodup_reverse.1 h2

/-- Counting the elements of a list outside a sublist of distinct elements. -/
theorem length_filter_not_mem {l u : List Nat} (hl : l.Nodup) (hu : u.Nodup)
    (hsub : ∀ x, x ∈ u → x ∈ l) :
    (l.filter (fun x => decide (x ∉ u))).length + u.length = l.length := by
  have h1 := List.length_eq_length_filter_add (l := l) (fun x => decide (x ∈ u))
  have h2 : (l.filter (fun x => decide (x ∈ u))).Perm u := by
    apply (List.perm_ext_iff_of_nodup (hl.filter _) hu).2
    intro a
    simp only [List.mem_filter, decide_eq_true_eq]
    exact ⟨fun h => h.2, fun h => ⟨hsub a h, h⟩⟩
  have h3 : l.filter (fun x => !decide (x ∈ u)) = l.filter (fun x => decide (x ∉ u)) := by
    apply List.filter_congr
    intro x _
    simp
  rw [h3, h2.length_eq] at h1
  omega

/-! ### The general case of update in closed form -/

theorem matched_pairs_eq {s : ObjectTracker} {new_objs : List Object}
    (h1 : new_objs.length ≠ 0) (h2 : s.m_active_objects.size ≠ 0) :
    matched_pairs s new_objs = (match_loop s new_objs).assigned := by
  unfold matched_pairs
  rw [if_neg h1, if_neg h2]

theorem sorted_ids_zero {s : ObjectTracker} (new_objs : List Object)
    (h2 : s.m_active_objects.size ≠ 0) :
    (sorted_ids (dist_matrix s new_objs) s.m_active_objects.size new_objs.length).getD 0 [] =
      std_sort (fun a b => decide (at2 (dist_matrix s new_objs) 0 a <
        at2 (dist_matrix s new_objs) 0 b)) (List.range new_objs.length) :=
  sorted_ids_getD _ _ _ (Nat.pos_of_ne_zero h2)

/-- The unconsumed columns: every detection index that is in no recorded pair, once. -/
theorem unmatched_cols_spec {s : ObjectTracker} (new_objs : List Object)
    (h2 : s.m_active_objects.size ≠ 0) :
    (unmatched_cols s new_objs).Nodup ∧
      (∀ x, x ∈ unmatched_cols s new_objs ↔
        (x < new_objs.length ∧ x ∉ (match_loop s new_objs).assigned.map Prod.snd)) ∧
      (unmatched_cols s new_objs).length + (match_loop s new_objs).assigned.length =
        new_objs.length := by
  obtain ⟨u1, u2⟩ := match_loop_used s new_objs
  have hS := sorted_ids_zero new_objs h2
  have hnd : ((sorted_ids (dist_matrix s new_objs) s.m_active_objects.size
      new_objs.length).getD 0 []).Nodup := by
    rw [hS]; exact std_sort_nodup _ (List.nodup_range _)
  have hmem : ∀ x, x ∈ (sorted_ids (dist_matrix s new_objs) s.m_active_objects.size
      new_objs.length).getD 0 [] ↔ x < new_objs.length := by
    intro x
    rw [hS, mem_std_sort, List.mem_range]
  have hlen : ((sorted_ids (dist_matrix s new_objs) s.m_active_objects.size
      new_objs.length).getD 0 []).length = new_objs.length := by
    rw [hS, (std_sort_perm _ _).length_eq, List.length_range]
  have hused : ∀ x, x ∈ (match_loop s new_objs).used_cols ↔
      x ∈ (match_loop s new_objs).assigned.map Prod.snd := by
    intro x
    rw [u1, List.mem_reverse]
  refine ⟨hnd.filter _, ?_, ?_⟩
  · intro x
    unfold unmatched_cols
    rw [List.mem_filter, hmem, decide_eq_true_eq, hused]
  · have hsub : ∀ x, x ∈ (match_loop s new_objs).used_cols →
        x ∈ (sorted_ids (dist_matrix s new_objs) s.m_active_objects.size
          new_objs.length).getD 0 [] := by
      intro x hx
      rw [hused] at hx
      obtain ⟨p, hp, rfl⟩ := List.mem_map.1 hx
      obtain ⟨id, c⟩ := p
      exact (hmem c).2 (match_loop_assigned new_objs hp).2.1
    have := length_filter_not_mem hnd u2 hsub
    rw [hlen] at this
    have hl : (match_loop s new_objs).used_cols.length =
        (match_loop s new_objs).assigned.length := by
      rw [u1, List.length_reverse, List.length_map]
    rw [hl] at this
    exact this

/-- The maps after the general case, before `cleanup_dissapeared`: those left by the matching
loop, followed by one new entry per unconsumed detection. -/
theorem update_general_maps (gt : Object → Object → Bool) {s : ObjectTracker}
    (h : Consistent s) (new_objs : List Object) :
    (update_general gt s new_objs).m_active_objects =
        (match_loop s new_objs).m_active_objects ++
          StdMap.consecutive s.m_next_id
            ((unmatched_cols s new_objs).map (fun x => new_objs.getD x default)) ∧
      (update_general gt s new_objs).m_uprooted =
        s.m_uprooted ++
          StdMap.consecutive s.m_next_id
            (((unmatched_cols s new_objs).map (fun x => new_objs.getD x default)).map
              (fun _ => false)) ∧
      (update_general gt s new_objs).m_dissapeared =
        (match_loop s new_objs).m_dissapeared ++
          StdMap.consecutive s.m_next_id
            (((unmatched_cols s new_objs).map (fun x => new_objs.getD x default)).map
              (fun _ => 0)) ∧
      (update_general gt s new_objs).m_next_id =
        s.m_next_id + (unmatched_cols s new_objs).length := by
  have key := foldl_register_maps gt
    ((unmatched_cols s new_objs).map (fun x => new_objs.getD x default))
    (consistent_after_match h new_objs)
  rw [← update_general_eq_foldl, List.length_map] at key
  exact key

/-- The number of live identities after the general case, before `cleanup_dissapeared`. -/
theorem update_general_count (gt : Object → Object → Bool) {s : ObjectTracker}
    (h : Consistent s) (new_objs : List Object) (h2 : s.m_active_objects.size ≠ 0) :
    (update_general gt s new_objs).m_active_objects.size +
        (match_loop s new_objs).assigned.length =
      s.m_active_objects.size + new_objs.length := by
  obtain ⟨a1, _, _, _⟩ := update_general_maps gt h new_objs
  obtain ⟨_, _, u3⟩ := unmatched_cols_spec new_objs h2
  have hk := (match_loop_keys h new_objs).1
  have hl : (match_loop s new_objs).m_active_objects.length = s.m_active_objects.length := by
    have := congrArg List.length hk
    simpa [StdMap.keys] using this
  unfold StdMap.size
  rw [a1, List.length_append, length_consecutive, List.length_map, hl]
  omega

/-- The identity registered for the `j`-th unconsumed detection. -/
theorem update_general_new (gt : Object → Object → Bool) {s : ObjectTracker}
    (h : Consistent s) (new_objs : List Object) {j : Nat}
    (hj : j < (unmatched_cols s new_objs).length) :
    (update_general gt s new_objs).m_active_objects.find? (s.m_next_id + j) =
        some (new_objs.getD ((unmatched_cols s new_objs).getD j 0) default) ∧
      (update_general gt s new_objs).m_dissapeared.find? (s.m_next_id + j) = some 0 ∧
      (update_general gt s new_objs).m_uprooted.find? (s.m_next_id + j) = some false := by
  obtain ⟨a1, a2, a3, _⟩ := update_general_maps gt h new_objs
  obtain ⟨k1, k2⟩ := match_loop_keys h new_objs
  have hnot : s.m_next_id + j ∉ s.m_active_objects.keys := by
    intro hm
    have := h.fresh _ hm
    exact absurd this (Nat.not_lt.2 (Nat.le_add_right _ _))
  have n1 : StdMap.find? (match_loop s new_objs).m_active_objects (s.m_next_id + j) = none := by
    rw [StdMap.find?_eq_none_iff, k1]; exact hnot
  have n2 : StdMap.find? s.m_uprooted (s.m_next_id + j) = none := by
    rw [StdMap.find?_eq_none_iff, h.keys_u]; exact hnot
  have n3 : StdMap.find? (match_loop s new_objs).m_dissapeared (s.m_next_id + j) = none := by
    rw [StdMap.find?_eq_none_iff, k2]; exact hnot
  rw [a1, a2, a3]
  refine ⟨?_, ?_, ?_⟩
  · show StdMap.find? (_ ++ _) _ = _
    rw [find?_append, n1]
    simp only
    rw [find?_consecutive _ _ _ (by simpa using hj)]
    rw [List.getElem?_map, getElem?_eq_some_getD _ 0 hj]
    rfl
  · show StdMap.find? (_ ++ _) _ = _
    rw [find?_append, n3]
    simp only
    rw [find?_consecutive _ _ _ (by simpa using hj)]
    simp [hj]
  · show StdMap.find? (_ ++ _) _ = _
    rw [find?_append, n2]
    simp only
    rw [find?_consecutive _ _ _ (by simpa using hj)]
    simp [hj]

/-! ### The member functions, one call at a time -/

theorem run_ops_cons (gt : Object → Object → Bool) (s : ObjectTracker) (op : Op)
    (ops : List Op) : run_ops gt s (op :: ops) = run_ops gt (Op.apply gt s op) ops := rfl

theorem register_object_next (gt : Object → Object → Bool) (s : ObjectTracker) (obj : Object) :
    (register_object gt s obj).1 = s.m_next_id ∧
      (register_object gt s obj).2.m_next_id = s.m_next_id + 1 :=
  ⟨rfl, rfl⟩

theorem top_next {s : ObjectTracker} (h : Consistent s) (to_ret : Object) :
    (top s to_ret).2.2.m_next_id = s.m_next_id := by
  rcases top_fields h to_ret with h1 | ⟨k, u, _, h1⟩
  · rw [h1]
  · rw [h1]

/-- The allocator after one call: unchanged, except by `register_object` (one more) and by
`update` (not less). -/
theorem apply_next (gt : Object → Object → Bool) {s : ObjectTracker} (h : Consistent s)
    (op : Op) : s.m_next_id ≤ (Op.apply gt s op).m_next_id := by
  cases op with
  | update new_objs => exact (update_same gt h new_objs).1
  | register_object obj => exact Nat.le_succ _
  | deregister_object id => exact Nat.le_refl _
  | top to_ret =>
    show s.m_next_id ≤ (top s to_ret).2.2.m_next_id
    rw [top_next h]
  | active_objects =>
    show s.m_next_id ≤ (active_objects s).2.m_next_id
    rw [active_objects_eq h]

theorem inv_apply (gt : Object → Object → Bool) (t : ObjectTracker) (op : Op) (h : Inv t) :
    Inv (Op.apply gt t op) := by
  cases op with
  | update new_objs => exact inv_update gt h.cons new_objs
  | register_object obj => exact inv_register_object gt h obj
  | deregister_object id => exact inv_deregister_object h id
  | top to_ret => exact inv_top h to_ret
  | active_objects =>
    show Inv (active_objects t).2
    rw [active_objects_eq h.cons]; exact h

theorem run_ops_next (gt : Object → Object → Bool) (ops : List Op) {s : ObjectTracker}
    (h : Inv s) : s.m_next_id ≤ (run_ops gt s ops).m_next_id := by
  induction ops generalizing s with
  | nil => exact Nat.le_refl _
  | cons op ops ih =>
    rw [run_ops_cons]
    exact Nat.le_trans (apply_next gt h.cons op) (ih (inv_apply gt s op h))

/-- The flag of an identity below `m_next_id` after `update`: unchanged, or gone. -/
theorem update_flag (gt : Object → Object → Bool) {s : ObjectTracker} (h : Consistent s)
    (new_objs : List Object) {id : ObjectID} (hlt : id < s.m_next_id) :
    (update gt s new_objs).m_uprooted.find? id = s.m_uprooted.find? id ∨
      (update gt s new_objs).m_uprooted.find? id = none := by
  obtain ⟨_, _, _, a4, _⟩ := update_branches_old gt h new_objs
  have hct := consistent_update_branches gt h new_objs
  by_cases he : id ∈ evicted (update_branches gt s new_objs)
  · right
    rw [StdMap.find?_eq_none_iff]
    exact (cleanup_of_evicted hct he).2.2.1
  · left
    unfold update
    rw [(cleanup_of_not_evicted _ he).2.2, a4 id hlt]

/-- The flag of an identity below `m_next_id` after one call: unchanged, or gone, or set from
`false` to `true` by `top`. -/
theorem apply_flag (gt : Object → Object → Bool) {s : ObjectTracker} (h : Consistent s)
    (op : Op) {id : ObjectID} (hlt : id < s.m_next_id) :
    (Op.apply gt s op).m_uprooted.find? id = s.m_uprooted.find? id ∨
      (Op.apply gt s op).m_uprooted.find? id = none ∨
      ((∃ to_ret, op = Op.top to_ret) ∧ s.m_uprooted.find? id = some false ∧
        (Op.apply gt s op).m_uprooted.find? id = some true) := by
  cases op with
  | update new_objs =>
    rcases update_flag gt h new_objs hlt with h1 | h1
    · exact Or.inl h1
    · exact Or.inr (Or.inl h1)
  | register_object obj =>
    left
    show StdMap.find? (s.m_uprooted.insert_or_assign s.m_next_id false) id = _
    exact StdMap.find?_insert_ne _ _ (Nat.ne_of_lt hlt)
  | deregister_object id0 =>
    have e0 : (Op.apply gt s (Op.deregister_object id0)).m_uprooted = s.m_uprooted.erase id0 :=
      rfl
    rw [e0]
    by_cases e : id = id0
    · right; left; rw [e]; exact StdMap.find?_erase_self _ _
    · left; exact StdMap.find?_erase_ne _ e
  | top to_ret =>
    have e0 : Op.apply gt s (Op.top to_ret) = (top s to_ret).2.2 := rfl
    rw [e0]
    rcases top_fields h to_ret with h1 | ⟨k, u, hs, h1⟩
    · left; rw [h1]
    · have hsu : s.m_uprooted.keys.Pairwise (fun a b => a < b) := by
        rw [h.keys_u]; exact h.sorted
      obtain ⟨a1, _, a3, a4⟩ := top_scan_spec hsu hs
      rw [h1]
      by_cases e : id = k
      · right; right
        rw [e]
        exact ⟨⟨to_ret, rfl⟩, a1, a3⟩
      · left; exact a4 id e
  | active_objects =>
    left
    show (active_objects s).2.m_uprooted.find? id = _
    rw [active_objects_eq h]

/-! ### cleanup_dissapeared, exactly -/

theorem cleanup_id_list {t : ObjectTracker} (h : Consistent t) :
    (cleanup_dissapeared t).m_id_list =
      t.m_id_list.filter (fun id => decide (id ∉ evicted t)) := by
  rw [cleanup_fields]
  show t.m_id_list.diff (evicted t) = _
  rw [h.nodup_id_list.diff_eq_filter]

/-- The row processed first and its nearest column realise the least distance of the matrix. -/
theorem first_row_global_min {s : ObjectTracker} (hc : Consistent s) {new_objs : List Object}
    (h1 : new_objs.length ≠ 0) (h2 : s.m_active_objects.size ≠ 0) {id : ObjectID}
    (hid : id ∈ s.m_active_objects.keys) {j : Nat} (hj : j < new_objs.length) :
    euclidean_distance (s.m_active_objects.get (s.m_id_list.getD (first_row s new_objs) 0))
        (new_objs.getD (nearest_col s new_objs (first_row s new_objs)) default) ≤
      euclidean_distance (s.m_active_objects.get id) (new_objs.getD j default) := by
  have hi0 : first_row s new_objs < s.m_active_objects.size := first_row_lt h2
  have hc0 : nearest_col s new_objs (first_row s new_objs) < new_objs.length :=
    nearest_col_lt h1 hi0
  obtain ⟨i, hi, hrow⟩ := hc.exists_row hid
  rw [← @at2_dist_matrix s new_objs _ _ hi0 hc0, ← hrow, ← at2_dist_matrix hi hj]
  exact Nat.le_trans (first_row_le hi) (nearest_col_le hi hj)

theorem first_row_matched_pair {s : ObjectTracker} (hc : Consistent s)
    {new_objs : List Object} (h1 : new_objs.length ≠ 0) (h2 : s.m_active_objects.size ≠ 0)
    (ht : lt_tol
      (euclidean_distance (s.m_active_objects.get (s.m_id_list.getD (first_row s new_objs) 0))
        (new_objs.getD (nearest_col s new_objs (first_row s new_objs)) default))
      s.m_dist_tol = true) :
    (s.m_id_list.getD (first_row s new_objs) 0, nearest_col s new_objs (first_row s new_objs)) ∈
      matched_pairs s new_objs := by
  have hi0 : first_row s new_objs < s.m_active_objects.size := first_row_lt h2
  have hc0 : nearest_col s new_objs (first_row s new_objs) < new_objs.length :=
    nearest_col_lt h1 hi0
  rw [← @at2_dist_matrix s new_objs _ _ hi0 hc0] at ht
  rw [matched_pairs_eq h1 h2]
  exact first_row_matched hc h1 h2 ht

/-- A list without duplicates whose only possible element is `a`, and which holds `a`. -/
theorem eq_singleton_of_nodup {l : List Nat} {a : Nat} (hnd : l.Nodup)
    (hm : ∀ x, x ∈ l ↔ x = a) : l = [a] := by
  have hp : l.Perm [a] := by
    apply (List.perm_ext_iff_of_nodup hnd (List.nodup_singleton a)).2
    intro x
    rw [hm, List.mem_singleton]
  exact List.perm_singleton.1 hp

theorem get_of_find? {V : Type} [Inhabited V] {m : StdMap V} {k : ObjectID} {v : V}
    (h : StdMap.find? m k = some v) : StdMap.get m k = v := by
  unfold StdMap.get
  rw [h]
  rfl

theorem length_keys_pair {l : List ObjectID} {a b : ObjectID} (hnd : l.Nodup) (hab : a ≠ b)
    (hm : ∀ x, x ∈ l ↔ x = a ∨ x = b) : l.length = 2 := by
  have hp : l.Perm [a, b] := by
    apply (List.perm_ext_iff_of_nodup hnd ?_).2
    · intro x
      rw [hm]
      simp
    · simp [hab]
  rw [hp.length_eq]
  rfl

theorem update_general_keys (gt : Object → Object → Bool) {s : ObjectTracker}
    (h : Consistent s) (new_objs : List Object) :
    (update_general gt s new_objs).m_active_objects.keys =
      s.m_active_objects.keys ++ List.range' s.m_next_id (unmatched_cols s new_objs).length := by
  rw [(update_general_maps gt h new_objs).1]
  show StdMap.keys (_ ++ _) = _
  unfold StdMap.keys
  rw [List.map_append]
  have k1 := (match_loop_keys h new_objs).1
  have k2 := keys_consecutive s.m_next_id
    ((unmatched_cols s new_objs).map (fun x => new_objs.getD x default))
  unfold StdMap.keys at k1 k2
  rw [k1, k2, List.length_map]

theorem scenario_distances (s0 s1 t0 t1 : Int) :
    euclidean_distance ⟨0, 0, 0, s0⟩ ⟨1, 0, 0, t0⟩ = 1 ∧
      euclidean_distance ⟨0, 0, 0, s0⟩ ⟨200, 0, 0, t1⟩ = 40000 ∧
      euclidean_distance ⟨100, 0, 0, s1⟩ ⟨1, 0, 0, t0⟩ = 9801 ∧
      euclidean_distance ⟨100, 0, 0, s1⟩ ⟨200, 0, 0, t1⟩ = 10000 :=
  ⟨rfl, rfl, rfl, rfl⟩

theorem scenario_tolerances :
    lt_tol 1 ⟨5, 1⟩ = true ∧ lt_tol 40000 ⟨5, 1⟩ = false ∧ lt_tol 9801 ⟨5, 1⟩ = false ∧
      lt_tol 10000 ⟨5, 1⟩ = false := by
  decide

/-! ### The order of m_id_list across update -/

theorem filter_mem_of_sublist {l₁ l₂ : List ObjectID} (h : l₁.Sublist l₂) (hnd : l₂.Nodup) :
    l₂.filter (fun x => decide (x ∈ l₁)) = l₁ := by
  induction h with
  | slnil => rfl
  | cons a h ih =>
    rename_i k₁ k₂
    rw [List.nodup_cons] at hnd
    have ha : a ∉ k₁ := fun hm => hnd.1 (h.subset hm)
    rw [List.filter_cons_of_neg (by simpa using ha)]
    exact ih hnd.2
  | cons₂ a h ih =>
    rename_i k₁ k₂
    rw [List.nodup_cons] at hnd
    rw [List.filter_cons_of_pos (by simp)]
    have e : k₂.filter (fun x => decide (x ∈ a :: k₁)) =
        k₂.filter (fun x => decide (x ∈ k₁)) := by
      apply List.filter_congr
      intro x hx
      have hxa : x ≠ a := fun e => hnd.1 (e ▸ hx)
      simp [hxa]
    rw [e, ih hnd.2]

/-- Before `cleanup_dissapeared`, `update` keeps `m_id_list` as a sublist of the new one. -/
theorem update_branches_order (gt : Object → Object → Bool) {s : ObjectTracker}
    (h : Consistent s) (new_objs : List Object) :
    s.m_id_list.Sublist (update_branches gt s new_objs).m_id_list := by
  unfold update_branches
  by_cases h1 : new_objs.length = 0
  · rw [if_pos h1]
  · rw [if_neg h1]
    by_cases h2 : s.m_active_objects.size = 0
    · rw [if_pos h2]
      exact (Ext.foldl_register gt new_objs (Ext.refl h)).order
    · rw [if_neg h2]
      exact (ext_update_general gt h new_objs).order

/-- The identities that are in `m_id_list` before and after `update` are in the same order. -/
theorem update_order (gt : Object → Object → Bool) {s : ObjectTracker} (h : Consistent s)
    (new_objs : List Object) :
    (update gt s new_objs).m_id_list.filter (fun x => decide (x ∈ s.m_id_list)) =
      s.m_id_list.filter (fun x => decide (x ∈ (update gt s new_objs).m_id_list)) := by
  have hct := consistent_update_branches gt h new_objs
  have hsub := update_branches_order gt h new_objs
  have hid : (update gt s new_objs).m_id_list =
      (update_branches gt s new_objs).m_id_list.filter
        (fun id => decide (id ∉ evicted (update_branches gt s new_objs))) :=
    cleanup_id_list hct
  rw [hid, List.filter_filter]
  have e1 : (update_branches gt s new_objs).m_id_list.filter
      (fun a => decide (a ∈ s.m_id_list) &&
        decide (a ∉ evicted (update_branches gt s new_objs))) =
      ((update_branches gt s new_objs).m_id_list.filter
        (fun a => decide (a ∈ s.m_id_list))).filter
          (fun a => decide (a ∉ evicted (update_branches gt s new_objs))) := by
    rw [List.filter_filter]
    apply List.filter_congr
    intro x _
    exact Bool.and_comm _ _
  rw [e1, filter_mem_of_sublist hsub hct.nodup_id_list]
  apply List.filter_congr
  intro x hx
  have hx' : x ∈ (update_branches gt s new_objs).m_id_list := hsub.subset hx
  simp [List.mem_filter, hx']

/-! ### The greedy-matching example -/

theorem update_init_pair (gt : Object → Object → Bool) (distTol : Tolerance) (max_frms : Nat)
    (first_id : Nat) (a b : Object) :
    update gt (ObjectTracker.init distTol max_frms first_id) [a, b] =
      { m_dist_tol := distTol
        m_max_dissapeared_frms := max_frms
        m_next_id := first_id + 2
        m_active_objects := [(first_id, a), (first_id + 1, b)]
        m_uprooted := [(first_id, false), (first_id + 1, false)]
        m_dissapeared := [(first_id, 0), (first_id + 1, 0)]
        m_id_list := if gt a b then [first_id, first_id + 1] else [first_id + 1, first_id] } := by
  have e1 : (register_object gt (ObjectTracker.init distTol max_frms first_id) a).2 =
      { m_dist_tol := distTol
        m_max_dissapeared_frms := max_frms
        m_next_id := first_id + 1
        m_active_objects := [(first_id, a)]
        m_uprooted := [(first_id, false)]
        m_dissapeared := [(first_id, 0)]
        m_id_list := [first_id] } := rfl
  have e3 : update gt (ObjectTracker.init distTol max_frms first_id) [a, b] =
      cleanup_dissapeared (register_object gt
        (register_object gt (ObjectTracker.init distTol max_frms first_id) a).2 b).2 := rfl
  rw [e3, e1]
  by_cases hg : gt a b = true <;>
    simp [register_object, insert_sorted, StdMap.touch, StdMap.insert_or_assign,
      cleanup_dissapeared, StdMap.get, StdMap.find?, hg]

theorem greedy_state_reachable (gt : Object → Object → Bool) :
    ∃ l, (l = [0, 1] ∨ l = [1, 0]) ∧ Reachable gt (greedy_state l) := by
  have h : Reachable gt (update gt (ObjectTracker.init ⟨6, 1⟩ 2 0) [⟨0, 0, 0, 1⟩, ⟨6, 0, 0, 1⟩]) :=
    Reachable.update _ (Reachable.init _ _ _)
  rw [update_init_pair] at h
  by_cases hg : gt ⟨0, 0, 0, 1⟩ ⟨6, 0, 0, 1⟩ = true
  · rw [if_pos hg] at h
    exact ⟨[0, 1], Or.inl rfl, h⟩
  · rw [if_neg hg] at h
    exact ⟨[1, 0], Or.inr rfl, h⟩

/-- The matching loop and the unconsumed columns in the greedy-matching example. -/
theorem greedy_match (l : List ObjectID) (hl : l = [0, 1] ∨ l = [1, 0]) :
    matched_pairs (greedy_state l) greedy_frame = [(1, 0)] ∧
      unmatched_cols (greedy_state l) greedy_frame = [1] ∧
      (match_loop (greedy_state l) greedy_frame).m_active_objects =
        [(0, ⟨0, 0, 0, 1⟩), (1, ⟨4, 0, 0, 1⟩)] ∧
      (match_loop (greedy_state l) greedy_frame).m_dissapeared = [(0, 1), (1, 0)] := by
  rcases hl with h | h <;> (rw [h]; decide)

/-- The tracker after `update` in the greedy-matching example. -/
theorem greedy_update (gt : Object → Object → Bool) (l : List ObjectID)
    (hl : l = [0, 1] ∨ l = [1, 0]) (hc : Consistent (greedy_state l)) :
    (update gt (greedy_state l) greedy_frame).m_active_objects =
        [(0, ⟨0, 0, 0, 1⟩), (1, ⟨4, 0, 0, 1⟩), (2, ⟨9, 0, 0, 1⟩)] ∧
      (update gt (greedy_state l) greedy_frame).m_dissapeared = [(0, 1), (1, 0), (2, 0)] ∧
      (update gt (greedy_state l) greedy_frame).m_next_id = 3 := by
  obtain ⟨_, g2, g3, g4⟩ := greedy_match l hl
  obtain ⟨a1, _, a3, a4⟩ := update_general_maps gt hc greedy_frame
  rw [g2, g3] at a1
  rw [g2, g4] at a3
  rw [g2] at a4
  have hb : update_branches gt (greedy_state l) greedy_frame =
      update_general gt (greedy_state l) greedy_frame := rfl
  have hev : evicted (update_branches gt (greedy_state l) greedy_frame) = [] := by
    have hmx := (update_branches_old gt hc greedy_frame).2.1
    unfold evicted
    rw [hmx, hb, a3]
    rfl
  have hup : update gt (greedy_state l) greedy_frame =
      update_general gt (greedy_state l) greedy_frame := by
    rw [← hb]; exact cleanup_of_evicted_nil hev
  rw [hup, a1, a3, a4]
  exact ⟨rfl, rfl, rfl⟩

/-! ### Sortedness under registration -/

/-- Inserting `n` after the longest prefix satisfying `p` keeps a list pairwise ordered. -/
theorem pairwise_takeWhile_insert {α : Type} {R : α → α → Prop} {p : α → Bool} {n : α}
    {l : List α} (hl : l.Pairwise R) (h1 : ∀ a ∈ l, p a = true → R a n)
    (h2 : ∀ a ∈ l, p a = false → R n a)
    (h3 : ∀ a ∈ l, ∀ b ∈ l, R a b → p a = false → p b = false) :
    (l.takeWhile p ++ n :: l.dropWhile p).Pairwise R := by
  induction l with
  | nil => simp
  | cons a l ih =>
    obtain ⟨ha, hl'⟩ := List.pairwise_cons.1 hl
    cases hpa : p a with
    | true =>
      rw [List.takeWhile_cons_of_pos hpa, List.dropWhile_cons_of_pos hpa, List.cons_append]
      refine List.pairwise_cons.2 ⟨?_, ?_⟩
      · intro x hx
        rcases List.mem_append.1 hx with hx | hx
        · exact ha x ((List.takeWhile_sublist p).subset hx)
        · rcases List.mem_cons.1 hx with hx | hx
          · rw [hx]; exact h1 a (List.mem_cons_self _ _) hpa
          · exact ha x ((List.dropWhile_sublist p).subset hx)
      · exact ih hl' (fun b hb => h1 b (List.mem_cons_of_mem _ hb))
          (fun b hb => h2 b (List.mem_cons_of_mem _ hb))
          (fun b hb c hc => h3 b (List.mem_cons_of_mem _ hb) c (List.mem_cons_of_mem _ hc))
    | false =>
      have hna : ¬ p a = true := by rw [hpa]; exact Bool.false_ne_true
      rw [List.takeWhile_cons_of_neg hna, List.dropWhile_cons_of_neg hna, List.nil_append]
      refine List.pairwise_cons.2 ⟨?_, hl⟩
      intro x hx
      rcases List.mem_cons.1 hx with hx' | hx'
      · rw [hx']; exact h2 a (List.mem_cons_self _ _) hpa
      · exact h2 x hx (h3 a (List.mem_cons_self _ _) x hx (ha x hx') hpa)

/-- Appending an entry with a fresh key keeps the value read at a key of the map. -/
theorem get_append_of_mem {V : Type} [Inhabited V] (m : StdMap V) (n : ObjectID) (v : V)
    {k : ObjectID} (hk : k ∈ m.keys) : StdMap.get (m ++ [(n, v)]) k = StdMap.get m k := by
  apply get_of_find?
  rw [find?_append, StdMap.find?_get hk]

/-- Appending an entry with a fresh key makes its value the value read at that key. -/
theorem get_append_fresh {V : Type} [Inhabited V] (m : StdMap V) (n : ObjectID) (v : V)
    (hn : n ∉ m.keys) : StdMap.get (m ++ [(n, v)]) n = v := by
  apply get_of_find?
  rw [find?_append, (StdMap.find?_eq_none_iff m n).2 hn]
  simp [StdMap.find?]

/-- One call of `register_object` keeps `m_id_list` in rank order, for an `operator>` that is
asymmetric and negatively transitive. -/
theorem register_object_rank_order (gt : Object → Object → Bool)
    (hasym : ∀ a b, gt a b = true → gt b a = false)
    (hneg : ∀ a b c, gt a b = false → gt b c = false → gt a c = false)
    {s : ObjectTracker} (h : Consistent s)
    (hp : s.m_id_list.Pairwise (RankOrder gt s.m_active_objects)) (obj : Object) :
    (register_object gt s obj).2.m_id_list.Pairwise
      (RankOrder gt (register_object gt s obj).2.m_active_objects) := by
  rw [register_object_fields gt h obj]
  show (s.m_id_list.takeWhile (fun i => gt (s.m_active_objects.get i) obj) ++
    s.m_next_id :: s.m_id_list.dropWhile (fun i => gt (s.m_active_objects.get i) obj)).Pairwise
      (RankOrder gt (s.m_active_objects ++ [(s.m_next_id, obj)]))
  have hk : ∀ a ∈ s.m_id_list, a ∈ s.m_active_objects.keys := fun a ha =>
    (h.mem_id_list a).1 ha
  have hfresh : s.m_next_id ∉ s.m_active_objects.keys := fun hm =>
    absurd (h.fresh _ hm) (Nat.lt_irrefl _)
  have hn := get_append_fresh s.m_active_objects s.m_next_id obj hfresh
  apply pairwise_takeWhile_insert
  · refine hp.imp_of_mem ?_
    intro a b ha hb hab
    unfold RankOrder at hab ⊢
    rw [get_append_of_mem _ _ _ (hk a ha), get_append_of_mem _ _ _ (hk b hb)]
    exact hab
  · intro a ha hpa
    unfold RankOrder
    rw [get_append_of_mem _ _ _ (hk a ha), hn]
    refine ⟨hasym _ _ hpa, ?_⟩
    intro hc
    rw [hpa] at hc
    cases hc
  · intro a ha hpa
    unfold RankOrder
    rw [get_append_of_mem _ _ _ (hk a ha), hn]
    exact ⟨hpa, fun _ => h.fresh a (hk a ha)⟩
  · intro a ha b hb hab hpa
    unfold RankOrder at hab
    rw [get_append_of_mem _ _ _ (hk a ha), get_append_of_mem _ _ _ (hk b hb)] at hab
    exact hneg _ _ _ hab.1 hpa

/-- Any sequence of `register_object` calls keeps consistency and the rank order. -/
theorem register_all_rank_order (gt : Object → Object → Bool)
    (hasym : ∀ a b, gt a b = true → gt b a = false)
    (hneg : ∀ a b c, gt a b = false → gt b c = false → gt a c = false)
    (objs : List Object) {s : ObjectTracker} (h : Consistent s)
    (hp : s.m_id_list.Pairwise (RankOrder gt s.m_active_objects)) :
    Consistent (register_all gt s objs) ∧
      (register_all gt s objs).m_id_list.Pairwise
        (RankOrder gt (register_all gt s objs).m_active_objects) := by
  induction objs generalizing s with
  | nil => exact ⟨h, hp⟩
  | cons o os ih =>
    exact ih (consistent_register_object gt h o)
      (register_object_rank_order gt hasym hneg h hp o)

theorem gt_by_size_asymm (a b : Object) (h : gt_by_size a b = true) :
    gt_by_size b a = false := by
  unfold gt_by_size at h ⊢
  rw [decide_eq_true_iff] at h
  rw [decide_eq_false_iff_not]
  omega

theorem gt_by_size_neg_trans (a b c : Object) (h1 : gt_by_size a b = false)
    (h2 : gt_by_size b c = false) : gt_by_size a c = false := by
  unfold gt_by_size at h1 h2 ⊢
  rw [decide_eq_false_iff_not] at h1 h2 ⊢
  omega

theorem gt_dominates_asymm (a b : Object) (h : gt_dominates a b = true) :
    gt_dominates b a = false := by
  unfold gt_dominates at h ⊢
  rw [decide_eq_true_iff] at h
  rw [decide_eq_false_iff_not]
  omega

theorem gt_dominates_trans (a b c : Object) (h1 : gt_dominates a b = true)
    (h2 : gt_dominates b c = true) : gt_dominates a c = true := by
  unfold gt_dominates at h1 h2 ⊢
  rw [decide_eq_true_iff] at h1 h2 ⊢
  omega

/-! ## The matching loop for given outcomes of the computations -/

section MatchLoopWith

variable (s : ObjectTracker) (new_objs : List Object) (C : Computed)

/-- The two outcomes of one iteration of the matching loop. -/
theorem match_row_with_cases (st : MatchState) (i : Nat) :
    (∃ c, find_update_with (C.near i) st.used_cols (C.sorted_ids.getD i []) = some c ∧
      match_row_with s new_objs C st i =
        { st with
          used_cols := c :: st.used_cols
          m_active_objects :=
            st.m_active_objects.insert_or_assign (s.m_id_list.getD i 0) (new_objs.getD c default)
          assigned := st.assigned ++ [(s.m_id_list.getD i 0, c)] }) ∨
    (find_update_with (C.near i) st.used_cols (C.sorted_ids.getD i []) = none ∧
      match_row_with s new_objs C st i =
        { st with
          m_dissapeared :=
            st.m_dissapeared.insert_or_assign (s.m_id_list.getD i 0)
              (st.m_dissapeared.get (s.m_id_list.getD i 0) + 1) }) := by
  unfold match_row_with
  cases h : find_update_with (C.near i) st.used_cols (C.sorted_ids.getD i []) with
  | none => right; exact ⟨rfl, rfl⟩
  | some c => left; exact ⟨c, rfl, rfl⟩

theorem find_update_with_some {near : Nat → Bool} {used : List Nat}
    {row : List Nat} {c : Nat} (h : find_update_with near used row = some c) :
    c ∈ row ∧ c ∉ used ∧ near c = true := by
  unfold find_update_with at h
  have h1 := List.find?_some h
  have h2 := List.mem_of_find?_eq_some h
  simp only [Bool.and_eq_true, decide_eq_true_eq] at h1
  exact ⟨h2, h1.1, h1.2⟩

/-- Rows other than the row of `id` leave the entries of `id` alone. -/
theorem match_fold_with_of_not_mem (rows : List Nat) (st : MatchState) (id : ObjectID)
    (h : ∀ i ∈ rows, s.m_id_list.getD i 0 ≠ id) :
    (rows.foldl (match_row_with s new_objs C) st).m_active_objects.find? id =
        st.m_active_objects.find? id ∧
      (rows.foldl (match_row_with s new_objs C) st).m_dissapeared.find? id =
        st.m_dissapeared.find? id ∧
      ∀ c, (id, c) ∈ (rows.foldl (match_row_with s new_objs C) st).assigned ↔
        (id, c) ∈ st.assigned := by
  induction rows generalizing st with
  | nil => simp
  | cons i r ih =>
    rw [List.foldl_cons]
    have hi : s.m_id_list.getD i 0 ≠ id := h i (List.mem_cons_self _ _)
    obtain ⟨ih1, ih2, ih3⟩ := ih (match_row_with s new_objs C st i)
      (fun j hj => h j (List.mem_cons_of_mem _ hj))
    rcases match_row_with_cases s new_objs C st i with ⟨c, _, hm⟩ | ⟨_, hm⟩
    · refine ⟨?_, ?_, ?_⟩
      · rw [ih1, hm]; exact StdMap.find?_insert_ne _ _ (Ne.symm hi)
      · rw [ih2, hm]
      · intro c'
        refine (ih3 c').trans ?_
        rw [hm]
        simp only [List.mem_append, List.mem_singleton, Prod.mk.injEq]
        constructor
        · rintro (h1 | ⟨h1, _⟩)
          · exact h1
          · exact absurd h1.symm hi
        · intro h1; exact Or.inl h1
    · refine ⟨?_, ?_, ?_⟩
      · rw [ih1, hm]
      · rw [ih2, hm]; exact StdMap.find?_insert_ne _ _ (Ne.symm hi)
      · intro c'
        refine (ih3 c').trans ?_
        rw [hm]

/-- The matching loop neither adds nor removes a key. -/
theorem match_fold_with_keys (hs : Consistent s) (rows : List Nat)
    (hrows : ∀ i ∈ rows, i < s.m_active_objects.size) (st : MatchState)
    (hk : st.m_active_objects.keys = s.m_active_objects.keys)
    (hd : st.m_dissapeared.keys = s.m_active_objects.keys) :
    (rows.foldl (match_row_with s new_objs C) st).m_active_objects.keys = s.m_active_objects.keys ∧
      (rows.foldl (match_row_with s new_objs C) st).m_dissapeared.keys = s.m_active_objects.keys := by
  induction rows generalizing st with
  | nil => exact ⟨hk, hd⟩
  | cons i r ih =>
    rw [List.foldl_cons]
    have hi : s.m_id_list.getD i 0 ∈ s.m_active_objects.keys :=
      hs.getD_mem (hrows i (List.mem_cons_self _ _))
    apply ih (fun j hj => hrows j (List.mem_cons_of_mem _ hj))
    · rcases match_row_with_cases s new_objs C st i with ⟨c, _, hm⟩ | ⟨_, hm⟩
      · rw [hm]
        show (st.m_active_objects.insert_or_assign _ _).keys = _
        rw [StdMap.keys_insert_of_mem (by rw [hk]; exact hs.sorted) _ (by rw [hk]; exact hi), hk]
      · rw [hm]; exact hk
    · rcases match_row_with_cases s new_objs C st i with ⟨c, _, hm⟩ | ⟨_, hm⟩
      · rw [hm]; exact hd
      · rw [hm]
        show (st.m_dissapeared.insert_or_assign _ _).keys = _
        rw [StdMap.keys_insert_of_mem (by rw [hd]; exact hs.sorted) _ (by rw [hd]; exact hi), hd]

/-- Every pair the loop records comes from a row, a column of that row nearer than the
tolerance. -/
theorem match_fold_with_assigned (rows : List Nat) (st : MatchState) :
    ∀ p ∈ (rows.foldl (match_row_with s new_objs C) st).assigned,
      p ∈ st.assigned ∨
        ∃ i ∈ rows, p.1 = s.m_id_list.getD i 0 ∧ p.2 ∈ C.sorted_ids.getD i [] ∧
          C.near i p.2 = true := by
  induction rows generalizing st with
  | nil => intro p hp; exact Or.inl hp
  | cons i r ih =>
    intro p hp
    rw [List.foldl_cons] at hp
    rcases ih _ p hp with h1 | ⟨j, hj, h2⟩
    · rcases match_row_with_cases s new_objs C st i with ⟨c, hf, hm⟩ | ⟨_, hm⟩
      · rw [hm] at h1
        rcases List.mem_append.1 h1 with h1 | h1
        · exact Or.inl h1
        · rw [List.mem_singleton] at h1
          obtain ⟨hc1, _, hc3⟩ := find_update_with_some hf
          right
          refine ⟨i, List.mem_cons_self _ _, ?_⟩
          rw [h1]; exact ⟨rfl, hc1, hc3⟩
      · rw [hm] at h1; exact Or.inl h1
    · exact Or.inr ⟨j, List.mem_cons_of_mem _ hj, h2⟩

/-- The effect of the loop on the identity of row `i`, a row visited exactly once. -/
theorem match_fold_with_row (rows : List Nat) (hnd : rows.Nodup) (st : MatchState) (i : Nat)
    (hi : i ∈ rows) (hinj : ∀ j ∈ rows, j ≠ i → s.m_id_list.getD j 0 ≠ s.m_id_list.getD i 0) :
    (∃ c, (s.m_id_list.getD i 0, c) ∈ (rows.foldl (match_row_with s new_objs C) st).assigned ∧
        (∀ c', (s.m_id_list.getD i 0, c') ∈ (rows.foldl (match_row_with s new_objs C) st).assigned →
          (s.m_id_list.getD i 0, c') ∈ st.assigned ∨ c' = c) ∧
        (rows.foldl (match_row_with s new_objs C) st).m_active_objects.find? (s.m_id_list.getD i 0) =
          some (new_objs.getD c default) ∧
        (rows.foldl (match_row_with s new_objs C) st).m_dissapeared.find? (s.m_id_list.getD i 0) =
          st.m_dissapeared.find? (s.m_id_list.getD i 0)) ∨
    ((∀ c', (s.m_id_list.getD i 0, c') ∈ (rows.foldl (match_row_with s new_objs C) st).assigned →
          (s.m_id_list.getD i 0, c') ∈ st.assigned) ∧
        (rows.foldl (match_row_with s new_objs C) st).m_active_objects.find? (s.m_id_list.getD i 0) =
          st.m_active_objects.find? (s.m_id_list.getD i 0) ∧
        (rows.foldl (match_row_with s new_objs C) st).m_dissapeared.find? (s.m_id_list.getD i 0) =
          some (st.m_dissapeared.get (s.m_id_list.getD i 0) + 1)) := by
  obtain ⟨pre, post, rfl⟩ := List.append_of_mem hi
  have hnd2 := List.nodup_append.1 hnd
  have hpre : ∀ j ∈ pre, s.m_id_list.getD j 0 ≠ s.m_id_list.getD i 0 := by
    intro j hj
    apply hinj j (List.mem_append_left _ hj)
    rintro rfl
    exact hnd2.2.2 hj (List.mem_cons_self _ _)
  have hpost : ∀ j ∈ post, s.m_id_list.getD j 0 ≠ s.m_id_list.getD i 0 := by
    intro j hj
    apply hinj j (List.mem_append_right _ (List.mem_cons_of_mem _ hj))
    rintro rfl
    exact (List.nodup_cons.1 hnd2.2.1).1 hj
  rw [List.foldl_append, List.foldl_cons]
  obtain ⟨a1, a2, a3⟩ := match_fold_with_of_not_mem s new_objs C pre st _ hpre
  obtain ⟨b1, b2, b3⟩ := match_fold_with_of_not_mem s new_objs C post
    (match_row_with s new_objs C (pre.foldl (match_row_with s new_objs C) st) i) _ hpost
  rcases match_row_with_cases s new_objs C (pre.foldl (match_row_with s new_objs C) st) i with
    ⟨c, _, hm⟩ | ⟨_, hm⟩
  · left
    refine ⟨c, ?_, ?_, ?_, ?_⟩
    · rw [b3, hm]; simp
    · intro c' hc'
      rw [b3, hm] at hc'
      rcases List.mem_append.1 hc' with h1 | h1
      · exact Or.inl ((a3 c').1 h1)
      · rw [List.mem_singleton] at h1
        injection h1 with _ h2
        exact Or.inr h2
    · rw [b1, hm]; exact StdMap.find?_insert_self _ _ _
    · rw [b2, hm]; exact a2
  · right
    refine ⟨?_, ?_, ?_⟩
    · intro c' hc'
      rw [b3, hm] at hc'
      exact (a3 c').1 hc'
    · rw [b1, hm]; exact a1
    · rw [b2, hm]
      show StdMap.find? (StdMap.insert_or_assign _ _ _) _ = _
      rw [StdMap.find?_insert_self]
      simp only [StdMap.get, a2]

/-- The consumed columns are the columns of the recorded pairs, none twice. -/
theorem match_fold_with_used (rows : List Nat) (st : MatchState)
    (h1 : st.used_cols = (st.assigned.map Prod.snd).reverse) (h2 : st.used_cols.Nodup) :
    (rows.foldl (match_row_with s new_objs C) st).used_cols =
        ((rows.foldl (match_row_with s new_objs C) st).assigned.map Prod.snd).reverse ∧
      (rows.foldl (match_row_with s new_objs C) st).used_cols.Nodup := by
  induction rows generalizing st with
  | nil => exact ⟨h1, h2⟩
  | cons i r ih =>
    rw [List.foldl_cons]
    rcases match_row_with_cases s new_objs C st i with ⟨c, hf, hm⟩ | ⟨_, hm⟩
    · rw [hm]
      apply ih
      · simp only [List.map_append, List.map_cons, List.map_nil, List.reverse_append,
          List.reverse_cons, List.reverse_nil, List.nil_append, List.singleton_append]
        rw [h1]
      · exact List.nodup_cons.2 ⟨(find_update_with_some hf).2.1, h2⟩
    · rw [hm]
      exact ih _ h1 h2

end MatchLoopWith

/-! ### What std::sort guarantees -/

theorem Computed.Valid.mem_rows {C : Computed} {m n : Nat} (h : C.Valid m n) (i : Nat) :
    i ∈ C.active_obj_ids ↔ i < m := by
  rw [h.1.mem_iff, List.mem_range]

theorem Computed.Valid.nodup_rows {C : Computed} {m n : Nat} (h : C.Valid m n) :
    C.active_obj_ids.Nodup :=
  h.1.nodup_iff.2 (List.nodup_range m)

theorem Computed.Valid.mem_cols {C : Computed} {m n : Nat} (h : C.Valid m n) {i : Nat}
    (hi : i < m) (c : Nat) : c ∈ C.sorted_ids.getD i [] ↔ c < n := by
  rw [(h.2 i hi).mem_iff, List.mem_range]

theorem Computed.Valid.nodup_cols {C : Computed} {m n : Nat} (h : C.Valid m n) {i : Nat}
    (hi : i < m) : (C.sorted_ids.getD i []).Nodup :=
  (h.2 i hi).nodup_iff.2 (List.nodup_range n)

/-- The exact outcome is one that `std::sort` can deliver. -/
theorem exact_computed_valid (s : ObjectTracker) (new_objs : List Object) :
    (exact_computed s new_objs).Valid s.m_active_objects.size new_objs.length := by
  constructor
  · exact std_sort_perm _ _
  · intro i hi
    show ((sorted_ids _ _ _).getD i []).Perm _
    rw [sorted_ids_getD _ _ _ hi]
    exact std_sort_perm _ _

/-- The embedding with exact distances and the stable sort is the instance `exact_computed`. -/
theorem update_branches_eq_with (gt : Object → Object → Bool) (s : ObjectTracker)
    (new_objs : List Object) :
    update_branches gt s new_objs =
      update_branches_with gt s new_objs (exact_computed s new_objs) := rfl

theorem matched_pairs_eq_with (s : ObjectTracker) (new_objs : List Object) :
    matched_pairs s new_objs = matched_pairs_with s new_objs (exact_computed s new_objs) := rfl

/-! ### The general case for given outcomes of the computations -/

theorem match_loop_with_eq {s : ObjectTracker} (h : Consistent s) (new_objs : List Object)
    (C : Computed) :
    match_loop_with s new_objs C =
      C.active_obj_ids.foldl (match_row_with s new_objs C)
        { used_cols := []
          m_active_objects := s.m_active_objects
          m_dissapeared := s.m_dissapeared
          assigned := [] } := by
  unfold match_loop_with
  rw [dist_matrix_touch_eq h]

theorem match_loop_with_keys {s : ObjectTracker} (h : Consistent s) (new_objs : List Object)
    {C : Computed} (hC : C.Valid s.m_active_objects.size new_objs.length) :
    (match_loop_with s new_objs C).m_active_objects.keys = s.m_active_objects.keys ∧
      (match_loop_with s new_objs C).m_dissapeared.keys = s.m_active_objects.keys := by
  rw [match_loop_with_eq h]
  exact match_fold_with_keys s new_objs C h _ (fun i hi => (hC.mem_rows i).1 hi) _ rfl h.keys_d

/-- The matching loop on the identity of row `i`, given `C`: either it is assigned exactly one
column `c`, takes the value of that detection and keeps its count, or it is assigned nothing,
keeps its value and has its count incremented. -/
theorem match_loop_with_row {s : ObjectTracker} (h : Consistent s) (new_objs : List Object)
    {C : Computed} (hC : C.Valid s.m_active_objects.size new_objs.length) {i : Nat}
    (hi : i < s.m_active_objects.size) :
    (∃ c, (s.m_id_list.getD i 0, c) ∈ (match_loop_with s new_objs C).assigned ∧
        (∀ c', (s.m_id_list.getD i 0, c') ∈ (match_loop_with s new_objs C).assigned → c' = c) ∧
        (match_loop_with s new_objs C).m_active_objects.find? (s.m_id_list.getD i 0) =
          some (new_objs.getD c default) ∧
        (match_loop_with s new_objs C).m_dissapeared.find? (s.m_id_list.getD i 0) =
          s.m_dissapeared.find? (s.m_id_list.getD i 0)) ∨
    ((∀ c', (s.m_id_list.getD i 0, c') ∉ (match_loop_with s new_objs C).assigned) ∧
        (match_loop_with s new_objs C).m_active_objects.find? (s.m_id_list.getD i 0) =
          s.m_active_objects.find? (s.m_id_list.getD i 0) ∧
        (match_loop_with s new_objs C).m_dissapeared.find? (s.m_id_list.getD i 0) =
          some (s.m_dissapeared.get (s.m_id_list.getD i 0) + 1)) := by
  have key := match_fold_with_row s new_objs C C.active_obj_ids hC.nodup_rows
    { used_cols := []
      m_active_objects := s.m_active_objects
      m_dissapeared := s.m_dissapeared
      assigned := [] }
    i ((hC.mem_rows i).2 hi)
    (fun j hj hne e => hne (h.row_inj ((hC.mem_rows j).1 hj) hi e))
  rw [match_loop_with_eq h new_objs]
  rcases key with ⟨c, k1, k2, k3, k4⟩ | ⟨k1, k2, k3⟩
  · left
    refine ⟨c, k1, ?_, k3, k4⟩
    intro c' hc'
    rcases k2 c' hc' with h1 | h1
    · cases h1
    · exact h1
  · right
    refine ⟨?_, k2, k3⟩
    intro c' hc'
    cases k1 c' hc'

/-- Every pair recorded by the matching loop, given `C`: the identity of a row, a detection
index, and a passed tolerance test. -/
theorem match_loop_with_assigned {s : ObjectTracker} (new_objs : List Object) {C : Computed}
    (hC : C.Valid s.m_active_objects.size new_objs.length)
    {id : ObjectID} {c : Nat} (hm : (id, c) ∈ (match_loop_with s new_objs C).assigned) :
    ∃ i, i < s.m_active_objects.size ∧ s.m_id_list.getD i 0 = id ∧ c < new_objs.length ∧
      C.near i c = true := by
  have key := match_fold_with_assigned s new_objs C C.active_obj_ids
    { used_cols := []
      m_active_objects := dist_matrix_touch s
      m_dissapeared := s.m_dissapeared
      assigned := [] } (id, c) hm
  rcases key with h1 | ⟨i, hi, h1, h2, h3⟩
  · cases h1
  · have hi' := (hC.mem_rows i).1 hi
    exact ⟨i, hi', h1.symm, (hC.mem_cols hi' c).1 h2, h3⟩

theorem match_loop_with_used (s : ObjectTracker) (new_objs : List Object) (C : Computed) :
    (match_loop_with s new_objs C).used_cols =
        ((match_loop_with s new_objs C).assigned.map Prod.snd).reverse ∧
      (match_loop_with s new_objs C).used_cols.Nodup := by
  unfold match_loop_with
  exact match_fold_with_used s new_objs C _ _ rfl List.nodup_nil

/-- The tracker between the matching loop and the registration loop is consistent. -/
theorem consistent_after_match_with {s : ObjectTracker} (h : Consistent s)
    (new_objs : List Object) {C : Computed}
    (hC : C.Valid s.m_active_objects.size new_objs.length) :
    Consistent
      { s with
        m_active_objects := (match_loop_with s new_objs C).m_active_objects
        m_dissapeared := (match_loop_with s new_objs C).m_dissapeared } := by
  obtain ⟨h1, h2⟩ := match_loop_with_keys h new_objs hC
  constructor
  · show (match_loop_with s new_objs C).m_active_objects.keys.Pairwise _
    rw [h1]; exact h.sorted
  · show s.m_uprooted.keys = (match_loop_with s new_objs C).m_active_objects.keys
    rw [h1]; exact h.keys_u
  · show (match_loop_with s new_objs C).m_dissapeared.keys =
      (match_loop_with s new_objs C).m_active_objects.keys
    rw [h1, h2]
  · show s.m_id_list.Perm (match_loop_with s new_objs C).m_active_objects.keys
    rw [h1]; exact h.perm
  · intro k hk
    change k ∈ (match_loop_with s new_objs C).m_active_objects.keys at hk
    rw [h1] at hk
    exact h.fresh k hk

theorem update_general_with_eq_foldl (gt : Object → Object → Bool) (s : ObjectTracker)
    (new_objs : List Object) (C : Computed) :
    update_general_with gt s new_objs C =
      ((unmatched_cols_with s new_objs C).map (fun x => new_objs.getD x default)).foldl
        (fun t o => (register_object gt t o).2)
        { s with
          m_active_objects := (match_loop_with s new_objs C).m_active_objects
          m_dissapeared := (match_loop_with s new_objs C).m_dissapeared } := by
  unfold update_general_with
  rw [foldl_register_if_eq]
  rfl

theorem ext_update_general_with (gt : Object → Object → Bool) {s : ObjectTracker}
    (h : Consistent s) (new_objs : List Object) {C : Computed}
    (hC : C.Valid s.m_active_objects.size new_objs.length) :
    Ext
      { s with
        m_active_objects := (match_loop_with s new_objs C).m_active_objects
        m_dissapeared := (match_loop_with s new_objs C).m_dissapeared }
      (update_general_with gt s new_objs C) := by
  rw [update_general_with_eq_foldl]
  exact Ext.foldl_register gt _ (Ext.refl (consistent_after_match_with h new_objs hC))

theorem update_branches_with_general (gt : Object → Object → Bool) {s : ObjectTracker}
    {new_objs : List Object} (C : Computed) (h1 : new_objs.length ≠ 0)
    (h2 : s.m_active_objects.size ≠ 0) :
    update_branches_with gt s new_objs C = update_general_with gt s new_objs C := by
  unfold update_branches_with
  rw [if_neg h1, if_neg h2]

theorem matched_pairs_with_general {s : ObjectTracker} {new_objs : List Object} {C : Computed}
    {p : ObjectID × Nat} (hm : p ∈ matched_pairs_with s new_objs C) :
    new_objs.length ≠ 0 ∧ s.m_active_objects.size ≠ 0 ∧
      p ∈ (match_loop_with s new_objs C).assigned := by
  unfold matched_pairs_with at hm
  by_cases h1 : new_objs.length = 0
  · rw [if_pos h1] at hm; cases hm
  · rw [if_neg h1] at hm
    by_cases h2 : s.m_active_objects.size = 0
    · rw [if_pos h2] at hm; cases hm
    · rw [if_neg h2] at hm; exact ⟨h1, h2, hm⟩

theorem matched_pairs_with_eq {s : ObjectTracker} {new_objs : List Object} (C : Computed)
    (h1 : new_objs.length ≠ 0) (h2 : s.m_active_objects.size ≠ 0) :
    matched_pairs_with s new_objs C = (match_loop_with s new_objs C).assigned := by
  unfold matched_pairs_with
  rw [if_neg h1, if_neg h2]

theorem consistent_update_branches_with (gt : Object → Object → Bool) {s : ObjectTracker}
    (h : Consistent s) (new_objs : List Object) {C : Computed}
    (hC : C.Valid s.m_active_objects.size new_objs.length) :
    Consistent (update_branches_with gt s new_objs C) := by
  unfold update_branches_with
  by_cases h1 : new_objs.length = 0
  · rw [if_pos h1]
    refine ⟨h.sorted, h.keys_u, ?_, h.perm, h.fresh⟩
    show StdMap.keys (s.m_dissapeared.map (fun e => (e.1, e.2 + 1))) = _
    rw [← h.keys_d]
    simp [StdMap.keys, List.map_map, Function.comp_def]
  · rw [if_neg h1]
    by_cases h2 : s.m_active_objects.size = 0
    · rw [if_pos h2]
      exact (Ext.foldl_register gt new_objs (Ext.refl h)).cons
    · rw [if_neg h2]
      exact (ext_update_general_with gt h new_objs hC).cons

/-- What the branches of `update` keep, given `C`: the configuration, the flags of the ids
below `m_next_id`, and which of these ids are live. -/
theorem update_branches_with_old (gt : Object → Object → Bool) {s : ObjectTracker}
    (h : Consistent s) (new_objs : List Object) {C : Computed}
    (hC : C.Valid s.m_active_objects.size new_objs.length) :
    s.m_next_id ≤ (update_branches_with gt s new_objs C).m_next_id ∧
      (update_branches_with gt s new_objs C).m_max_dissapeared_frms =
        s.m_max_dissapeared_frms ∧
      (update_branches_with gt s new_objs C).m_dist_tol = s.m_dist_tol ∧
      (∀ id, id < s.m_next_id → (update_branches_with gt s new_objs C).m_uprooted.find? id =
        s.m_uprooted.find? id) ∧
      (∀ id, id < s.m_next_id →
        (id ∈ (update_branches_with gt s new_objs C).m_active_objects.keys ↔
          id ∈ s.m_active_objects.keys)) ∧
      s.m_id_list.Sublist (update_branches_with gt s new_objs C).m_id_list ∧
      (∀ id, s.m_next_id ≤ id → ∀ c,
        (update_branches_with gt s new_objs C).m_dissapeared.find? id = some c → c = 0) := by
  unfold update_branches_with
  by_cases h1 : new_objs.length = 0
  · rw [if_pos h1]
    refine ⟨Nat.le_refl _, rfl, rfl, fun _ _ => rfl, fun _ _ => Iff.rfl, List.Sublist.refl _, ?_⟩
    intro id hid c hc
    have hk : id ∈ StdMap.keys (s.m_dissapeared.map (fun e => (e.1, e.2 + 1))) :=
      StdMap.mem_keys_of_find? hc
    have hk' : id ∈ s.m_active_objects.keys := by
      rw [← h.keys_d]
      simpa [StdMap.keys, List.map_map, Function.comp_def] using hk
    exact absurd (h.fresh id hk') (Nat.not_lt.2 hid)
  · rw [if_neg h1]
    by_cases h2 : s.m_active_objects.size = 0
    · rw [if_pos h2]
      have e := Ext.foldl_register gt new_objs (Ext.refl h)
      refine ⟨e.next_le, e.max_eq, e.tol_eq, e.upr, ?_, e.order, e.new_dis⟩
      intro id hid
      rw [← StdMap.find?_isSome_iff, ← StdMap.find?_isSome_iff, e.act id hid]
    · rw [if_neg h2]
      have e := ext_update_general_with gt h new_objs hC
      have hk := (match_loop_with_keys h new_objs hC).1
      refine ⟨e.next_le, e.max_eq, e.tol_eq, e.upr, ?_, e.order, e.new_dis⟩
      intro id hid
      rw [← StdMap.find?_isSome_iff, e.act id hid, StdMap.find?_isSome_iff]
      show id ∈ (match_loop_with s new_objs C).m_active_objects.keys ↔ _
      rw [hk]

/-- A matched identity, given `C`, before `cleanup_dissapeared`: it takes the value of the
detection and keeps its count and its flag. -/
theorem update_branches_with_matched (gt : Object → Object → Bool) {s : ObjectTracker}
    (h : Consistent s) (new_objs : List Object) {C : Computed}
    (hC : C.Valid s.m_active_objects.size new_objs.length) {id : ObjectID} {c : Nat}
    (hm : (id, c) ∈ matched_pairs_with s new_objs C) :
    id ∈ s.m_active_objects.keys ∧
      (update_branches_with gt s new_objs C).m_active_objects.find? id =
        some (new_objs.getD c default) ∧
      (update_branches_with gt s new_objs C).m_dissapeared.find? id =
        s.m_dissapeared.find? id ∧
      (update_branches_with gt s new_objs C).m_uprooted.find? id = s.m_uprooted.find? id := by
  obtain ⟨h1, h2, h3⟩ := matched_pairs_with_general hm
  obtain ⟨i, hi, hid, _, _⟩ := match_loop_with_assigned new_objs hC h3
  have hk : id ∈ s.m_active_objects.keys := by rw [← hid]; exact h.getD_mem hi
  have hlt : id < s.m_next_id := h.fresh id hk
  have e := ext_update_general_with gt h new_objs hC
  rw [update_branches_with_general gt C h1 h2]
  refine ⟨hk, ?_, ?_, e.upr id hlt⟩
  · rw [e.act id hlt]
    show (match_loop_with s new_objs C).m_active_objects.find? id = _
    rcases match_loop_with_row h new_objs hC hi with ⟨c0, _, k2, k3, _⟩ | ⟨k1, _, _⟩
    · rw [hid] at k2 k3
      rw [k2 c h3]; exact k3
    · rw [hid] at k1
      exact absurd h3 (k1 c)
  · rw [e.dis id hlt]
    show (match_loop_with s new_objs C).m_dissapeared.find? id = _
    rcases match_loop_with_row h new_objs hC hi with ⟨c0, _, _, _, k4⟩ | ⟨k1, _, _⟩
    · rw [hid] at k4; exact k4
    · rw [hid] at k1
      exact absurd h3 (k1 c)

/-- An unmatched live identity, given `C`, before `cleanup_dissapeared`: it keeps its value
and its flag, and its count is incremented. -/
theorem update_branches_with_unmatched (gt : Object → Object → Bool) {s : ObjectTracker}
    (h : Consistent s) (new_objs : List Object) {C : Computed}
    (hC : C.Valid s.m_active_objects.size new_objs.length) {id : ObjectID}
    (hk : id ∈ s.m_active_objects.keys)
    (hu : id ∉ (matched_pairs_with s new_objs C).map Prod.fst) :
    (update_branches_with gt s new_objs C).m_active_objects.find? id =
        s.m_active_objects.find? id ∧
      (update_branches_with gt s new_objs C).m_dissapeared.find? id =
        some (s.m_dissapeared.get id + 1) ∧
      (update_branches_with gt s new_objs C).m_uprooted.find? id = s.m_uprooted.find? id := by
  have hlt : id < s.m_next_id := h.fresh id hk
  have hkd : id ∈ s.m_dissapeared.keys := by rw [h.keys_d]; exact hk
  by_cases h1 : new_objs.length = 0
  · unfold update_branches_with
    rw [if_pos h1]
    refine ⟨rfl, ?_, rfl⟩
    show StdMap.find? (s.m_dissapeared.map (fun e => (e.1, e.2 + 1))) id = _
    rw [StdMap.find?_map_val s.m_dissapeared (fun c => c + 1) id, StdMap.find?_get hkd]
    rfl
  · by_cases h2 : s.m_active_objects.size = 0
    · simp only [StdMap.size, List.length_eq_zero] at h2
      rw [h2] at hk; cases hk
    · have e := ext_update_general_with gt h new_objs hC
      obtain ⟨i, hi, hid⟩ := h.exists_row hk
      have hun : ∀ c, (id, c) ∉ (match_loop_with s new_objs C).assigned := by
        intro c hc
        apply hu
        rw [matched_pairs_with_eq C h1 h2]
        exact List.mem_map.2 ⟨(id, c), hc, rfl⟩
      rw [update_branches_with_general gt C h1 h2]
      rcases match_loop_with_row h new_objs hC hi with ⟨c0, k1, _, _, _⟩ | ⟨_, k2, k3⟩
      · rw [hid] at k1
        exact absurd k1 (hun c0)
      · rw [hid] at k2 k3
        exact ⟨(e.act id hlt).trans k2, (e.dis id hlt).trans k3, e.upr id hlt⟩

/-! ### The runs of cleanup_dissapeared -/

/-- The containers that a run of `cleanup_dissapeared` leaves: those of `t` without the
identities `ids` that the loop deregistered. -/
theorem CleanupOutcome.fields {t u : ObjectTracker} (h : CleanupOutcome t u) :
    ∃ ids : List ObjectID, ids.Sublist (evicted t) ∧ ids.head? = (evicted t).head? ∧
      u =
        { t with
          m_active_objects := t.m_active_objects.filter (fun e => decide (e.1 ∉ ids))
          m_uprooted := t.m_uprooted.filter (fun e => decide (e.1 ∉ ids))
          m_dissapeared := t.m_dissapeared.filter (fun e => decide (e.1 ∉ ids))
          m_id_list := t.m_id_list.diff ids } := by
  obtain ⟨ids, h1, h2, h3⟩ := h
  exact ⟨ids, h1, h2, by rw [h3, foldl_deregister_fields]⟩

/-- The run that reaches every entry over the threshold is one of the runs. -/
theorem cleanup_outcome_all (t : ObjectTracker) : CleanupOutcome t (cleanup_dissapeared t) :=
  ⟨evicted t, List.Sublist.refl _, rfl, cleanup_eq_foldl t⟩

/-- With no entry over the threshold the loop erases nothing: the call is well defined and
leaves the tracker as it is. -/
theorem cleanup_outcome_of_nil {t : ObjectTracker} (h : evicted t = []) (u : ObjectTracker) :
    CleanupOutcome t u ↔ u = t := by
  constructor
  · rintro ⟨ids, h1, _, h3⟩
    rw [h] at h1
    rw [List.sublist_nil.1 h1] at h3
    exact h3
  · rintro rfl
    exact ⟨[], by rw [h], by rw [h], rfl⟩

/-- With one entry over the threshold every run that returns has deregistered it. -/
theorem cleanup_outcome_singleton {t : ObjectTracker} {e : ObjectID} (h : evicted t = [e])
    (u : ObjectTracker) : CleanupOutcome t u ↔ u = deregister_object t e := by
  constructor
  · rintro ⟨ids, h1, h2, h3⟩
    rw [h] at h1 h2
    cases ids with
    | nil => cases h2
    | cons a r =>
      have ha : a = e := by
        simp only [List.head?_cons, Option.some.injEq] at h2
        exact h2
      subst ha
      have hr : r = [] := by
        have := h1.length_le
        simp only [List.length_cons, List.length_nil] at this
        exact List.length_eq_zero.1 (by omega)
      rw [hr] at h3
      exact h3
  · rintro rfl
    exact ⟨[e], by rw [h], by rw [h], rfl⟩

theorem CleanupOutcome.same {t u : ObjectTracker} (h : CleanupOutcome t u) :
    u.m_next_id = t.m_next_id ∧ u.m_max_dissapeared_frms = t.m_max_dissapeared_frms ∧
      u.m_dist_tol = t.m_dist_tol := by
  obtain ⟨ids, _, _, rfl⟩ := h.fields
  exact ⟨rfl, rfl, rfl⟩

theorem CleanupOutcome.consistent {t u : ObjectTracker} (h : CleanupOutcome t u)
    (hc : Consistent t) : Consistent u := by
  obtain ⟨ids, _, _, rfl⟩ := h
  exact consistent_foldl_deregister ids hc

/-- The first entry over the threshold is deregistered in every run. -/
theorem CleanupOutcome.first {t u : ObjectTracker} (h : CleanupOutcome t u) {e : ObjectID}
    {r : List ObjectID} (he : evicted t = e :: r) : e ∉ u.m_active_objects.keys := by
  obtain ⟨ids, _, h2, rfl⟩ := h.fields
  rw [he] at h2
  have hm : e ∈ ids := by
    cases ids with
    | nil => cases h2
    | cons a l =>
      simp only [List.head?_cons, Option.some.injEq] at h2
      rw [h2]; exact List.mem_cons_self _ _
  show e ∉ StdMap.keys (t.m_active_objects.filter (fun e => decide (e.1 ∉ ids)))
  rw [keys_filter t.m_active_objects (fun k => decide (k ∉ ids))]
  intro hk
  have := (List.mem_filter.1 hk).2
  simp [hm] at this

/-- An identity that is live after a run was live before it, with the same entries. -/
theorem CleanupOutcome.of_mem {t u : ObjectTracker} (h : CleanupOutcome t u) {id : ObjectID}
    (hk : id ∈ u.m_active_objects.keys) :
    id ∈ t.m_active_objects.keys ∧
      u.m_active_objects.find? id = t.m_active_objects.find? id ∧
      u.m_dissapeared.find? id = t.m_dissapeared.find? id ∧
      u.m_uprooted.find? id = t.m_uprooted.find? id := by
  obtain ⟨ids, _, _, rfl⟩ := h.fields
  change id ∈ StdMap.keys (t.m_active_objects.filter (fun e => decide (e.1 ∉ ids))) at hk
  rw [keys_filter t.m_active_objects (fun k => decide (k ∉ ids))] at hk
  obtain ⟨hk1, hk2⟩ := List.mem_filter.1 hk
  have hn : id ∉ ids := by simpa using hk2
  refine ⟨hk1, ?_, ?_, ?_⟩
  · show StdMap.find? (t.m_active_objects.filter (fun e => decide (e.1 ∉ ids))) id = _
    rw [StdMap.find?_filter t.m_active_objects (fun k => decide (k ∉ ids)) id]
    simp [hn]
  · show StdMap.find? (t.m_dissapeared.filter (fun e => decide (e.1 ∉ ids))) id = _
    rw [StdMap.find?_filter t.m_dissapeared (fun k => decide (k ∉ ids)) id]
    simp [hn]
  · show StdMap.find? (t.m_uprooted.filter (fun e => decide (e.1 ∉ ids))) id = _
    rw [StdMap.find?_filter t.m_uprooted (fun k => decide (k ∉ ids)) id]
    simp [hn]

/-- An identity whose count is within the threshold is live after every run. -/
theorem CleanupOutcome.keep {t u : ObjectTracker} (h : CleanupOutcome t u) {id : ObjectID}
    (hk : id ∈ t.m_active_objects.keys) (hn : id ∉ evicted t) :
    id ∈ u.m_active_objects.keys := by
  obtain ⟨ids, h1, _, rfl⟩ := h.fields
  show id ∈ StdMap.keys (t.m_active_objects.filter (fun e => decide (e.1 ∉ ids)))
  rw [keys_filter t.m_active_objects (fun k => decide (k ∉ ids))]
  refine List.mem_filter.2 ⟨hk, ?_⟩
  have : id ∉ ids := fun hm => hn (h1.subset hm)
  simpa using this

/-- The unconsumed columns, given `C`: every detection index that is in no recorded pair,
once. -/
theorem unmatched_cols_with_spec {s : ObjectTracker} (new_objs : List Object) {C : Computed}
    (hC : C.Valid s.m_active_objects.size new_objs.length)
    (h2 : s.m_active_objects.size ≠ 0) :
    (unmatched_cols_with s new_objs C).Nodup ∧
      (∀ x, x ∈ unmatched_cols_with s new_objs C ↔
        (x < new_objs.length ∧ x ∉ (match_loop_with s new_objs C).assigned.map Prod.snd)) ∧
      (unmatched_cols_with s new_objs C).length + (match_loop_with s new_objs C).assigned.length =
        new_objs.length := by
  obtain ⟨u1, u2⟩ := match_loop_with_used s new_objs C
  have h0 : 0 < s.m_active_objects.size := Nat.pos_of_ne_zero h2
  have hnd : (C.sorted_ids.getD 0 []).Nodup := hC.nodup_cols h0
  have hmem : ∀ x, x ∈ C.sorted_ids.getD 0 [] ↔ x < new_objs.length := hC.mem_cols h0
  have hlen : (C.sorted_ids.getD 0 []).length = new_objs.length := by
    rw [(hC.2 0 h0).length_eq, List.length_range]
  have hused : ∀ x, x ∈ (match_loop_with s new_objs C).used_cols ↔
      x ∈ (match_loop_with s new_objs C).assigned.map Prod.snd := by
    intro x
    rw [u1, List.mem_reverse]
  refine ⟨hnd.filter _, ?_, ?_⟩
  · intro x
    unfold unmatched_cols_with
    rw [List.mem_filter, hmem, decide_eq_true_eq, hused]
  · have hsub : ∀ x, x ∈ (match_loop_with s new_objs C).used_cols →
        x ∈ C.sorted_ids.getD 0 [] := by
      intro x hx
      rw [hused] at hx
      obtain ⟨p, hp, rfl⟩ := List.mem_map.1 hx
      obtain ⟨id, c⟩ := p
      obtain ⟨_, _, _, hc, _⟩ := match_loop_with_assigned new_objs hC hp
      exact (hmem c).2 hc
    have := length_filter_not_mem hnd u2 hsub
    rw [hlen] at this
    have hl : (match_loop_with s new_objs C).used_cols.length =
        (match_loop_with s new_objs C).assigned.length := by
      rw [u1, List.length_reverse, List.length_map]
    rw [hl] at this
    exact this

/-- The maps after the general case, given `C`, before `cleanup_dissapeared`: those left by
the matching loop, followed by one new entry per unconsumed detection. -/
theorem update_general_with_maps (gt : Object → Object → Bool) {s : ObjectTracker}
    (h : Consistent s) (new_objs : List Object) {C : Computed}
    (hC : C.Valid s.m_active_objects.size new_objs.length) :
    (update_general_with gt s new_objs C).m_active_objects =
        (match_loop_with s new_objs C).m_active_objects ++
          StdMap.consecutive s.m_next_id
            ((unmatched_cols_with s new_objs C).map (fun x => new_objs.getD x default)) ∧
      (update_general_with gt s new_objs C).m_uprooted =
        s.m_uprooted ++
          StdMap.consecutive s.m_next_id
            (((unmatched_cols_with s new_objs C).map (fun x => new_objs.getD x default)).map
              (fun _ => false)) ∧
      (update_general_with gt s new_objs C).m_dissapeared =
        (match_loop_with s new_objs C).m_dissapeared ++
          StdMap.consecutive s.m_next_id
            (((unmatched_cols_with s new_objs C).map (fun x => new_objs.getD x default)).map
              (fun _ => 0)) ∧
      (update_general_with gt s new_objs C).m_next_id =
        s.m_next_id + (unmatched_cols_with s new_objs C).length := by
  have key := foldl_register_maps gt
    ((unmatched_cols_with s new_objs C).map (fun x => new_objs.getD x default))
    (consistent_after_match_with h new_objs hC)
  rw [← update_general_with_eq_foldl, List.length_map] at key
  exact key

/-- The identity registered for the `j`-th unconsumed detection, given `C`. -/
theorem update_general_with_new (gt : Object → Object → Bool) {s : ObjectTracker}
    (h : Consistent s) (new_objs : List Object) {C : Computed}
    (hC : C.Valid s.m_active_objects.size new_objs.length) {j : Nat}
    (hj : j < (unmatched_cols_with s new_objs C).length) :
    (update_general_with gt s new_objs C).m_active_objects.find? (s.m_next_id + j) =
        some (new_objs.getD ((unmatched_cols_with s new_objs C).getD j 0) default) ∧
      (update_general_with gt s new_objs C).m_dissapeared.find? (s.m_next_id + j) = some 0 ∧
      (update_general_with gt s new_objs C).m_uprooted.find? (s.m_next_id + j) =
        some false := by
  obtain ⟨a1, a2, a3, _⟩ := update_general_with_maps gt h new_objs hC
  obtain ⟨k1, k2⟩ := match_loop_with_keys h new_objs hC
  have hnot : s.m_next_id + j ∉ s.m_active_objects.keys := by
    intro hm
    have := h.fresh _ hm
    exact absurd this (Nat.not_lt.2 (Nat.le_add_right _ _))
  have n1 : StdMap.find? (match_loop_with s new_objs C).m_active_objects (s.m_next_id + j) =
      none := by
    rw [StdMap.find?_eq_none_iff, k1]; exact hnot
  have n2 : StdMap.find? s.m_uprooted (s.m_next_id + j) = none := by
    rw [StdMap.find?_eq_none_iff, h.keys_u]; exact hnot
  have n3 : StdMap.find? (match_loop_with s new_objs C).m_dissapeared (s.m_next_id + j) =
      none := by
    rw [StdMap.find?_eq_none_iff, k2]; exact hnot
  rw [a1, a2, a3]
  refine ⟨?_, ?_, ?_⟩
  · show StdMap.find? (_ ++ _) _ = _
    rw [find?_append, n1]
    simp only
    rw [find?_consecutive _ _ _ (by simpa using hj)]
    rw [List.getElem?_map, getElem?_eq_some_getD _ 0 hj]
    rfl
  · show StdMap.find? (_ ++ _) _ = _
    rw [find?_append, n3]
    simp only
    rw [find?_consecutive _ _ _ (by simpa using hj)]
    simp [hj]
  · show StdMap.find? (_ ++ _) _ = _
    rw [find?_append, n2]
    simp only
    rw [find?_consecutive _ _ _ (by simpa using hj)]
    simp [hj]

/-! ### One call of update that returns, seen from one identity -/

/-- Every id that the branches of `update` pass over is live with count `0` when the eviction
loop starts. -/
theorem update_branches_with_allocated (gt : Object → Object → Bool) {s : ObjectTracker}
    (h : Consistent s) (new_objs : List Object) {C : Computed}
    (hC : C.Valid s.m_active_objects.size new_objs.length) {id : ObjectID}
    (h1 : s.m_next_id ≤ id) (h2 : id < (update_branches_with gt s new_objs C).m_next_id) :
    id ∈ (update_branches_with gt s new_objs C).m_active_objects.keys ∧
      (update_branches_with gt s new_objs C).m_dissapeared.find? id = some 0 := by
  have hct := consistent_update_branches_with gt h new_objs hC
  have hnew := (update_branches_with_old gt h new_objs hC).2.2.2.2.2.2
  have key : id ∈ (update_branches_with gt s new_objs C).m_active_objects.keys := by
    unfold update_branches_with at h2 ⊢
    by_cases e1 : new_objs.length = 0
    · rw [if_pos e1] at h2
      exact absurd h2 (Nat.not_lt.2 h1)
    · rw [if_neg e1] at h2 ⊢
      by_cases e2 : s.m_active_objects.size = 0
      · rw [if_pos e2] at h2 ⊢
        obtain ⟨a1, _, _, a4⟩ := foldl_register_maps gt new_objs h
        rw [a4] at h2
        rw [a1]
        show id ∈ StdMap.keys (_ ++ _)
        unfold StdMap.keys
        rw [List.map_append]
        apply List.mem_append_right
        have := keys_consecutive s.m_next_id new_objs
        unfold StdMap.keys at this
        rw [this]
        exact List.mem_range'_1.2 ⟨h1, h2⟩
      · rw [if_neg e2] at h2 ⊢
        obtain ⟨a1, _, _, a4⟩ := update_general_with_maps gt h new_objs hC
        rw [a4] at h2
        rw [a1]
        show id ∈ StdMap.keys (_ ++ _)
        unfold StdMap.keys
        rw [List.map_append]
        apply List.mem_append_right
        have := keys_consecutive s.m_next_id
          ((unmatched_cols_with s new_objs C).map (fun x => new_objs.getD x default))
        unfold StdMap.keys at this
        rw [this, List.length_map]
        exact List.mem_range'_1.2 ⟨h1, h2⟩
  refine ⟨key, ?_⟩
  have hkd : id ∈ (update_branches_with gt s new_objs C).m_dissapeared.keys := by
    rw [hct.keys_d]; exact key
  have hf := StdMap.find?_get hkd
  rw [hf, hnew id h1 _ hf]

theorem update_outcome_consistent {gt : Object → Object → Bool} {s u : ObjectTracker}
    {new_objs : List Object} {C : Computed} (h : UpdateOutcome gt s new_objs C u)
    (hs : Consistent s) (hC : C.Valid s.m_active_objects.size new_objs.length) :
    Consistent u :=
  CleanupOutcome.consistent h (consistent_update_branches_with gt hs new_objs hC)

theorem update_outcome_same {gt : Object → Object → Bool} {s u : ObjectTracker}
    {new_objs : List Object} {C : Computed} (h : UpdateOutcome gt s new_objs C u)
    (hs : Consistent s) (hC : C.Valid s.m_active_objects.size new_objs.length) :
    s.m_next_id ≤ u.m_next_id ∧ u.m_max_dissapeared_frms = s.m_max_dissapeared_frms ∧
      u.m_dist_tol = s.m_dist_tol := by
  obtain ⟨a1, a2, a3, _⟩ := update_branches_with_old gt hs new_objs hC
  obtain ⟨b1, b2, b3⟩ := CleanupOutcome.same h
  rw [b1, b2, b3]
  exact ⟨a1, a2, a3⟩

/-- An identity that is live with a count within the threshold when the eviction loop starts
is live when `update` returns, with the same entries. -/
theorem update_outcome_keep {gt : Object → Object → Bool} {s u : ObjectTracker}
    {new_objs : List Object} {C : Computed} (h : UpdateOutcome gt s new_objs C u)
    (hs : Consistent s) (hC : C.Valid s.m_active_objects.size new_objs.length)
    {id : ObjectID} {c : Nat}
    (hf : (update_branches_with gt s new_objs C).m_dissapeared.find? id = some c)
    (hc : c ≤ s.m_max_dissapeared_frms) :
    id ∈ u.m_active_objects.keys ∧
      u.m_active_objects.find? id =
        (update_branches_with gt s new_objs C).m_active_objects.find? id ∧
      u.m_dissapeared.find? id = some c ∧
      u.m_uprooted.find? id = (update_branches_with gt s new_objs C).m_uprooted.find? id := by
  have hct := consistent_update_branches_with gt hs new_objs hC
  have hmax := (update_branches_with_old gt hs new_objs hC).2.1
  have hk : id ∈ (update_branches_with gt s new_objs C).m_active_objects.keys := by
    rw [← hct.keys_d]; exact StdMap.mem_keys_of_find? hf
  have hn : id ∉ evicted (update_branches_with gt s new_objs C) := by
    intro he
    obtain ⟨c', hc1, hc2⟩ := (mem_evicted_iff hct id).1 he
    rw [hf] at hc1
    injection hc1 with hc1
    rw [← hc1, hmax] at hc2
    exact absurd hc2 (Nat.not_lt.2 hc)
  have hku := CleanupOutcome.keep h hk hn
  obtain ⟨_, b1, b2, b3⟩ := CleanupOutcome.of_mem h hku
  exact ⟨hku, b1, b2.trans hf, b3⟩

/-- An unmatched live identity whose incremented count is within the threshold is live when
`update` returns, with its value and flag and the incremented count. -/
theorem update_outcome_unmatched {gt : Object → Object → Bool} {s u : ObjectTracker}
    {new_objs : List Object} {C : Computed} (h : UpdateOutcome gt s new_objs C u)
    (hs : Consistent s) (hC : C.Valid s.m_active_objects.size new_objs.length)
    {id : ObjectID} (hk : id ∈ s.m_active_objects.keys)
    (hu : id ∉ (matched_pairs_with s new_objs C).map Prod.fst)
    (hc : s.m_dissapeared.get id + 1 ≤ s.m_max_dissapeared_frms) :
    id ∈ u.m_active_objects.keys ∧
      u.m_active_objects.find? id = s.m_active_objects.find? id ∧
      u.m_dissapeared.find? id = some (s.m_dissapeared.get id + 1) ∧
      u.m_uprooted.find? id = s.m_uprooted.find? id := by
  obtain ⟨a1, a2, a3⟩ := update_branches_with_unmatched gt hs new_objs hC hk hu
  obtain ⟨b0, b1, b2, b3⟩ := update_outcome_keep h hs hC a2 hc
  exact ⟨b0, b1.trans a1, b2, b3.trans a3⟩

/-- An id that `update` passes over is live when `update` returns, with count `0`. -/
theorem update_outcome_allocated {gt : Object → Object → Bool} {s u : ObjectTracker}
    {new_objs : List Object} {C : Computed} (h : UpdateOutcome gt s new_objs C u)
    (hs : Consistent s) (hC : C.Valid s.m_active_objects.size new_objs.length)
    {id : ObjectID} (h1 : s.m_next_id ≤ id) (h2 : id < u.m_next_id) :
    id ∈ u.m_active_objects.keys ∧
      u.m_active_objects.find? id =
        (update_branches_with gt s new_objs C).m_active_objects.find? id ∧
      u.m_dissapeared.find? id = some 0 := by
  rw [(CleanupOutcome.same h).1] at h2
  obtain ⟨_, k2⟩ := update_branches_with_allocated gt hs new_objs hC h1 h2
  obtain ⟨b0, b1, b2, _⟩ := update_outcome_keep h hs hC k2 (Nat.zero_le _)
  exact ⟨b0, b1, b2⟩

/-! ### Successive calls of update that return -/

/-- Along a run of `k` calls in which `id` is never matched, with the count of `id` staying
within the threshold, `id` stays live, keeps its value and flag, and its count grows by `k`. -/
theorem MissedRun.survives {gt : Object → Object → Bool} {id : ObjectID} {s v : ObjectTracker}
    {k : Nat} (h : MissedRun gt id s k v) (hs : Consistent s)
    (hk : id ∈ s.m_active_objects.keys)
    (hc : s.m_dissapeared.get id + k ≤ s.m_max_dissapeared_frms) :
    Consistent v ∧ v.m_max_dissapeared_frms = s.m_max_dissapeared_frms ∧
      id ∈ v.m_active_objects.keys ∧
      v.m_active_objects.find? id = s.m_active_objects.find? id ∧
      v.m_dissapeared.find? id = some (s.m_dissapeared.get id + k) ∧
      v.m_uprooted.find? id = s.m_uprooted.find? id := by
  induction h with
  | done s =>
    refine ⟨hs, rfl, hk, rfl, ?_, rfl⟩
    rw [Nat.add_zero]
    exact StdMap.find?_get (by rw [hs.keys_d]; exact hk)
  | @call s u v k new_objs C hC hu ho _ ih =>
    obtain ⟨b0, b1, b2, b3⟩ := update_outcome_unmatched ho hs hC hk hu (by omega)
    have hmax := (update_outcome_same ho hs hC).2.1
    have hget : u.m_dissapeared.get id = s.m_dissapeared.get id + 1 := get_of_find? b2
    obtain ⟨c0, c1, c2, c3, c4, c5⟩ := ih (update_outcome_consistent ho hs hC) b0
      (by rw [hget, hmax]; omega)
    refine ⟨c0, c1.trans hmax, c2, c3.trans b1, ?_, c5.trans b3⟩
    rw [c4, hget]
    congr 1
    omega

/-! ### The sample trackers -/

theorem consistent_fresh_one : Consistent fresh_one :=
  consistent_update_branches gt_by_size (consistent_init _ _ _) _

theorem consistent_missed_once : Consistent missed_once :=
  consistent_update_branches gt_by_size consistent_fresh_one _

/-- One call `update([])` from `fresh_one`: nothing is over the threshold, and the call leaves
`missed_once`. -/
theorem fresh_one_run : MissedRun gt_by_size 0 fresh_one 1 missed_once :=
  MissedRun.call [] (exact_computed fresh_one []) (exact_computed_valid _ _) (by decide)
    ((cleanup_outcome_of_nil (by decide) _).2 rfl) (MissedRun.done _)

theorem five_skipped_outcome : CleanupOutcome five_missed five_skipped :=
  ⟨[1], by rw [(by decide : evicted five_missed = [1, 2])]; decide, by decide, rfl⟩
/-! ## The claims -/

theorem reachable_sample_two : Reachable gt_by_size sample_two :=
  Reachable.update _ (Reachable.init _ _ _)

theorem reachable_sample_one : Reachable gt_by_size sample_one :=
  Reachable.update _ (Reachable.deregister_object _ (Reachable.top _ reachable_sample_two))

/-- C1. Consistency invariant: in every state reachable from the empty tracker by calls of
`update`, `register_object`, `deregister_object`, `top` (and `active_objects`), the maps
`m_active_objects`, `m_dissapeared`, `m_uprooted` have the same keys as the ids of `m_id_list`,
and `m_id_list` holds no id twice. -/
theorem consistency_invariant (gt : Object → Object → Bool) (s : ObjectTracker)
    (hs : Reachable gt s) :
    (∀ id, id ∈ s.m_active_objects.keys ↔ id ∈ s.m_dissapeared.keys) ∧
      (∀ id, id ∈ s.m_active_objects.keys ↔ id ∈ s.m_uprooted.keys) ∧
      (∀ id, id ∈ s.m_active_objects.keys ↔ id ∈ s.m_id_list) ∧
      s.m_id_list.Nodup ∧ s.m_active_objects.keys.Nodup := by
  have h := hs.inv.cons
  refine ⟨?_, ?_, ?_, h.nodup_id_list, h.nodup_keys⟩
  · intro id; rw [h.keys_d]
  · intro id; rw [h.keys_u]
  · intro id; exact (h.mem_id_list id).symm

/-- Witness of C1, at the state `sample_one`. -/
theorem consistency_invariant_witness :
    Reachable gt_by_size sample_one ∧
      ((∀ id, id ∈ sample_one.m_active_objects.keys ↔ id ∈ sample_one.m_dissapeared.keys) ∧
        (∀ id, id ∈ sample_one.m_active_objects.keys ↔ id ∈ sample_one.m_uprooted.keys) ∧
        (∀ id, id ∈ sample_one.m_active_objects.keys ↔ id ∈ sample_one.m_id_list) ∧
        sample_one.m_id_list.Nodup ∧ sample_one.m_active_objects.keys.Nodup) :=
  ⟨reachable_sample_one, consistency_invariant gt_by_size sample_one reachable_sample_one⟩

/-- C2, as stated, fails for every `operator>`: in the reachable state `sample_missed`
identity `0` has missed one frame; `update([(1,0,0)])` matches it and its count is still `1`. -/
theorem matched_count_reset_counterexample :
    ¬ ∃ gt : Object → Object → Bool,
      ∀ (s : ObjectTracker) (new_objs : List Object) (id : ObjectID) (c : Nat),
        Reachable gt s → (id, c) ∈ matched_pairs s new_objs →
          (update gt s new_objs).m_dissapeared.find? id = some 0 := by
  rintro ⟨gt, h⟩
  have h1 := h (sample_missed gt) [⟨1, 0, 0, 1⟩] 0 0 (reachable_sample_missed gt)
    (by rw [sample_missed_matched]; exact List.mem_singleton.2 rfl)
  rw [sample_missed_update] at h1
  revert h1
  decide

/-- C2, amended. An identity that `update` matches to a detection keeps the count it had
before the call: the match neither resets nor increments it.  For whatever the distance
computations and the sorts deliver (`C`), in a state with consistent containers (as every
reachable state is), the count of a matched identity is unchanged when the eviction loop
starts, and unchanged in every tracker that `update` can leave in which the identity is
live. -/
theorem matched_count_unchanged (gt : Object → Object → Bool) (s : ObjectTracker)
    (hs : Consistent s) (new_objs : List Object) (C : Computed)
    (hC : C.Valid s.m_active_objects.size new_objs.length) (id : ObjectID) (c : Nat)
    (hm : (id, c) ∈ matched_pairs_with s new_objs C) :
    id ∈ s.m_active_objects.keys ∧
      (update_branches_with gt s new_objs C).m_dissapeared.find? id =
        s.m_dissapeared.find? id ∧
      ∀ u, UpdateOutcome gt s new_objs C u → id ∈ u.m_active_objects.keys →
        u.m_dissapeared.find? id = s.m_dissapeared.find? id := by
  obtain ⟨hk, _, a2, _⟩ := update_branches_with_matched gt hs new_objs hC hm
  refine ⟨hk, a2, ?_⟩
  intro u hu hku
  exact (CleanupOutcome.of_mem hu hku).2.2.1.trans a2

/-- Witness of C2 amended, at the tracker `missed_once` (identity `0` with count `1`) and the
frame `[(1,0,0)]`: identity `0` is matched and its count is still `1`. -/
theorem matched_count_unchanged_witness :
    Consistent missed_once ∧
      (exact_computed missed_once [⟨1, 0, 0, 1⟩]).Valid missed_once.m_active_objects.size
        ([⟨1, 0, 0, 1⟩] : List Object).length ∧
      (0, 0) ∈ matched_pairs_with missed_once [⟨1, 0, 0, 1⟩]
        (exact_computed missed_once [⟨1, 0, 0, 1⟩]) ∧
      missed_once.m_dissapeared.find? 0 = some 1 ∧
      (update_branches_with gt_by_size missed_once [⟨1, 0, 0, 1⟩]
          (exact_computed missed_once [⟨1, 0, 0, 1⟩])).m_dissapeared.find? 0 =
        missed_once.m_dissapeared.find? 0 :=
  ⟨consistent_missed_once, exact_computed_valid _ _, by decide, by decide,
    (matched_count_unchanged gt_by_size missed_once consistent_missed_once [⟨1, 0, 0, 1⟩]
      (exact_computed missed_once [⟨1, 0, 0, 1⟩]) (exact_computed_valid _ _) 0 0
      (by decide)).2.1⟩

/-- C3, at a failing input.  Threshold `0`, tolerance `5`: `update(five_frame)` registers the
identities `0 .. 4` and evicts nothing; in `update(five_second_frame)` the identities `1` and
`2` are unmatched, so each has missed `maxMissedFrames + 1 = 1` call and both entries are over
the threshold when `cleanup_dissapeared` starts.  The loop deregisters identity `1` by erasing
the entry under its own iterator; a run that then does not reach the entry of identity `2`
leaves identity `2` in `m_id_list` and in the three maps, where the claim says it is absent. -/
theorem eviction_loop_skips_entry :
    evicted five_state = [] ∧
      five_state.m_max_dissapeared_frms + 1 = 1 ∧
      1 ∈ five_state.m_active_objects.keys ∧ 2 ∈ five_state.m_active_objects.keys ∧
      Unmatched 1 five_state five_second_frame ∧ Unmatched 2 five_state five_second_frame ∧
      evicted five_missed = [1, 2] ∧
      CleanupOutcome five_missed five_skipped ∧
      2 ∈ five_skipped.m_id_list ∧ 2 ∈ five_skipped.m_active_objects.keys ∧
      2 ∈ five_skipped.m_dissapeared.keys ∧ 2 ∈ five_skipped.m_uprooted.keys :=
  ⟨by decide, by decide, by decide, by decide, by decide, by decide, by decide,
    five_skipped_outcome, by decide, by decide, by decide, by decide⟩

/-- C4, as stated, fails.  Threshold `1`, tolerance `5`: after `update([(0,0,0)])` and
`update([])` identity `0` has count `1` (`missed_once`); `update([(1,0,0)])` matches it and
evicts nothing (`missed_then_matched`), the count staying `1`.  In the next call `update([])`,
one unmatched call after the match, its count is `2` when the eviction loop starts: no run of
that call leaves identity `0` live. -/
theorem survival_after_match_counterexample :
    evicted missed_once = [] ∧ evicted missed_then_matched = [] ∧
      (0, 0) ∈ matched_pairs missed_once [⟨1, 0, 0, 1⟩] ∧
      missed_then_matched.m_max_dissapeared_frms = 1 ∧
      Unmatched 0 missed_then_matched [] ∧
      ¬ ∃ u, UpdateOutcome gt_by_size missed_then_matched []
          (exact_computed missed_then_matched []) u ∧ 0 ∈ u.m_active_objects.keys := by
  refine ⟨by decide, by decide, by decide, by decide, by decide, ?_⟩
  rintro ⟨u, hu, hk⟩
  have he : evicted (update_branches_with gt_by_size missed_then_matched []
      (exact_computed missed_then_matched [])) = [0] := by decide
  exact CleanupOutcome.first hu he hk

/-- C4, amended. In a state with consistent containers (as every reachable state is), a live
identity whose count is `c` and which is matched in none of `k` consecutive calls of `update`,
with `c + k ≤ m_max_dissapeared_frms`, is live after the last of them, with count `c + k` and
the same value and flag, whatever the distance computations and sorts deliver and whichever
entries the eviction loops reach.  An identity that `update` has just registered has `c = 0`,
so it survives `m_max_dissapeared_frms` consecutive misses; a match leaves `c` as it is. -/
theorem survives_within_threshold (gt : Object → Object → Bool) :
    (∀ (s v : ObjectTracker) (id : ObjectID) (k : Nat),
        Consistent s → id ∈ s.m_active_objects.keys →
        s.m_dissapeared.get id + k ≤ s.m_max_dissapeared_frms → MissedRun gt id s k v →
          id ∈ v.m_active_objects.keys ∧
          v.m_active_objects.find? id = s.m_active_objects.find? id ∧
          v.m_dissapeared.find? id = some (s.m_dissapeared.get id + k) ∧
          v.m_uprooted.find? id = s.m_uprooted.find? id) ∧
      (∀ (s u v : ObjectTracker) (new_objs : List Object) (C : Computed) (id : ObjectID),
        Consistent s → C.Valid s.m_active_objects.size new_objs.length →
        UpdateOutcome gt s new_objs C u → s.m_next_id ≤ id → id < u.m_next_id →
        MissedRun gt id u s.m_max_dissapeared_frms v →
          id ∈ v.m_active_objects.keys) := by
  constructor
  · intro s v id k hs hk hc hr
    exact (hr.survives hs hk hc).2.2
  · intro s u v new_objs C id hs hC hu h1 h2 hr
    obtain ⟨b0, _, b2⟩ := update_outcome_allocated hu hs hC h1 h2
    have hmax := (update_outcome_same hu hs hC).2.1
    have hget : u.m_dissapeared.get id = 0 := get_of_find? b2
    exact (hr.survives (update_outcome_consistent hu hs hC) b0
      (by rw [hget, hmax]; omega)).2.2.1

/-- Witness of C4 amended, at the tracker `fresh_one` (threshold 1, identity `0` with count
`0`) and one call `update([])`, which leaves `missed_once`: identity `0` is live with
count `1`. -/
theorem survives_within_threshold_witness :
    Consistent fresh_one ∧ 0 ∈ fresh_one.m_active_objects.keys ∧
      fresh_one.m_dissapeared.get 0 + 1 ≤ fresh_one.m_max_dissapeared_frms ∧
      MissedRun gt_by_size 0 fresh_one 1 missed_once ∧
      (0 ∈ missed_once.m_active_objects.keys ∧
        missed_once.m_active_objects.find? 0 = fresh_one.m_active_objects.find? 0 ∧
        missed_once.m_dissapeared.find? 0 = some (fresh_one.m_dissapeared.get 0 + 1) ∧
        missed_once.m_uprooted.find? 0 = fresh_one.m_uprooted.find? 0) :=
  ⟨consistent_fresh_one, by decide, by decide, fresh_one_run,
    (survives_within_threshold gt_by_size).1 fresh_one missed_once 0 1 consistent_fresh_one
      (by decide) (by decide) fresh_one_run⟩

/-- C7. Claim exclusivity: in a reachable state, when `top` succeeds twice in a row the two
calls claim different identities: the first sets the flag of an identity `i` from `false` to
`true`, the second that of an identity `j ≠ i`; `top` never picks an identity whose flag is
already set. -/
theorem top_claims_distinct (gt : Object → Object → Bool) (s : ObjectTracker)
    (hs : Reachable gt s) (o1 o2 : Object) (h1 : (top s o1).1 = true)
    (h2 : (top (top s o1).2.2 o2).1 = true) :
    ∃ i j, top_id s = some i ∧ top_id (top s o1).2.2 = some j ∧ i ≠ j ∧
      s.m_uprooted.find? i = some false ∧
      (top s o1).2.2.m_uprooted.find? i = some true ∧
      (top s o1).2.2.m_uprooted.find? j = some false ∧
      (top (top s o1).2.2 o2).2.2.m_uprooted.find? j = some true := by
  have hc := hs.inv.cons
  have hc1 := (inv_top hs.inv o1).cons
  have hsu : s.m_uprooted.keys.Pairwise (fun a b => a < b) := by rw [hc.keys_u]; exact hc.sorted
  have hsu1 : (top s o1).2.2.m_uprooted.keys.Pairwise (fun a b => a < b) := by
    rw [hc1.keys_u]; exact hc1.sorted
  cases hscan : top_scan s.m_uprooted with
  | none => rw [top_of_scan_none o1 (Or.inr hscan)] at h1; cases h1
  | some p =>
    obtain ⟨i, u⟩ := p
    have ht1 := top_of_scan hc o1 hscan
    cases hscan2 : top_scan (top s o1).2.2.m_uprooted with
    | none => rw [top_of_scan_none o2 (Or.inr hscan2)] at h2; cases h2
    | some q =>
      obtain ⟨j, u2⟩ := q
      have ht2 := top_of_scan hc1 o2 hscan2
      obtain ⟨a1, _, a3, _⟩ := top_scan_spec hsu hscan
      obtain ⟨b1, _, b3, _⟩ := top_scan_spec hsu1 hscan2
      have hu : (top s o1).2.2.m_uprooted = u := by rw [ht1]
      have hu2 : (top (top s o1).2.2 o2).2.2.m_uprooted = u2 := by rw [ht2]
      refine ⟨i, j, (top_id_eq_some_iff hc i).2 ⟨u, hscan⟩,
        (top_id_eq_some_iff hc1 j).2 ⟨u2, hscan2⟩, ?_, a1, ?_, b1, ?_⟩
      · intro hij
        rw [hu, ← hij, a3] at b1
        cases b1
      · rw [hu]; exact a3
      · rw [hu2]; exact b3

/-- Witness of C7, at the state `sample_two`. -/
theorem top_claims_distinct_witness :
    Reachable gt_by_size sample_two ∧ (top sample_two default).1 = true ∧
      (top (top sample_two default).2.2 default).1 = true ∧
      ∃ i j, top_id sample_two = some i ∧ top_id (top sample_two default).2.2 = some j ∧ i ≠ j ∧
        sample_two.m_uprooted.find? i = some false ∧
        (top sample_two default).2.2.m_uprooted.find? i = some true ∧
        (top sample_two default).2.2.m_uprooted.find? j = some false ∧
        (top (top sample_two default).2.2 default).2.2.m_uprooted.find? j = some true :=
  ⟨reachable_sample_two, by decide, by decide,
    top_claims_distinct gt_by_size sample_two reachable_sample_two default default
      (by decide) (by decide)⟩

/-- C8. Selection of `top`: in a reachable state with a live identity whose flag is `false`,
`top` returns `true` and the current value of the identity `i` that is the least of the
unclaimed ones; afterwards the flag of `i` is `true`, and every other flag, every value, every
count and `m_id_list` are unchanged. -/
theorem top_selects_least_unclaimed (gt : Object → Object → Bool) (s : ObjectTracker)
    (hs : Reachable gt s) (to_ret : Object)
    (hex : ∃ k, k ∈ s.m_active_objects.keys ∧ s.m_uprooted.find? k = some false) :
    ∃ i, i ∈ s.m_active_objects.keys ∧ s.m_uprooted.find? i = some false ∧
      (∀ j, s.m_uprooted.find? j = some false → i ≤ j) ∧
      (top s to_ret).1 = true ∧
      s.m_active_objects.find? i = some (top s to_ret).2.1 ∧
      (top s to_ret).2.2.m_uprooted.find? i = some true ∧
      (∀ j, j ≠ i → (top s to_ret).2.2.m_uprooted.find? j = s.m_uprooted.find? j) ∧
      (top s to_ret).2.2.m_uprooted.keys = s.m_uprooted.keys ∧
      (top s to_ret).2.2.m_active_objects = s.m_active_objects ∧
      (top s to_ret).2.2.m_dissapeared = s.m_dissapeared ∧
      (top s to_ret).2.2.m_id_list = s.m_id_list ∧
      (top s to_ret).2.2.m_next_id = s.m_next_id := by
  have hc := hs.inv.cons
  have hsu : s.m_uprooted.keys.Pairwise (fun a b => a < b) := by rw [hc.keys_u]; exact hc.sorted
  obtain ⟨k0, _, hk0⟩ := hex
  cases hscan : top_scan s.m_uprooted with
  | none =>
    have := (top_scan_eq_none_iff _).1 hscan (k0, false) (StdMap.find?_mem hk0)
    cases this
  | some p =>
    obtain ⟨k, u⟩ := p
    obtain ⟨a1, a2, a3, a4⟩ := top_scan_spec hsu hscan
    have hk : k ∈ s.m_active_objects.keys := by rw [← hc.keys_u]; exact (top_scan_some hscan).2
    rw [top_of_scan hc to_ret hscan]
    refine ⟨k, hk, a1, ?_, rfl, StdMap.find?_get hk, a3, a4, (top_scan_some hscan).1,
      rfl, rfl, rfl, rfl⟩
    intro j hj
    exact Nat.le_of_not_lt (fun hlt => a2 j hlt hj)

/-- Witness of C8, at the state `sample_two`. -/
theorem top_selects_least_unclaimed_witness :
    Reachable gt_by_size sample_two ∧
      (∃ k, k ∈ sample_two.m_active_objects.keys ∧ sample_two.m_uprooted.find? k = some false) ∧
      ∃ i, i ∈ sample_two.m_active_objects.keys ∧ sample_two.m_uprooted.find? i = some false ∧
        (∀ j, sample_two.m_uprooted.find? j = some false → i ≤ j) ∧
        (top sample_two default).1 = true ∧
        sample_two.m_active_objects.find? i = some (top sample_two default).2.1 ∧
        (top sample_two default).2.2.m_uprooted.find? i = some true ∧
        (∀ j, j ≠ i →
          (top sample_two default).2.2.m_uprooted.find? j = sample_two.m_uprooted.find? j) ∧
        (top sample_two default).2.2.m_uprooted.keys = sample_two.m_uprooted.keys ∧
        (top sample_two default).2.2.m_active_objects = sample_two.m_active_objects ∧
        (top sample_two default).2.2.m_dissapeared = sample_two.m_dissapeared ∧
        (top sample_two default).2.2.m_id_list = sample_two.m_id_list ∧
        (top sample_two default).2.2.m_next_id = sample_two.m_next_id :=
  ⟨reachable_sample_two, ⟨0, by decide, by decide⟩,
    top_selects_least_unclaimed gt_by_size sample_two reachable_sample_two default
      ⟨0, by decide, by decide⟩⟩

/-- C9. `top` returns `false` exactly when the registry is empty or every live identity is
claimed, and then it changes neither the tracker nor the output parameter. -/
theorem top_none_iff (gt : Object → Object → Bool) (s : ObjectTracker) (hs : Reachable gt s)
    (to_ret : Object) :
    ((top s to_ret).1 = false ↔
        (object_count s = 0 ∨
          ∀ id, id ∈ s.m_active_objects.keys → s.m_uprooted.find? id = some true)) ∧
      ((top s to_ret).1 = false → top s to_ret = (false, to_ret, s)) := by
  have hc := hs.inv.cons
  have hsu : s.m_uprooted.keys.Pairwise (fun a b => a < b) := by rw [hc.keys_u]; exact hc.sorted
  cases hscan : top_scan s.m_uprooted with
  | none =>
    have ht := top_of_scan_none to_ret (Or.inr hscan : object_count s = 0 ∨ _)
    rw [ht]
    refine ⟨⟨fun _ => Or.inr ?_, fun _ => rfl⟩, fun _ => rfl⟩
    intro id hid
    rw [← hc.keys_u] at hid
    have := (StdMap.find?_isSome_iff s.m_uprooted id).2 hid
    cases hf : s.m_uprooted.find? id with
    | none => rw [hf] at this; cases this
    | some b =>
      have hb := (top_scan_eq_none_iff _).1 hscan (id, b) (StdMap.find?_mem hf)
      simp only at hb
      rw [hb]
  | some p =>
    obtain ⟨k, u⟩ := p
    obtain ⟨a1, _, _, _⟩ := top_scan_spec hsu hscan
    have hk : k ∈ s.m_active_objects.keys := by rw [← hc.keys_u]; exact (top_scan_some hscan).2
    rw [top_of_scan hc to_ret hscan]
    constructor
    · constructor
      · intro h; cases h
      · rintro (h0 | hall)
        · simp only [object_count, StdMap.size, List.length_eq_zero] at h0
          rw [h0] at hk; cases hk
        · have := hall k hk
          rw [a1] at this; cases this
    · intro h; cases h

/-- Witness of C9, at the state `sample_two` after two calls of `top`. -/
theorem top_none_iff_witness :
    Reachable gt_by_size (top (top sample_two default).2.2 default).2.2 ∧
      (((top (top (top sample_two default).2.2 default).2.2 default).1 = false ↔
          (object_count (top (top sample_two default).2.2 default).2.2 = 0 ∨
            ∀ id, id ∈ (top (top sample_two default).2.2 default).2.2.m_active_objects.keys →
              (top (top sample_two default).2.2 default).2.2.m_uprooted.find? id = some true)) ∧
        ((top (top (top sample_two default).2.2 default).2.2 default).1 = false →
          top (top (top sample_two default).2.2 default).2.2 default =
            (false, default, (top (top sample_two default).2.2 default).2.2))) :=
  ⟨Reachable.top _ (Reachable.top _ reachable_sample_two),
    top_none_iff gt_by_size _ (Reachable.top _ (Reachable.top _ reachable_sample_two)) default⟩

/-- C10. The doc comment of `top` promises the largest object by `operator>`, but `top` returns
the oldest unclaimed one: after `update([a, b])` on the empty tracker with `b > a`, `top`
returns `a` although the live object `b` is greater. -/
theorem top_returns_oldest_not_largest (gt : Object → Object → Bool) (distTol : Tolerance)
    (max_frms : Nat) (first_id : ObjectID) (a b to_ret : Object) (h : gt b a = true) :
    (top (update gt (ObjectTracker.init distTol max_frms first_id) [a, b]) to_ret).1 = true ∧
      (top (update gt (ObjectTracker.init distTol max_frms first_id) [a, b]) to_ret).2.1 = a ∧
      (update gt (ObjectTracker.init distTol max_frms first_id) [a, b]).m_active_objects.find?
        (first_id + 1) = some b ∧
      gt b (top (update gt (ObjectTracker.init distTol max_frms first_id) [a, b]) to_ret).2.1
        = true := by
  have e : update gt (ObjectTracker.init distTol max_frms first_id) [a, b] =
      { m_dist_tol := distTol
        m_max_dissapeared_frms := max_frms
        m_next_id := first_id + 2
        m_active_objects := [(first_id, a), (first_id + 1, b)]
        m_uprooted := [(first_id, false), (first_id + 1, false)]
        m_dissapeared := [(first_id, 0), (first_id + 1, 0)]
        m_id_list := if gt a b then [first_id, first_id + 1] else [first_id + 1, first_id] } := by
    have e1 : (register_object gt (ObjectTracker.init distTol max_frms first_id) a).2 =
        { m_dist_tol := distTol
          m_max_dissapeared_frms := max_frms
          m_next_id := first_id + 1
          m_active_objects := [(first_id, a)]
          m_uprooted := [(first_id, false)]
          m_dissapeared := [(first_id, 0)]
          m_id_list := [first_id] } := rfl
    have e3 : update gt (ObjectTracker.init distTol max_frms first_id) [a, b] =
        cleanup_dissapeared (register_object gt
          (register_object gt (ObjectTracker.init distTol max_frms first_id) a).2 b).2 := rfl
    rw [e3, e1]
    by_cases hg : gt a b = true <;>
      simp [register_object, insert_sorted, StdMap.touch, StdMap.insert_or_assign,
        cleanup_dissapeared, StdMap.get, StdMap.find?, hg]
  rw [e]
  simp [top, object_count, StdMap.size, top_scan, StdMap.get, StdMap.find?, h]

/-- Witness of C10: with `operator>` comparing sizes, `a = (0,0,0)` of size 1 and
`b = (100,0,0)` of size 2. -/
theorem top_returns_oldest_not_largest_witness :
    gt_by_size ⟨100, 0, 0, 2⟩ ⟨0, 0, 0, 1⟩ = true ∧
      ((top (update gt_by_size (ObjectTracker.init ⟨5, 1⟩ 2 0)
          [⟨0, 0, 0, 1⟩, ⟨100, 0, 0, 2⟩]) default).1 = true ∧
        (top (update gt_by_size (ObjectTracker.init ⟨5, 1⟩ 2 0)
          [⟨0, 0, 0, 1⟩, ⟨100, 0, 0, 2⟩]) default).2.1 = ⟨0, 0, 0, 1⟩ ∧
        (update gt_by_size (ObjectTracker.init ⟨5, 1⟩ 2 0)
          [⟨0, 0, 0, 1⟩, ⟨100, 0, 0, 2⟩]).m_active_objects.find? (0 + 1) =
            some ⟨100, 0, 0, 2⟩ ∧
        gt_by_size ⟨100, 0, 0, 2⟩
          (top (update gt_by_size (ObjectTracker.init ⟨5, 1⟩ 2 0)
            [⟨0, 0, 0, 1⟩, ⟨100, 0, 0, 2⟩]) default).2.1 = true) :=
  ⟨by decide,
    top_returns_oldest_not_largest gt_by_size ⟨5, 1⟩ 2 0 ⟨0, 0, 0, 1⟩ ⟨100, 0, 0, 2⟩ default
      (by decide)⟩

/-! ## The claims on registration and deregistration -/

/-- C11, as stated, fails: with `operator>` comparing sizes and `A`, `B`, `C` of sizes 1, 2, 3,
`update([C, A, B])` on the empty tracker makes `active_objects()` return `C, B, A`, not
`A, B, C`. -/
theorem registration_order_counterexample :
    ¬ ∀ (gt : Object → Object → Bool) (A B C : Object),
      gt B A = true → gt C B = true → gt C A = true →
      gt A B = false → gt B C = false → gt A C = false →
        (active_objects (update gt (ObjectTracker.init ⟨5, 1⟩ 2 0) [C, A, B])).1 = [A, B, C] := by
  intro h
  have h1 := h gt_by_size ⟨0, 0, 0, 1⟩ ⟨0, 0, 0, 2⟩ ⟨0, 0, 0, 3⟩
    (by decide) (by decide) (by decide) (by decide) (by decide) (by decide)
  revert h1
  decide

/-- C11, amended. For three objects with `C > B > A` (so `C > A`, and not `A > B`), registering
them into an empty tracker in the order `C, A, B`, by `register_object` or by one
`update([C, A, B])`, makes `active_objects()` return them in the order `C, B, A`: greatest
first. -/
theorem registration_order_descending (gt : Object → Object → Bool) (distTol : Tolerance)
    (max_frms : Nat) (first_id : ObjectID) (A B C : Object) (hCA : gt C A = true)
    (hCB : gt C B = true) (hAB : gt A B = false) :
    (active_objects (register_object gt (register_object gt
      (register_object gt (ObjectTracker.init distTol max_frms first_id) C).2 A).2 B).2).1 =
        [C, B, A] ∧
    (active_objects (update gt (ObjectTracker.init distTol max_frms first_id) [C, A, B])).1 =
      [C, B, A] := by
  rw [update_three, register_three gt distTol max_frms first_id A B C hCA hCB hAB]
  constructor
  · exact active_objects_three distTol max_frms first_id A B C
  · have e : cleanup_dissapeared
        { m_dist_tol := distTol
          m_max_dissapeared_frms := max_frms
          m_next_id := first_id + 3
          m_active_objects := [(first_id, C), (first_id + 1, A), (first_id + 2, B)]
          m_uprooted := [(first_id, false), (first_id + 1, false), (first_id + 2, false)]
          m_dissapeared := [(first_id, 0), (first_id + 1, 0), (first_id + 2, 0)]
          m_id_list := [first_id, first_id + 2, first_id + 1] } =
        { m_dist_tol := distTol
          m_max_dissapeared_frms := max_frms
          m_next_id := first_id + 3
          m_active_objects := [(first_id, C), (first_id + 1, A), (first_id + 2, B)]
          m_uprooted := [(first_id, false), (first_id + 1, false), (first_id + 2, false)]
          m_dissapeared := [(first_id, 0), (first_id + 1, 0), (first_id + 2, 0)]
          m_id_list := [first_id, first_id + 2, first_id + 1] } := by
      simp [cleanup_dissapeared]
    rw [e]
    exact active_objects_three distTol max_frms first_id A B C

/-- Witness of C11 amended: `operator>` comparing sizes, `A`, `B`, `C` of sizes 1, 2, 3. -/
theorem registration_order_descending_witness :
    gt_by_size ⟨0, 0, 0, 3⟩ ⟨0, 0, 0, 1⟩ = true ∧ gt_by_size ⟨0, 0, 0, 3⟩ ⟨0, 0, 0, 2⟩ = true ∧
      gt_by_size ⟨0, 0, 0, 1⟩ ⟨0, 0, 0, 2⟩ = false ∧
      ((active_objects (register_object gt_by_size (register_object gt_by_size
          (register_object gt_by_size (ObjectTracker.init ⟨5, 1⟩ 2 0) ⟨0, 0, 0, 3⟩).2
            ⟨0, 0, 0, 1⟩).2 ⟨0, 0, 0, 2⟩).2).1 =
          [⟨0, 0, 0, 3⟩, ⟨0, 0, 0, 2⟩, ⟨0, 0, 0, 1⟩] ∧
        (active_objects (update gt_by_size (ObjectTracker.init ⟨5, 1⟩ 2 0)
          [⟨0, 0, 0, 3⟩, ⟨0, 0, 0, 1⟩, ⟨0, 0, 0, 2⟩])).1 =
          [⟨0, 0, 0, 3⟩, ⟨0, 0, 0, 2⟩, ⟨0, 0, 0, 1⟩]) :=
  ⟨by decide, by decide, by decide,
    registration_order_descending gt_by_size ⟨5, 1⟩ 2 0 ⟨0, 0, 0, 1⟩ ⟨0, 0, 0, 2⟩ ⟨0, 0, 0, 3⟩
      (by decide) (by decide) (by decide)⟩
/-- C12, as stated, fails: `deregister_object` has no error path.  In the reachable state
`sample_two` the id `7` is not live, and `deregister_object(7)` returns with the tracker
unchanged. -/
theorem deregister_unknown_counterexample :
    7 ∉ sample_two.m_active_objects.keys ∧ deregister_object sample_two 7 = sample_two := by
  decide

/-- C12, amended. In a reachable state, `deregister_object(id)` on an id that is not live
(never registered, already deregistered, or evicted) returns normally and leaves the four
containers and `m_next_id` as they are. -/
theorem deregister_not_live_noop (gt : Object → Object → Bool) (s : ObjectTracker)
    (hs : Reachable gt s) (id : ObjectID) (hn : id ∉ s.m_active_objects.keys) :
    deregister_object s id = s :=
  deregister_object_of_not_live hs.inv.cons hn

/-- Witness of C12 amended, at the state `sample_two` and the id `7`. -/
theorem deregister_not_live_noop_witness :
    Reachable gt_by_size sample_two ∧ 7 ∉ sample_two.m_active_objects.keys ∧
      deregister_object sample_two 7 = sample_two :=
  ⟨reachable_sample_two, by decide,
    deregister_not_live_noop gt_by_size sample_two reachable_sample_two 7 (by decide)⟩

/-- C13. In a reachable state, `deregister_object(id)` on a live id removes `id` from
`m_active_objects`, `m_dissapeared`, `m_uprooted` and `m_id_list`; `object_count()` decreases
by one, every other identity keeps its value, count and flag, and `m_id_list` keeps the order
of the other identities. -/
theorem deregister_live_removes (gt : Object → Object → Bool) (s : ObjectTracker)
    (hs : Reachable gt s) (id : ObjectID) (hk : id ∈ s.m_active_objects.keys) :
    (id ∉ (deregister_object s id).m_active_objects.keys ∧
        id ∉ (deregister_object s id).m_dissapeared.keys ∧
        id ∉ (deregister_object s id).m_uprooted.keys ∧
        id ∉ (deregister_object s id).m_id_list) ∧
      object_count (deregister_object s id) + 1 = object_count s ∧
      (∀ j, j ≠ id →
        (deregister_object s id).m_active_objects.find? j = s.m_active_objects.find? j ∧
        (deregister_object s id).m_dissapeared.find? j = s.m_dissapeared.find? j ∧
        (deregister_object s id).m_uprooted.find? j = s.m_uprooted.find? j) ∧
      (deregister_object s id).m_id_list = s.m_id_list.filter (fun j => j != id) ∧
      (deregister_object s id).m_next_id = s.m_next_id := by
  have hc := hs.inv.cons
  have hd := consistent_deregister_object hc id
  have h1 : id ∉ (deregister_object s id).m_active_objects.keys := by
    show id ∉ StdMap.keys (s.m_active_objects.erase id)
    rw [StdMap.keys_erase]
    intro hm
    have := (List.mem_filter.1 hm).2
    simp at this
  refine ⟨⟨h1, ?_, ?_, ?_⟩, ?_, ?_, ?_, rfl⟩
  · rw [hd.keys_d]; exact h1
  · rw [hd.keys_u]; exact h1
  · rw [hd.mem_id_list]; exact h1
  · exact size_erase hc.nodup_keys hk
  · intro j hj
    exact ⟨StdMap.find?_erase_ne _ hj, StdMap.find?_erase_ne _ hj, StdMap.find?_erase_ne _ hj⟩
  · show s.m_id_list.erase id = _
    exact hc.nodup_id_list.erase_eq_filter id

/-- Witness of C13, at the state `sample_two` and the identity `0`. -/
theorem deregister_live_removes_witness :
    Reachable gt_by_size sample_two ∧ 0 ∈ sample_two.m_active_objects.keys ∧
      ((0 ∉ (deregister_object sample_two 0).m_active_objects.keys ∧
          0 ∉ (deregister_object sample_two 0).m_dissapeared.keys ∧
          0 ∉ (deregister_object sample_two 0).m_uprooted.keys ∧
          0 ∉ (deregister_object sample_two 0).m_id_list) ∧
        object_count (deregister_object sample_two 0) + 1 = object_count sample_two ∧
        (∀ j, j ≠ 0 →
          (deregister_object sample_two 0).m_active_objects.find? j =
            sample_two.m_active_objects.find? j ∧
          (deregister_object sample_two 0).m_dissapeared.find? j =
            sample_two.m_dissapeared.find? j ∧
          (deregister_object sample_two 0).m_uprooted.find? j =
            sample_two.m_uprooted.find? j) ∧
        (deregister_object sample_two 0).m_id_list =
          sample_two.m_id_list.filter (fun j => j != 0) ∧
        (deregister_object sample_two 0).m_next_id = sample_two.m_next_id) :=
  ⟨reachable_sample_two, by decide,
    deregister_live_removes gt_by_size sample_two reachable_sample_two 0 (by decide)⟩

/-- C14. Identity freshness: `register_object` returns `m_next_id` and increments it; no call
decrements or resets `m_next_id`; every live id is below `m_next_id`; the new identities of
`update` are allocated by it; and an id allocated by a call is strictly below every id
allocated by a later call, whatever calls (deregistrations and evictions included) come in
between. -/
theorem identity_freshness (gt : Object → Object → Bool) :
    (∀ (s : ObjectTracker) (obj : Object),
        (register_object gt s obj).1 = s.m_next_id ∧
        (register_object gt s obj).2.m_next_id = s.m_next_id + 1) ∧
      (∀ (s : ObjectTracker) (op : Op), Reachable gt s →
        s.m_next_id ≤ (Op.apply gt s op).m_next_id) ∧
      (∀ (s : ObjectTracker) (id : ObjectID), Reachable gt s →
        id ∈ s.m_active_objects.keys → id < s.m_next_id) ∧
      (∀ (s : ObjectTracker) (obj : Object) (id : ObjectID),
        Allocates gt s (Op.register_object obj) id ↔ id = (register_object gt s obj).1) ∧
      (∀ (s : ObjectTracker) (new_objs : List Object) (id : ObjectID), Reachable gt s →
        id ∈ (update gt s new_objs).m_active_objects.keys → id ∉ s.m_active_objects.keys →
          Allocates gt s (Op.update new_objs) id) ∧
      (∀ (s : ObjectTracker) (op : Op) (ops : List Op) (op' : Op) (id id' : ObjectID),
        Reachable gt s → Allocates gt s op id →
        Allocates gt (run_ops gt (Op.apply gt s op) ops) op' id' → id < id') := by
  refine ⟨register_object_next gt, fun s op hs => apply_next gt hs.inv.cons op,
    fun s id hs hk => hs.inv.cons.fresh id hk, ?_, ?_, ?_⟩
  · intro s obj id
    unfold Allocates
    show s.m_next_id ≤ id ∧ id < s.m_next_id + 1 ↔ id = s.m_next_id
    constructor
    · rintro ⟨h1, h2⟩
      exact Nat.le_antisymm (Nat.le_of_lt_succ h2) h1
    · intro h
      rw [h]
      exact ⟨Nat.le_refl _, Nat.lt_succ_self _⟩
  · intro s new_objs id hs hk hn
    have hi := inv_update gt hs.inv.cons new_objs
    refine ⟨?_, hi.cons.fresh id hk⟩
    by_contra hlt
    exact hn (by
      by_contra hn'
      exact update_not_live gt hs.inv.cons new_objs (Nat.lt_of_not_le hlt) hn' hk)
  · intro s op ops op' id id' hs h1 h2
    have hm := run_ops_next gt ops (inv_apply gt s op hs.inv)
    exact Nat.lt_of_lt_of_le h1.2 (Nat.le_trans hm h2.1)

/-- Witness of C14, at the state `sample_two`: `register_object` allocates `2`, and after
`deregister_object(2)` the call `update([(50,50,0)])` allocates `3`. -/
theorem identity_freshness_witness :
    Reachable gt_by_size sample_two ∧
      Allocates gt_by_size sample_two (Op.register_object ⟨7, 7, 7, 7⟩) 2 ∧
      Allocates gt_by_size
        (run_ops gt_by_size (Op.apply gt_by_size sample_two (Op.register_object ⟨7, 7, 7, 7⟩))
          [Op.deregister_object 2])
        (Op.update [⟨50, 50, 0, 1⟩]) 3 ∧
      2 < 3 :=
  ⟨reachable_sample_two, by decide, by decide,
    (identity_freshness gt_by_size).2.2.2.2.2 sample_two (Op.register_object ⟨7, 7, 7, 7⟩)
      [Op.deregister_object 2] (Op.update [⟨50, 50, 0, 1⟩]) 2 3 reachable_sample_two
      (by decide) (by decide)⟩

/-- C16. Empty-registry branch: in a reachable state with no live identity, `update(frame)`
with a non-empty frame of `n` detections registers every detection in input order: afterwards
`object_count() == n`, the new ids are the `n` consecutive ids from `m_next_id` on, and the
identity of the `j`-th detection has that detection's value, count `0` and flag `false`. -/
theorem update_empty_registry (gt : Object → Object → Bool) (s : ObjectTracker)
    (hs : Reachable gt s) (new_objs : List Object) (h0 : object_count s = 0)
    (hn : new_objs ≠ []) :
    object_count (update gt s new_objs) = new_objs.length ∧
      (update gt s new_objs).m_active_objects.keys = List.range' s.m_next_id new_objs.length ∧
      (update gt s new_objs).m_next_id = s.m_next_id + new_objs.length ∧
      (∀ j, j < new_objs.length →
        (update gt s new_objs).m_active_objects.find? (s.m_next_id + j) =
          some (new_objs.getD j default) ∧
        (update gt s new_objs).m_dissapeared.find? (s.m_next_id + j) = some 0 ∧
        (update gt s new_objs).m_uprooted.find? (s.m_next_id + j) = some false) ∧
      (update gt s new_objs).m_active_objects = StdMap.consecutive s.m_next_id new_objs := by
  have hc := hs.inv.cons
  have h0' : s.m_active_objects = [] := List.length_eq_zero.1 h0
  have e := update_empty_registry_eq gt hc new_objs h0' hn
  have e1 : (update gt s new_objs).m_active_objects = StdMap.consecutive s.m_next_id new_objs := by
    rw [e]
  have e2 : (update gt s new_objs).m_uprooted =
      StdMap.consecutive s.m_next_id (new_objs.map (fun _ => false)) := by rw [e]
  have e3 : (update gt s new_objs).m_dissapeared =
      StdMap.consecutive s.m_next_id (new_objs.map (fun _ => 0)) := by rw [e]
  have e4 : (update gt s new_objs).m_next_id = s.m_next_id + new_objs.length := by rw [e]
  refine ⟨?_, ?_, e4, ?_, e1⟩
  · unfold object_count StdMap.size
    rw [e1, length_consecutive]
  · rw [e1, keys_consecutive]
  · intro j hj
    rw [e1, e2, e3]
    refine ⟨?_, ?_, ?_⟩
    · rw [find?_consecutive _ _ _ hj]
      exact getElem?_eq_some_getD _ _ hj
    · rw [find?_consecutive _ _ _ (by simpa using hj)]
      simp [hj]
    · rw [find?_consecutive _ _ _ (by simpa using hj)]
      simp [hj]

/-- Witness of C16: the empty tracker and the frame `[(0,0,0), (100,0,0)]`. -/
theorem update_empty_registry_witness :
    Reachable gt_by_size (ObjectTracker.init ⟨5, 1⟩ 2 0) ∧
      object_count (ObjectTracker.init ⟨5, 1⟩ 2 0) = 0 ∧
      ([⟨0, 0, 0, 1⟩, ⟨100, 0, 0, 2⟩] : List Object) ≠ [] ∧
      (object_count (update gt_by_size (ObjectTracker.init ⟨5, 1⟩ 2 0)
          [⟨0, 0, 0, 1⟩, ⟨100, 0, 0, 2⟩]) =
          ([⟨0, 0, 0, 1⟩, ⟨100, 0, 0, 2⟩] : List Object).length ∧
        (update gt_by_size (ObjectTracker.init ⟨5, 1⟩ 2 0)
          [⟨0, 0, 0, 1⟩, ⟨100, 0, 0, 2⟩]).m_active_objects =
          StdMap.consecutive (ObjectTracker.init ⟨5, 1⟩ 2 0).m_next_id
            [⟨0, 0, 0, 1⟩, ⟨100, 0, 0, 2⟩]) :=
  ⟨Reachable.init _ _ _, by decide, by decide,
    (update_empty_registry gt_by_size (ObjectTracker.init ⟨5, 1⟩ 2 0) (Reachable.init _ _ _)
      [⟨0, 0, 0, 1⟩, ⟨100, 0, 0, 2⟩] (by decide) (by decide)).1,
    (update_empty_registry gt_by_size (ObjectTracker.init ⟨5, 1⟩ 2 0) (Reachable.init _ _ _)
      [⟨0, 0, 0, 1⟩, ⟨100, 0, 0, 2⟩] (by decide) (by decide)).2.2.2.2⟩

/-- C17. General-case bookkeeping: in a reachable state with at least one live identity, for a
non-empty frame, before `cleanup_dissapeared`: no identity and no detection occurs in two
matched pairs; a matched identity has the value of its detection and its old count; an
unmatched identity keeps its value and has its count incremented by one; every detection in no
matched pair is registered once, as a new identity with consecutive ids from `m_next_id` on,
count `0` and flag `false`; and the number of live identities is `m + n - k`. -/
theorem update_general_bookkeeping (gt : Object → Object → Bool) (s : ObjectTracker)
    (hs : Reachable gt s) (new_objs : List Object) (h1 : new_objs ≠ [])
    (h2 : s.m_active_objects ≠ []) :
    ((matched_pairs s new_objs).map Prod.fst).Nodup ∧
      ((matched_pairs s new_objs).map Prod.snd).Nodup ∧
      (∀ id c, (id, c) ∈ matched_pairs s new_objs →
        id ∈ s.m_active_objects.keys ∧ c < new_objs.length ∧
        (update_branches gt s new_objs).m_active_objects.find? id =
          some (new_objs.getD c default) ∧
        (update_branches gt s new_objs).m_dissapeared.find? id = s.m_dissapeared.find? id) ∧
      (∀ id, id ∈ s.m_active_objects.keys → Unmatched id s new_objs →
        (update_branches gt s new_objs).m_active_objects.find? id =
          s.m_active_objects.find? id ∧
        (update_branches gt s new_objs).m_dissapeared.find? id =
          some (s.m_dissapeared.get id + 1)) ∧
      ((unmatched_cols s new_objs).Nodup ∧
        ∀ x, x ∈ unmatched_cols s new_objs ↔
          (x < new_objs.length ∧ x ∉ (matched_pairs s new_objs).map Prod.snd)) ∧
      ((update_branches gt s new_objs).m_active_objects.keys =
          s.m_active_objects.keys ++
            List.range' s.m_next_id (unmatched_cols s new_objs).length ∧
        ∀ j, j < (unmatched_cols s new_objs).length →
          (update_branches gt s new_objs).m_active_objects.find? (s.m_next_id + j) =
            some (new_objs.getD ((unmatched_cols s new_objs).getD j 0) default) ∧
          (update_branches gt s new_objs).m_dissapeared.find? (s.m_next_id + j) = some 0 ∧
          (update_branches gt s new_objs).m_uprooted.find? (s.m_next_id + j) = some false) ∧
      object_count (update_branches gt s new_objs) + (matched_pairs s new_objs).length =
        object_count s + new_objs.length ∧
      update gt s new_objs = cleanup_dissapeared (update_branches gt s new_objs) := by
  have hc := hs.inv.cons
  have h1' : new_objs.length ≠ 0 := fun h => h1 (List.length_eq_zero.1 h)
  have h2' : s.m_active_objects.size ≠ 0 := fun h => h2 (List.length_eq_zero.1 h)
  have hP := matched_pairs_eq h1' h2'
  have hb := update_branches_general gt h1' h2'
  obtain ⟨u1, u2, _⟩ := unmatched_cols_spec new_objs h2'
  refine ⟨?_, ?_, ?_, ?_, ⟨u1, ?_⟩, ⟨?_, ?_⟩, ?_, rfl⟩
  · rw [hP]; exact match_loop_nodup_fst hc new_objs
  · rw [hP]; exact match_loop_nodup_snd s new_objs
  · intro id c hm
    obtain ⟨a0, a1, a2, _⟩ := update_branches_matched gt hc new_objs hm
    rw [hP] at hm
    exact ⟨a0, (match_loop_assigned new_objs hm).2.1, a1, a2⟩
  · intro id hk hu
    obtain ⟨a1, a2, _⟩ := update_branches_unmatched gt hc new_objs hk hu
    exact ⟨a1, a2⟩
  · intro x
    rw [hP]; exact u2 x
  · rw [hb, (update_general_maps gt hc new_objs).1]
    show StdMap.keys (_ ++ _) = _
    unfold StdMap.keys
    rw [List.map_append]
    have k1 := (match_loop_keys hc new_objs).1
    have k2 := keys_consecutive s.m_next_id
      ((unmatched_cols s new_objs).map (fun x => new_objs.getD x default))
    unfold StdMap.keys at k1 k2
    rw [k1, k2, List.length_map]
  · intro j hj
    rw [hb]
    exact update_general_new gt hc new_objs hj
  · rw [hb, hP]
    exact update_general_count gt hc new_objs h2'

/-- Witness of C17, at the state `sample_two` and the frame `[(1,0,0), (200,0,0)]`. -/
theorem update_general_bookkeeping_witness :
    Reachable gt_by_size sample_two ∧
      ([⟨1, 0, 0, 1⟩, ⟨200, 0, 0, 1⟩] : List Object) ≠ [] ∧ sample_two.m_active_objects ≠ [] ∧
      object_count (update_branches gt_by_size sample_two [⟨1, 0, 0, 1⟩, ⟨200, 0, 0, 1⟩]) +
          (matched_pairs sample_two [⟨1, 0, 0, 1⟩, ⟨200, 0, 0, 1⟩]).length =
        object_count sample_two + ([⟨1, 0, 0, 1⟩, ⟨200, 0, 0, 1⟩] : List Object).length :=
  ⟨reachable_sample_two, by decide, by decide,
    (update_general_bookkeeping gt_by_size sample_two reachable_sample_two
      [⟨1, 0, 0, 1⟩, ⟨200, 0, 0, 1⟩] (by decide) (by decide)).2.2.2.2.2.2.1⟩

/-- C18. Spec scenario: in a reachable state with tolerance 5 whose live identities are exactly
`i0` at (0,0,0) and `i1` at (100,0,0), with the count of `i1` below the threshold (two fresh
identities and a threshold of at least 1), `update([(1,0,0), (200,0,0)])` leaves exactly three
live identities: `i0` at (1,0,0) with its count unchanged, `i1` still at (100,0,0) with its
count incremented by one, and the new identity `m_next_id` at (200,0,0) with count `0` and
flag `false`; this holds for either order of `i0` and `i1` in `m_id_list`. -/
theorem scenario_two_identities (gt : Object → Object → Bool) (s : ObjectTracker)
    (hs : Reachable gt s) (i0 i1 : ObjectID) (s0 s1 t0 t1 : Int) (c0 c1 : Nat)
    (htol : s.m_dist_tol = ⟨5, 1⟩)
    (hkeys : ∀ id, id ∈ s.m_active_objects.keys ↔ id = i0 ∨ id = i1) (hne : i0 ≠ i1)
    (h0 : s.m_active_objects.find? i0 = some ⟨0, 0, 0, s0⟩)
    (h1 : s.m_active_objects.find? i1 = some ⟨100, 0, 0, s1⟩)
    (hc0 : s.m_dissapeared.find? i0 = some c0) (hc1 : s.m_dissapeared.find? i1 = some c1)
    (hmax : c1 + 1 ≤ s.m_max_dissapeared_frms) :
    object_count (update gt s [⟨1, 0, 0, t0⟩, ⟨200, 0, 0, t1⟩]) = 3 ∧
      (∀ id, id ∈ (update gt s [⟨1, 0, 0, t0⟩, ⟨200, 0, 0, t1⟩]).m_active_objects.keys ↔
        id = i0 ∨ id = i1 ∨ id = s.m_next_id) ∧
      ((update gt s [⟨1, 0, 0, t0⟩, ⟨200, 0, 0, t1⟩]).m_active_objects.find? i0 =
          some ⟨1, 0, 0, t0⟩ ∧
        (update gt s [⟨1, 0, 0, t0⟩, ⟨200, 0, 0, t1⟩]).m_dissapeared.find? i0 = some c0) ∧
      ((update gt s [⟨1, 0, 0, t0⟩, ⟨200, 0, 0, t1⟩]).m_active_objects.find? i1 =
          some ⟨100, 0, 0, s1⟩ ∧
        (update gt s [⟨1, 0, 0, t0⟩, ⟨200, 0, 0, t1⟩]).m_dissapeared.find? i1 =
          some (c1 + 1)) ∧
      ((update gt s [⟨1, 0, 0, t0⟩, ⟨200, 0, 0, t1⟩]).m_active_objects.find? s.m_next_id =
          some ⟨200, 0, 0, t1⟩ ∧
        (update gt s [⟨1, 0, 0, t0⟩, ⟨200, 0, 0, t1⟩]).m_dissapeared.find? s.m_next_id =
          some 0 ∧
        (update gt s [⟨1, 0, 0, t0⟩, ⟨200, 0, 0, t1⟩]).m_uprooted.find? s.m_next_id =
          some false) := by
  have hc := hs.inv.cons
  obtain ⟨e00, e01, e10, e11⟩ := scenario_distances s0 s1 t0 t1
  obtain ⟨l1, l2, l3, l4⟩ := scenario_tolerances
  have hk0 : i0 ∈ s.m_active_objects.keys := (hkeys i0).2 (Or.inl rfl)
  have hk1 : i1 ∈ s.m_active_objects.keys := (hkeys i1).2 (Or.inr rfl)
  have g0 := get_of_find? h0
  have g1 := get_of_find? h1
  have gc0 := get_of_find? hc0
  have gc1 := get_of_find? hc1
  have hn1 : ([⟨1, 0, 0, t0⟩, ⟨200, 0, 0, t1⟩] : List Object).length ≠ 0 := by simp
  have hlen : ([⟨1, 0, 0, t0⟩, ⟨200, 0, 0, t1⟩] : List Object).length = 2 := rfl
  have hn2 : s.m_active_objects.size ≠ 0 := by
    intro h
    rw [List.length_eq_zero.1 h] at hk0
    cases hk0
  have d0 : ([⟨1, 0, 0, t0⟩, ⟨200, 0, 0, t1⟩] : List Object).getD 0 default = ⟨1, 0, 0, t0⟩ := rfl
  have d1 : ([⟨1, 0, 0, t0⟩, ⟨200, 0, 0, t1⟩] : List Object).getD 1 default = ⟨200, 0, 0, t1⟩ :=
    rfl
  -- the row processed first is that of `i0`, and its nearest column is `0`
  have hF := @first_row_lt s [⟨1, 0, 0, t0⟩, ⟨200, 0, 0, t1⟩] hn2
  have hidF := hc.getD_mem hF
  have hcF := nearest_col_lt (s := s) hn1 hF
  have hmin := first_row_global_min hc hn1 hn2 hk0 (j := 0) (by rw [hlen]; exact Nat.zero_lt_two)
  rw [g0, d0, e00] at hmin
  have hpair : s.m_id_list.getD (first_row s [⟨1, 0, 0, t0⟩, ⟨200, 0, 0, t1⟩]) 0 = i0 ∧
      nearest_col s [⟨1, 0, 0, t0⟩, ⟨200, 0, 0, t1⟩]
        (first_row s [⟨1, 0, 0, t0⟩, ⟨200, 0, 0, t1⟩]) = 0 := by
    rw [hlen] at hcF
    rcases (hkeys _).1 hidF with hi | hi
    · refine ⟨hi, ?_⟩
      rw [hi, g0] at hmin
      rcases Nat.lt_or_ge (nearest_col s [⟨1, 0, 0, t0⟩, ⟨200, 0, 0, t1⟩]
        (first_row s [⟨1, 0, 0, t0⟩, ⟨200, 0, 0, t1⟩])) 1 with hlt | hge
      · exact Nat.lt_one_iff.1 hlt
      · have h1c : nearest_col s [⟨1, 0, 0, t0⟩, ⟨200, 0, 0, t1⟩]
            (first_row s [⟨1, 0, 0, t0⟩, ⟨200, 0, 0, t1⟩]) = 1 :=
          Nat.le_antisymm (Nat.le_of_lt_succ hcF) hge
        rw [h1c, d1, e01] at hmin
        exact absurd hmin (by decide)
    · rw [hi, g1] at hmin
      rcases Nat.lt_or_ge (nearest_col s [⟨1, 0, 0, t0⟩, ⟨200, 0, 0, t1⟩]
        (first_row s [⟨1, 0, 0, t0⟩, ⟨200, 0, 0, t1⟩])) 1 with hlt | hge
      · rw [Nat.lt_one_iff.1 hlt, d0, e10] at hmin
        exact absurd hmin (by decide)
      · have h1c : nearest_col s [⟨1, 0, 0, t0⟩, ⟨200, 0, 0, t1⟩]
            (first_row s [⟨1, 0, 0, t0⟩, ⟨200, 0, 0, t1⟩]) = 1 :=
          Nat.le_antisymm (Nat.le_of_lt_succ hcF) hge
        rw [h1c, d1, e11] at hmin
        exact absurd hmin (by decide)
  have hm0 : (i0, 0) ∈ matched_pairs s [⟨1, 0, 0, t0⟩, ⟨200, 0, 0, t1⟩] := by
    have := first_row_matched_pair hc hn1 hn2
      (by rw [hpair.1, hpair.2, g0, d0, e00, htol]; exact l1)
    rw [hpair.1, hpair.2] at this
    exact this
  -- `i1` is matched to nothing
  have hP := matched_pairs_eq (s := s) hn1 hn2
  have hno1 : ∀ c, (i1, c) ∉ matched_pairs s [⟨1, 0, 0, t0⟩, ⟨200, 0, 0, t1⟩] := by
    intro c hm
    rw [hP] at hm
    obtain ⟨_, hc2, ht⟩ := match_loop_assigned _ hm
    rw [g1, htol] at ht
    rw [hlen] at hc2
    rcases Nat.lt_or_ge c 1 with hlt | hge
    · rw [Nat.lt_one_iff.1 hlt, d0, e10, l3] at ht
      cases ht
    · rw [Nat.le_antisymm (Nat.le_of_lt_succ hc2) hge, d1, e11, l4] at ht
      cases ht
  have hu1 : Unmatched i1 s [⟨1, 0, 0, t0⟩, ⟨200, 0, 0, t1⟩] := by
    intro hm
    obtain ⟨p, hp, e⟩ := List.mem_map.1 hm
    obtain ⟨id, c⟩ := p
    simp only at e
    rw [e] at hp
    exact hno1 c hp
  -- every matched pair is `(i0, 0)`
  have hall : ∀ p, p ∈ matched_pairs s [⟨1, 0, 0, t0⟩, ⟨200, 0, 0, t1⟩] → p = (i0, 0) := by
    intro p hp
    have hnd : ((matched_pairs s [⟨1, 0, 0, t0⟩, ⟨200, 0, 0, t1⟩]).map Prod.fst).Nodup := by
      rw [hP]; exact match_loop_nodup_fst hc _
    obtain ⟨id, c⟩ := p
    have hid : id ∈ s.m_active_objects.keys := (update_branches_matched gt hc _ hp).1
    rcases (hkeys id).1 hid with hi | hi
    · rw [hi] at hp ⊢
      exact List.inj_on_of_nodup_map hnd hp hm0 rfl
    · rw [hi] at hp
      exact absurd hp (hno1 c)
  -- the unconsumed columns
  obtain ⟨u1, u2, _⟩ := unmatched_cols_spec (s := s) [⟨1, 0, 0, t0⟩, ⟨200, 0, 0, t1⟩] hn2
  have hcols : unmatched_cols s [⟨1, 0, 0, t0⟩, ⟨200, 0, 0, t1⟩] = [1] := by
    apply eq_singleton_of_nodup u1
    intro x
    rw [u2, ← hP, hlen]
    constructor
    · rintro ⟨hx, hnx⟩
      rcases Nat.lt_or_ge x 1 with hlt | hge
      · exfalso
        apply hnx
        rw [Nat.lt_one_iff.1 hlt]
        exact List.mem_map.2 ⟨(i0, 0), hm0, rfl⟩
      · exact Nat.le_antisymm (Nat.le_of_lt_succ hx) hge
    · intro hx
      rw [hx]
      refine ⟨by decide, ?_⟩
      intro hm
      obtain ⟨p, hp, e⟩ := List.mem_map.1 hm
      rw [hall p hp] at e
      cases e
  -- the tracker before `cleanup_dissapeared`
  have hb := update_branches_general gt (s := s) hn1 hn2
  obtain ⟨_, m1, m2, _⟩ := update_branches_matched gt hc _ hm0
  obtain ⟨n1, n2, _⟩ := update_branches_unmatched gt hc _ hk1 hu1
  have hnew := update_general_new gt hc [⟨1, 0, 0, t0⟩, ⟨200, 0, 0, t1⟩] (j := 0)
    (by rw [hcols]; exact Nat.zero_lt_one)
  rw [← hb, hcols, Nat.add_zero] at hnew
  have hkt := update_general_keys gt hc [⟨1, 0, 0, t0⟩, ⟨200, 0, 0, t1⟩]
  rw [← hb, hcols] at hkt
  have hkt' : (update_branches gt s [⟨1, 0, 0, t0⟩, ⟨200, 0, 0, t1⟩]).m_active_objects.keys =
      s.m_active_objects.keys ++ [s.m_next_id] := hkt
  have hct := consistent_update_branches gt hc [⟨1, 0, 0, t0⟩, ⟨200, 0, 0, t1⟩]
  obtain ⟨_, hmx, _, _, _⟩ := update_branches_old gt hc [⟨1, 0, 0, t0⟩, ⟨200, 0, 0, t1⟩]
  have hmemt : ∀ id, id ∈ (update_branches gt s
      [⟨1, 0, 0, t0⟩, ⟨200, 0, 0, t1⟩]).m_active_objects.keys ↔
        id = i0 ∨ id = i1 ∨ id = s.m_next_id := by
    intro id
    rw [hkt', List.mem_append, hkeys, List.mem_singleton, or_assoc]
  -- nothing is evicted
  have hev : evicted (update_branches gt s [⟨1, 0, 0, t0⟩, ⟨200, 0, 0, t1⟩]) = [] := by
    apply List.eq_nil_iff_forall_not_mem.2
    intro id he
    obtain ⟨c, hf, hgt⟩ := (mem_evicted_iff hct id).1 he
    rw [hmx] at hgt
    have hid : id ∈ (update_branches gt s
        [⟨1, 0, 0, t0⟩, ⟨200, 0, 0, t1⟩]).m_active_objects.keys := by
      rw [← hct.keys_d]; exact StdMap.mem_keys_of_find? hf
    rcases (hmemt id).1 hid with hi | hi | hi
    · rw [hi, m2, hc0] at hf
      injection hf with hf
      have := hs.inv.bound (i0, c0) (StdMap.find?_mem hc0)
      rw [← hf] at hgt
      exact absurd hgt (Nat.not_lt.2 this)
    · rw [hi, n2, gc1] at hf
      injection hf with hf
      rw [← hf] at hgt
      exact absurd hgt (Nat.not_lt.2 hmax)
    · rw [hi, hnew.2.1] at hf
      injection hf with hf
      rw [← hf] at hgt
      exact absurd hgt (Nat.not_lt_zero _)
  have hup : update gt s [⟨1, 0, 0, t0⟩, ⟨200, 0, 0, t1⟩] =
      update_branches gt s [⟨1, 0, 0, t0⟩, ⟨200, 0, 0, t1⟩] := cleanup_of_evicted_nil hev
  rw [hup]
  refine ⟨?_, hmemt, ⟨?_, ?_⟩, ⟨?_, ?_⟩, ?_⟩
  · have hl : (update_branches gt s [⟨1, 0, 0, t0⟩, ⟨200, 0, 0, t1⟩]).m_active_objects.keys.length
        = 3 := by
      rw [hkt', List.length_append, length_keys_pair hc.nodup_keys hne hkeys]
      rfl
    unfold object_count StdMap.size
    rw [← hl]
    simp [StdMap.keys]
  · rw [m1, d0]
  · rw [m2, hc0]
  · rw [n1, h1]
  · rw [n2, gc1]
  · have e1 : ([1] : List Nat).getD 0 0 = 1 := rfl
    rw [e1, d1] at hnew
    exact hnew

/-- Witness of C18, at the state `sample_two`. -/
theorem scenario_two_identities_witness :
    Reachable gt_by_size sample_two ∧
      object_count (update gt_by_size sample_two [⟨1, 0, 0, 7⟩, ⟨200, 0, 0, 8⟩]) = 3 ∧
      (update gt_by_size sample_two [⟨1, 0, 0, 7⟩, ⟨200, 0, 0, 8⟩]).m_active_objects.find? 0 =
        some ⟨1, 0, 0, 7⟩ ∧
      (update gt_by_size sample_two [⟨1, 0, 0, 7⟩, ⟨200, 0, 0, 8⟩]).m_dissapeared.find? 1 =
        some (0 + 1) :=
  have h := scenario_two_identities gt_by_size sample_two reachable_sample_two 0 1 1 2 7 8 0 0
    (by decide)
    (by
      intro id
      rw [(by decide : sample_two.m_active_objects.keys = [0, 1])]
      simp)
    (by decide) (by decide) (by decide) (by decide) (by decide) (by decide)
  ⟨reachable_sample_two, h.1, h.2.2.1.1, h.2.2.2.1.2⟩

/-- C19, at a failing input (the input of C3).  In `update(five_second_frame)` from
`five_state` (threshold `0`) the entries of the identities `1` and `2` are over the threshold
when `cleanup_dissapeared` starts.  The loop deregisters identity `1` by erasing the entry
under its own iterator; a run that then does not reach the entry of identity `2` is one the
call can leave, and after it identity `2` is live with count `1`, above the threshold, where
the claim says that every live identity has a count within the threshold. -/
theorem eviction_leaves_count_over_threshold :
    UpdateOutcome gt_by_size five_state five_second_frame
        (exact_computed five_state five_second_frame) five_skipped ∧
      five_skipped.m_max_dissapeared_frms = 0 ∧
      2 ∈ five_skipped.m_active_objects.keys ∧
      five_skipped.m_dissapeared.find? 2 = some 1 :=
  ⟨five_skipped_outcome, by decide, by decide, by decide⟩

/-- C20. In a reachable state, `update` does not change the flag of an identity that is live
before and after it.  A single call changes the flag of such an identity only if it is `top`,
and then from `false` to `true`; over any sequence of calls a flag that is `true` is `true`
for as long as the identity is live. -/
theorem update_keeps_claims (gt : Object → Object → Bool) :
    (∀ (s : ObjectTracker) (new_objs : List Object) (id : ObjectID), Reachable gt s →
        id ∈ s.m_active_objects.keys → id ∈ (update gt s new_objs).m_active_objects.keys →
          (update gt s new_objs).m_uprooted.find? id = s.m_uprooted.find? id) ∧
      (∀ (s : ObjectTracker) (op : Op) (id : ObjectID), Reachable gt s →
        id ∈ s.m_active_objects.keys → id ∈ (Op.apply gt s op).m_active_objects.keys →
        (Op.apply gt s op).m_uprooted.find? id ≠ s.m_uprooted.find? id →
          (∃ to_ret, op = Op.top to_ret) ∧ s.m_uprooted.find? id = some false ∧
            (Op.apply gt s op).m_uprooted.find? id = some true) ∧
      (∀ (s : ObjectTracker) (ops : List Op) (id : ObjectID), Reachable gt s →
        s.m_uprooted.find? id = some true →
          ∀ b, (run_ops gt s ops).m_uprooted.find? id = some b → b = true) := by
  have live_of : ∀ (t : ObjectTracker), Consistent t → ∀ id,
      id ∈ t.m_active_objects.keys → t.m_uprooted.find? id ≠ none := by
    intro t ht id hk hn
    rw [StdMap.find?_eq_none_iff, ht.keys_u] at hn
    exact hn hk
  refine ⟨?_, ?_, ?_⟩
  · intro s new_objs id hs hk hk'
    rcases update_flag gt hs.inv.cons new_objs (hs.inv.cons.fresh id hk) with h | h
    · exact h
    · exact absurd h (live_of _ (inv_update gt hs.inv.cons new_objs).cons id hk')
  · intro s op id hs hk hk' hne
    rcases apply_flag gt hs.inv.cons op (hs.inv.cons.fresh id hk) with h | h | h
    · exact absurd h hne
    · exact absurd h (live_of _ (inv_apply gt s op hs.inv).cons id hk')
    · exact h
  · intro s ops id hs
    have key : ∀ (ops : List Op) (t : ObjectTracker), Inv t → id < t.m_next_id →
        (t.m_uprooted.find? id = some true ∨ t.m_uprooted.find? id = none) →
        ∀ b, (run_ops gt t ops).m_uprooted.find? id = some b → b = true := by
      intro ops
      induction ops with
      | nil =>
        intro t _ _ h b hb
        change t.m_uprooted.find? id = some b at hb
        rcases h with h | h
        · rw [h] at hb; injection hb with hb; exact hb.symm
        · rw [h] at hb; cases hb
      | cons op ops ih =>
        intro t ht hlt h b hb
        rw [run_ops_cons] at hb
        refine ih (Op.apply gt t op) (inv_apply gt t op ht)
          (Nat.lt_of_lt_of_le hlt (apply_next gt ht.cons op)) ?_ b hb
        rcases apply_flag gt ht.cons op hlt with h1 | h1 | ⟨_, h1, _⟩
        · rw [h1]; exact h
        · exact Or.inr h1
        · rcases h with h | h
          · rw [h] at h1; cases h1
          · rw [h] at h1; cases h1
    intro h
    have hk : id ∈ s.m_active_objects.keys := by
      rw [← hs.inv.cons.keys_u]; exact StdMap.mem_keys_of_find? h
    exact key ops s hs.inv (hs.inv.cons.fresh id hk) (Or.inl h)

/-- Witness of C20, at the state `sample_two` after `top`: identity `0` is claimed, and stays
claimed through `update([(1,0,0), (200,0,0)])`. -/
theorem update_keeps_claims_witness :
    Reachable gt_by_size (top sample_two default).2.2 ∧
      0 ∈ (top sample_two default).2.2.m_active_objects.keys ∧
      0 ∈ (update gt_by_size (top sample_two default).2.2
        [⟨1, 0, 0, 1⟩, ⟨200, 0, 0, 1⟩]).m_active_objects.keys ∧
      (update gt_by_size (top sample_two default).2.2
          [⟨1, 0, 0, 1⟩, ⟨200, 0, 0, 1⟩]).m_uprooted.find? 0 =
        (top sample_two default).2.2.m_uprooted.find? 0 :=
  ⟨Reachable.top _ reachable_sample_two, by decide, by decide,
    (update_keeps_claims gt_by_size).1 (top sample_two default).2.2
      [⟨1, 0, 0, 1⟩, ⟨200, 0, 0, 1⟩] 0 (Reachable.top _ reachable_sample_two)
      (by decide) (by decide)⟩

/-! ## The claims on ordering and reads -/

/-- C21. Frozen rank: in a reachable state, `update` does not reorder `m_id_list`: the
identities that are in it before and after the call are in the same order after the call as
before, whatever values the call gave them. -/
theorem update_frozen_rank (gt : Object → Object → Bool) (s : ObjectTracker)
    (hs : Reachable gt s) (new_objs : List Object) :
    (update gt s new_objs).m_id_list.filter (fun x => decide (x ∈ s.m_id_list)) =
        s.m_id_list.filter (fun x => decide (x ∈ (update gt s new_objs).m_id_list)) ∧
      (active_objects (update gt s new_objs)).1 =
        (update gt s new_objs).m_id_list.map
          (fun id => (update gt s new_objs).m_active_objects.get id) :=
  ⟨update_order gt hs.inv.cons new_objs,
    by rw [active_objects_eq (inv_update gt hs.inv.cons new_objs).cons]⟩

/-- Witness of C21, at the state `sample_two`, whose `m_id_list` is `[1, 0]` (sizes 2 and 1):
the frame `[(0,0,0) of size 5, (100,0,0) of size 1]` swaps the ranks of the two values, and
`m_id_list` is still `[1, 0]`. -/
theorem update_frozen_rank_witness :
    Reachable gt_by_size sample_two ∧
      sample_two.m_id_list = [1, 0] ∧
      (update gt_by_size sample_two [⟨0, 0, 0, 5⟩, ⟨100, 0, 0, 1⟩]).m_id_list = [1, 0] ∧
      gt_by_size
        ((update gt_by_size sample_two [⟨0, 0, 0, 5⟩, ⟨100, 0, 0, 1⟩]).m_active_objects.get 0)
        ((update gt_by_size sample_two [⟨0, 0, 0, 5⟩, ⟨100, 0, 0, 1⟩]).m_active_objects.get 1)
          = true ∧
      (update gt_by_size sample_two [⟨0, 0, 0, 5⟩, ⟨100, 0, 0, 1⟩]).m_id_list.filter
          (fun x => decide (x ∈ sample_two.m_id_list)) =
        sample_two.m_id_list.filter
          (fun x => decide (x ∈
            (update gt_by_size sample_two [⟨0, 0, 0, 5⟩, ⟨100, 0, 0, 1⟩]).m_id_list)) :=
  ⟨reachable_sample_two, by decide, by decide, by decide,
    (update_frozen_rank gt_by_size sample_two reachable_sample_two
      [⟨0, 0, 0, 5⟩, ⟨100, 0, 0, 1⟩]).1⟩

/-- C22. In a reachable state, `active_objects()` is a pure read: it returns the stored values
`m_active_objects[id]` for the ids of `m_id_list`, in that order, one per live identity, so its
length is `object_count()`, and it leaves the tracker as it is (no entry is created by the
lookups). -/
theorem active_objects_pure (gt : Object → Object → Bool) (s : ObjectTracker)
    (hs : Reachable gt s) :
    (active_objects s).2 = s ∧
      (active_objects s).1 = s.m_id_list.map (fun id => s.m_active_objects.get id) ∧
      (∀ id, id ∈ s.m_id_list →
        s.m_active_objects.find? id = some (s.m_active_objects.get id)) ∧
      (active_objects s).1.length = object_count s ∧
      s.m_id_list.Perm s.m_active_objects.keys := by
  have hc := hs.inv.cons
  rw [active_objects_eq hc]
  refine ⟨rfl, rfl, ?_, ?_, hc.perm⟩
  · intro id hid
    exact StdMap.find?_get ((hc.mem_id_list id).1 hid)
  · show (s.m_id_list.map _).length = _
    rw [List.length_map, hc.length_id_list]
    rfl

/-- Witness of C22, at the state `sample_two`. -/
theorem active_objects_pure_witness :
    Reachable gt_by_size sample_two ∧ (active_objects sample_two).2 = sample_two ∧
      (active_objects sample_two).1 = [⟨100, 0, 0, 2⟩, ⟨0, 0, 0, 1⟩] :=
  ⟨reachable_sample_two, (active_objects_pure gt_by_size sample_two reachable_sample_two).1,
    by decide⟩

/-- C23, as stated, fails: in the state `sample_order` (identity `0` at (0,0,0), identity `1` at
(100,0,0), `m_id_list = [0, 1]`) and the frame (101,0,0), (30,0,0), (60,0,0), the row processed
first is that of identity `1`, whose ascending-distance column order is `0, 2, 1`; the claim
predicts that the first new id receives detection `2`, the code gives it detection `1`. -/
theorem registration_first_row_order_counterexample :
    ¬ ∀ (gt : Object → Object → Bool) (s : ObjectTracker) (new_objs : List Object) (j : Nat),
      Reachable gt s → new_objs ≠ [] → s.m_active_objects ≠ [] →
      j < (unmatched_cols_first_row s new_objs).length →
        (update gt s new_objs).m_active_objects.find? (s.m_next_id + j) =
          some (new_objs.getD ((unmatched_cols_first_row s new_objs).getD j 0) default) := by
  intro h
  have h1 := h gt_by_size sample_order sample_order_frame 0
    (Reachable.update _ (Reachable.init _ _ _)) (by decide) (by decide) (by decide)
  revert h1
  decide

/-- C23, amended. In the general case of `update` (frame and registry non-empty), in a state
with consistent containers (as every reachable state is) and for whatever the distance
computations and the sorts deliver (`C`), the detections left unconsumed by matching are
registered in the column order of row `0` of `sorted_ids`, the row of the identity that is
first in `m_id_list`, not of the row processed first: the unconsumed columns are that row
without the matched columns (so any order that `std::sort` gave the row, such as ascending
computed distance, is kept), they are exactly the detection indices in no matched pair,
`m_next_id` advances by their number, and the `j`-th of them is the value of the identity
`m_next_id + j` when `update` returns. -/
theorem registration_row_zero_order (gt : Object → Object → Bool) (s : ObjectTracker)
    (hs : Consistent s) (new_objs : List Object) (C : Computed)
    (hC : C.Valid s.m_active_objects.size new_objs.length) (h1 : new_objs ≠ [])
    (h2 : s.m_active_objects ≠ []) :
    unmatched_cols_with s new_objs C =
        (C.sorted_ids.getD 0 []).filter
          (fun x => decide (x ∉ (matched_pairs_with s new_objs C).map Prod.snd)) ∧
      (∀ R : Nat → Nat → Prop, (C.sorted_ids.getD 0 []).Pairwise R →
        (unmatched_cols_with s new_objs C).Pairwise R) ∧
      (∀ x, x ∈ unmatched_cols_with s new_objs C ↔
        (x < new_objs.length ∧ x ∉ (matched_pairs_with s new_objs C).map Prod.snd)) ∧
      (update_branches_with gt s new_objs C).m_next_id =
        s.m_next_id + (unmatched_cols_with s new_objs C).length ∧
      ∀ u, UpdateOutcome gt s new_objs C u →
        u.m_next_id = s.m_next_id + (unmatched_cols_with s new_objs C).length ∧
        ∀ j, j < (unmatched_cols_with s new_objs C).length →
          u.m_active_objects.find? (s.m_next_id + j) =
            some (new_objs.getD ((unmatched_cols_with s new_objs C).getD j 0) default) := by
  have h1' : new_objs.length ≠ 0 := fun e => h1 (List.length_eq_zero.1 e)
  have h2' : s.m_active_objects.size ≠ 0 := fun e => h2 (List.length_eq_zero.1 e)
  have hP := @matched_pairs_with_eq s new_objs C h1' h2'
  have hb := @update_branches_with_general gt s new_objs C h1' h2'
  have hn : (update_branches_with gt s new_objs C).m_next_id =
      s.m_next_id + (unmatched_cols_with s new_objs C).length := by
    rw [hb]
    exact (update_general_with_maps gt hs new_objs hC).2.2.2
  refine ⟨?_, ?_, ?_, hn, ?_⟩
  · rw [hP]
    unfold unmatched_cols_with
    apply List.filter_congr
    intro x _
    rw [(match_loop_with_used s new_objs C).1]
    simp only [List.mem_reverse]
  · intro R hR
    exact hR.filter _
  · rw [hP]
    exact (unmatched_cols_with_spec new_objs hC h2').2.1
  · intro u hu
    have hnu : u.m_next_id = s.m_next_id + (unmatched_cols_with s new_objs C).length := by
      rw [(CleanupOutcome.same hu).1, hn]
    refine ⟨hnu, ?_⟩
    intro j hj
    obtain ⟨_, b1, _⟩ := update_outcome_allocated hu hs hC (Nat.le_add_right s.m_next_id j)
      (by rw [hnu]; exact Nat.add_lt_add_left hj _)
    rw [b1, hb]
    exact (update_general_with_new gt hs new_objs hC hj).1

/-- Witness of C23 amended, at the state `sample_order` and the frame (101,0,0), (30,0,0),
(60,0,0), with exact distances: row `0` is sorted as `1, 2, 0`, detection `0` is matched, and
the new identities `2` and `3` receive the detections `1` and `2`. -/
theorem registration_row_zero_order_witness :
    Consistent sample_order ∧
      (exact_computed sample_order sample_order_frame).Valid
        sample_order.m_active_objects.size sample_order_frame.length ∧
      sample_order_frame ≠ [] ∧ sample_order.m_active_objects ≠ [] ∧
      (exact_computed sample_order sample_order_frame).sorted_ids.getD 0 [] = [1, 2, 0] ∧
      unmatched_cols_with sample_order sample_order_frame
        (exact_computed sample_order sample_order_frame) = [1, 2] ∧
      (update_branches_with gt_by_size sample_order sample_order_frame
          (exact_computed sample_order sample_order_frame)).m_next_id =
        sample_order.m_next_id +
          (unmatched_cols_with sample_order sample_order_frame
            (exact_computed sample_order sample_order_frame)).length :=
  ⟨(Reachable.inv (Reachable.update _ (Reachable.init _ _ _))).cons,
    exact_computed_valid _ _, by decide, by decide, by decide, by decide,
    (registration_row_zero_order gt_by_size sample_order
      (Reachable.inv (Reachable.update _ (Reachable.init _ _ _))).cons sample_order_frame
      (exact_computed sample_order sample_order_frame) (exact_computed_valid _ _)
      (by decide) (by decide)).2.2.2.1⟩

/-- C24. The matching is greedy, not optimal: for every `operator>` there are a reachable state
and a frame where a one-to-one assignment gives each live identity a detection nearer than the
tolerance, and yet `update` leaves a live identity unmatched (count incremented, value kept)
and registers an extra identity.  With identities `0` at (0,0,0) and `1` at (6,0,0),
detections (4,0,0) and (9,0,0) and tolerance 6, identity `1` is processed first and takes
(4,0,0), while `0 -> (4,0,0)`, `1 -> (9,0,0)` are both within tolerance. -/
theorem greedy_not_optimal (gt : Object → Object → Bool) :
    ∃ (s : ObjectTracker) (new_objs : List Object),
      Reachable gt s ∧
      (∀ id, id ∈ s.m_active_objects.keys ↔ id = 0 ∨ id = 1) ∧
      lt_tol (euclidean_distance (s.m_active_objects.get 0) (new_objs.getD 0 default))
        s.m_dist_tol = true ∧
      lt_tol (euclidean_distance (s.m_active_objects.get 1) (new_objs.getD 1 default))
        s.m_dist_tol = true ∧
      matched_pairs s new_objs = [(1, 0)] ∧
      Unmatched 0 s new_objs ∧
      (update gt s new_objs).m_active_objects.find? 0 = s.m_active_objects.find? 0 ∧
      (update gt s new_objs).m_dissapeared.find? 0 = some (s.m_dissapeared.get 0 + 1) ∧
      (update gt s new_objs).m_active_objects.find? s.m_next_id =
        some (new_objs.getD 1 default) ∧
      object_count (update gt s new_objs) = object_count s + 1 := by
  obtain ⟨l, hl, hr⟩ := greedy_state_reachable gt
  obtain ⟨g1, _, _, _⟩ := greedy_match l hl
  obtain ⟨u1, u2, _⟩ := greedy_update gt l hl hr.inv.cons
  refine ⟨greedy_state l, greedy_frame, hr, ?_, rfl, rfl, g1, ?_, ?_, ?_, ?_, ?_⟩
  · intro id
    show id ∈ [0, 1] ↔ _
    simp
  · unfold Unmatched
    rw [g1]
    decide
  · rw [u1]; rfl
  · rw [u2]; rfl
  · rw [u1]; rfl
  · unfold object_count
    rw [u1]; rfl

/-- C25, as stated, fails: asymmetry and transitivity of `operator>` are not enough. With
`a > b` when `a` is greater in both `x` and `y` (asymmetric and transitive), registering
(5,5,0), (0,10,0), (1,1,0) in this order on the empty tracker makes `active_objects()` return
(1,1,0), (0,10,0), (5,5,0), whose last element is greater than its first. -/
theorem registration_sorted_counterexample :
    ¬ ∀ (gt : Object → Object → Bool),
      (∀ a b, gt a b = true → gt b a = false) →
      (∀ a b c, gt a b = true → gt b c = true → gt a c = true) →
      ∀ (objs : List Object),
        (active_objects (register_all gt (ObjectTracker.init ⟨5, 1⟩ 2 0) objs)).1.Pairwise
          (fun a b => gt b a = false) := by
  intro h
  have h1 := h gt_dominates gt_dominates_asymm gt_dominates_trans
    [⟨5, 5, 0, 1⟩, ⟨0, 10, 0, 1⟩, ⟨1, 1, 0, 1⟩]
  revert h1
  decide

/-- C25, amended. Assume `operator>` on `Object` is a strict weak order: asymmetric and
negatively transitive (if neither `a > b` nor `b > c` then not `a > c`). After any sequence of
`register_object` calls on an initially empty tracker, the list returned by `active_objects()`
is the list of the values along `m_id_list` and is sorted in non-increasing order: no element
is greater than an element that precedes it. The `j`-th registered object is the value of the
id `first_id + j`, and of two identities of which neither value is greater than the other, the
one with the greater id (the later-registered one) comes first. -/
theorem registration_sorted (gt : Object → Object → Bool)
    (hasym : ∀ a b, gt a b = true → gt b a = false)
    (hneg : ∀ a b c, gt a b = false → gt b c = false → gt a c = false)
    (distTol : Tolerance) (max_frms : Nat) (first_id : ObjectID) (objs : List Object) :
    (active_objects (register_all gt (ObjectTracker.init distTol max_frms first_id) objs)).1 =
        (register_all gt (ObjectTracker.init distTol max_frms first_id) objs).m_id_list.map
          (fun id => (register_all gt (ObjectTracker.init distTol max_frms first_id)
            objs).m_active_objects.get id) ∧
      (active_objects (register_all gt (ObjectTracker.init distTol max_frms first_id)
        objs)).1.Pairwise (fun a b => gt b a = false) ∧
      (∀ j, j < objs.length →
        (register_all gt (ObjectTracker.init distTol max_frms first_id)
          objs).m_active_objects.find? (first_id + j) = some (objs.getD j default)) ∧
      (register_all gt (ObjectTracker.init distTol max_frms first_id) objs).m_id_list.Pairwise
        (fun a b =>
          gt ((register_all gt (ObjectTracker.init distTol max_frms first_id)
              objs).m_active_objects.get a)
            ((register_all gt (ObjectTracker.init distTol max_frms first_id)
              objs).m_active_objects.get b) = false → b < a) := by
  obtain ⟨hc, hp⟩ := register_all_rank_order gt hasym hneg objs
    (consistent_init distTol max_frms first_id) List.Pairwise.nil
  rw [active_objects_eq hc]
  refine ⟨rfl, ?_, ?_, hp.imp (fun h => h.2)⟩
  · exact List.pairwise_map.2 (hp.imp (fun h => h.1))
  · intro j hj
    have hm := (foldl_register_maps gt objs (consistent_init distTol max_frms first_id)).1
    show StdMap.find? (register_all gt (ObjectTracker.init distTol max_frms first_id)
      objs).m_active_objects (first_id + j) = _
    unfold register_all
    rw [hm]
    show StdMap.find? ([] ++ StdMap.consecutive first_id objs) (first_id + j) = _
    rw [List.nil_append, find?_consecutive _ _ _ hj]
    exact getElem?_eq_some_getD _ _ hj

/-- Witness of C25 amended: `operator>` comparing sizes, objects of sizes 2, 1, 2, 3 registered
in this order; `active_objects()` returns the sizes 3, 2, 2, 1 with the later-registered object
of size 2 first. -/
theorem registration_sorted_witness :
    (∀ a b, gt_by_size a b = true → gt_by_size b a = false) ∧
      (∀ a b c, gt_by_size a b = false → gt_by_size b c = false → gt_by_size a c = false) ∧
      (active_objects (register_all gt_by_size (ObjectTracker.init ⟨5, 1⟩ 2 0)
        [⟨0, 0, 0, 2⟩, ⟨1, 0, 0, 1⟩, ⟨2, 0, 0, 2⟩, ⟨3, 0, 0, 3⟩])).1 =
          [⟨3, 0, 0, 3⟩, ⟨2, 0, 0, 2⟩, ⟨0, 0, 0, 2⟩, ⟨1, 0, 0, 1⟩] ∧
      (active_objects (register_all gt_by_size (ObjectTracker.init ⟨5, 1⟩ 2 0)
        [⟨0, 0, 0, 2⟩, ⟨1, 0, 0, 1⟩, ⟨2, 0, 0, 2⟩, ⟨3, 0, 0, 3⟩])).1.Pairwise
          (fun a b => gt_by_size b a = false) :=
  ⟨gt_by_size_asymm, gt_by_size_neg_trans, by decide,
    (registration_sorted gt_by_size gt_by_size_asymm gt_by_size_neg_trans ⟨5, 1⟩ 2 0
      [⟨0, 0, 0, 2⟩, ⟨1, 0, 0, 1⟩, ⟨2, 0, 0, 2⟩, ⟨3, 0, 0, 3⟩]).2.1⟩

/-- C26, at a failing input (the input of C3, one call further).  After the run of
`update(five_second_frame)` that leaves `five_skipped`, identity `2` is live with count `1`,
above the threshold `0`.  The call `update(five_third_frame)`, a frame of five detections,
matches identity `2` to the detection (201,0,0) and leaves its count at `1`; the entry of
identity `2` is the only one over the threshold, so every run of the eviction loop
deregisters it: the identity matched in the call is not live when the call returns, and
`object_count()` is `4`, where the claim says it is at least `5`. -/
theorem matched_identity_evicted_same_call :
    five_skipped.m_dissapeared.find? 2 = some 1 ∧
      five_skipped.m_max_dissapeared_frms = 0 ∧
      (2, 1) ∈ matched_pairs five_skipped five_third_frame ∧
      five_third_frame.length = 5 ∧
      evicted five_rematched = [2] ∧
      ∀ u, UpdateOutcome gt_by_size five_skipped five_third_frame
          (exact_computed five_skipped five_third_frame) u →
        2 ∉ u.m_active_objects.keys ∧ object_count u = 4 := by
  refine ⟨by decide, by decide, by decide, by decide, by decide, ?_⟩
  intro u hu
  have he : evicted (update_branches_with gt_by_size five_skipped five_third_frame
      (exact_computed five_skipped five_third_frame)) = [2] := by decide
  rw [(cleanup_outcome_singleton he u).1 hu]
  exact ⟨by decide, by decide⟩

end urGovernor
